import Mathlib

/-!
# FreeRADIUS module support (`src/main/modules.c`)

A shallow embedding of the module loader and dispatcher of `modules.c`.

* The file-level statics of `modules.c` (`module_list`, `module_instance_list`,
  `components[]`, the `static` counters inside `new_authtype_value` and
  `load_subcomponent_section`) together with the value dictionary are the
  fields of `State`; every C function becomes a function on `State`.
* A pointer to a node of a singly linked list is the position of the node in
  the list (the lists only grow at the tail, so positions are stable); `NULL`
  is `none`.
* Everything outside `modules.c` that a call may read or change (plugin
  memory, the dynamic loader) is the `world` field; hooks and handlers are
  functions on it.  Calls that leave `modules.c` are recorded in `trace`.
* A name is stored by the bounded copy `strNcpy` into a buffer whose size is a
  constant of a header (`MAX_STRING_LEN`, the size of the name of a dictionary
  value): the stored name is what fits, and the searches compare it with the
  whole name asked for, as `strcmp` does.
-/

namespace Modules

/-! ## Data model -/

/-- Memory outside `modules.c` that plugin hooks and the dynamic loader read and write. -/
structure World where
  cells : List Int
deriving DecidableEq, Repr

/-- Modelled from the spec: `REQUEST` is declared in `radiusd.h`, which is not among the
sources.  `modules.c` reads `username` and writes the three `simul_*` fields; every other
field of the request is kept in `payload`. -/
structure REQUEST where
  username : Option String
  simul_count : Int
  simul_max : Int
  simul_mpp : Int
  payload : List Int
deriving DecidableEq, Repr

/-- Modelled from the spec: constants of `modules.h`, `radius.h` and `libradius.h`, which are
not among the sources.  They are parameters of the development: no value is assumed for
them.  `MAX_STRING_LEN` is the size of the `name` member of `module_list_t` and of
`module_instance_t`, and `DICT_VALUE_NAME_SIZE` is `sizeof(new_value->name)`, the size of the
`name` member of `DICT_VALUE`. -/
structure Consts where
  RLM_MODULE_OK : Int
  RLM_MODULE_FAIL : Int
  PW_AUTHTYPE : Int
  RLM_TYPE_THREAD_UNSAFE : Nat
  MAX_STRING_LEN : Nat
  DICT_VALUE_NAME_SIZE : Nat
deriving DecidableEq, Repr

/-- Modelled from the spec: the component numbers of `modules.h` (not among the sources),
numbered in the order of the initialiser of `component_names[]`, which is the order of the
spec's list of phases.  This one is "authenticate". -/
def RLM_COMPONENT_AUTH : Nat := 0

/-- Modelled from the spec: the number of "authorize" in `component_names[]`. -/
def RLM_COMPONENT_AUTZ : Nat := 1

/-- Modelled from the spec: the number of "preacct" in `component_names[]`. -/
def RLM_COMPONENT_PREACCT : Nat := 2

/-- Modelled from the spec: the number of "accounting" in `component_names[]`. -/
def RLM_COMPONENT_ACCT : Nat := 3

/-- Modelled from the spec: the number of "session" in `component_names[]`. -/
def RLM_COMPONENT_SESS : Nat := 4

/-- Modelled from the spec: the number of entries of `component_names[]`. -/
def RLM_COMPONENT_COUNT : Nat := 5

/-- Modelled from the spec: the configuration tree of `conffile.h` (not among the sources):
an item is an attribute pair or a section with two labels, the second optional. -/
inductive CONF_ITEM where
  | pair (attr : String) (lineno : Int) : CONF_ITEM
  | sect (name1 : String) (name2 : Option String) (lineno : Int)
      (children : List CONF_ITEM) : CONF_ITEM

/-- A phase handler `int (*)(void *instance, REQUEST *request)`: it may change the request
and the world. -/
abbrev Handler := Nat → REQUEST → World → Int × REQUEST × World

/-- Modelled from the spec: the capability table `module_t` of `modules.h` (not among the
sources), with the members `modules.c` uses.  A `NULL` function pointer is `none`.
`instantiate` receives the configuration block and the current `*insthandle` and returns
its result code and the new `*insthandle`. -/
structure module_t where
  name : String
  type : Nat
  init : Option (World → Int × World)
  instantiate : Option (CONF_ITEM → Nat → World → Int × Nat × World)
  authenticate : Option Handler
  authorize : Option Handler
  preaccounting : Option Handler
  accounting : Option Handler
  checksimul : Option Handler
  detach : Option (Nat → World → Int × World)
  destroy : Option (World → Int × World)

/-- A loaded library: `module_list_t` without its `next` pointer. -/
structure module_list_t where
  name : String
  module : module_t
  handle : Nat

/-- A module instance: `module_instance_t` without its `next` pointer.  `entry` points into
`module_list`; `mutex` tells whether the `mutex` pointer is non-`NULL`. -/
structure module_instance_t where
  name : String
  entry : Nat
  insthandle : Nat
  mutex : Bool
deriving DecidableEq, Repr

/-- One chain entry: `config_module_t` without `next`; `instance` points into
`module_instance_list`. -/
structure config_module_t where
  «instance» : Nat
deriving DecidableEq, Repr

/-- One indexed chain: `indexed_config_module_t` without `next`. -/
structure indexed_config_module_t where
  idx : Int
  modulelist : List config_module_t
deriving DecidableEq, Repr

/-- Modelled from the spec: `DICT_VALUE` of `libradius.h` (not among the sources): a named
value of an attribute. -/
structure DICT_VALUE where
  attr : Int
  name : String
  value : Int
deriving DecidableEq, Repr

/-- Messages given to `radlog`. -/
inductive LogMsg where
  | link_failed (module_name : String)
  | no_module_structure (module_name : String)
  | init_failed (module_name : String)
  | no_modules_section
  | no_configuration_entry (instname : String)
  | instantiation_failed (instname : String)
  | missing_entry (comp : Int) (module_name : String)
  | unknown_component (comp : Int)
  | already_configured (comp : Nat) (name : Option String)
  | libraries_failed
deriving DecidableEq, Repr

/-- Calls that leave `modules.c`, in the order they are made. -/
inductive Event where
  | lt_dlinit (rc : Int)
  | lt_dlsetsearchpath
  | lt_dlopenext (module_name : String) (found : Bool)
  | lt_dlsym (module_name : String) (found : Bool)
  | lt_dlclose (handle : Nat)
  | init (module_name : String) (rc : Int)
  | destroy (module_name : String)
  | instantiate (instname : String) (rc : Int)
  | detach (instname : String) (insthandle : Nat)
  | mutex_init (instname : String)
  | mutex_destroy (instname : String)
  | mutex_lock (inst : Nat)
  | mutex_unlock (inst : Nat)
  | handler (comp : Nat) (inst : Nat) (rcode : Int)
  | radlog (msg : LogMsg)
deriving DecidableEq, Repr

/-- The statics of `modules.c`, the value dictionary, the outside world and the trace. -/
structure State where
  module_list : List module_list_t
  module_instance_list : List module_instance_t
  components : Nat → List indexed_config_module_t
  dictionary_values : List DICT_VALUE
  max_value : Int
  meaningless_counter : Int
  world : World
  trace : List Event

/-- Append one event to the trace. -/
def State.emit (st : State) (e : Event) : State :=
  { st with trace := st.trace ++ [e] }

/-! ## Chain tables -/

/-- The loop of `lookup_by_index`: the first node whose `idx` is the wanted one. -/
def lookup_by_index : List indexed_config_module_t → Int → Option Nat
  | [], _ => none
  | p :: next, idx =>
    if p.idx = idx then some 0 else (lookup_by_index next idx).map (fun q => q + 1)

/-- The loop of `new_sublist` over one table: an existing node with the index is returned
when the index is 0 and is an error otherwise; with no such node a fresh one, with an empty
chain, is linked at the tail. -/
def new_sublist_in : List indexed_config_module_t → Int →
    Option Nat × List indexed_config_module_t
  | [], idx => (some 0, [{ idx := idx, modulelist := [] }])
  | node :: next, idx =>
    if node.idx = idx then
      (if idx = 0 then some 0 else none, node :: next)
    else
      let r := new_sublist_in next idx
      (r.1.map (fun q => q + 1), node :: r.2)

/-- Replace the table of one component. -/
def State.setComponent (st : State) (comp : Nat) (t : List indexed_config_module_t) : State :=
  { st with components := fun c => if c = comp then t else st.components c }

/-- `new_sublist(comp, idx)`: works on `components[comp]`. -/
def new_sublist (comp : Nat) (idx : Int) (st : State) : Option Nat × State :=
  let r := new_sublist_in (st.components comp) idx
  (r.1, st.setComponent comp r.2)

/-! ## Executors -/

/-- `safe_lock`: locks the mutex of the instance when it has one. -/
def safe_lock (ptr : Nat) (inst : module_instance_t) (st : State) : State :=
  if inst.mutex then st.emit (Event.mutex_lock ptr) else st

/-- `safe_unlock`: unlocks the mutex of the instance when it has one. -/
def safe_unlock (ptr : Nat) (inst : module_instance_t) (st : State) : State :=
  if inst.mutex then st.emit (Event.mutex_unlock ptr) else st

/-- One turn of an executor loop body: follow `this->instance->entry->module`, lock, call
the handler selected by `sel` with the instance handle and the request, unlock.  Following
a dangling or `NULL` pointer, or calling a `NULL` handler, has no defined result: `none`. -/
def invoke (sel : module_t → Option Handler) (comp : Nat) (this : config_module_t)
    (request : REQUEST) (st : State) : Option (Int × REQUEST × State) :=
  match st.module_instance_list[this.instance]? with
  | none => none
  | some inst =>
    match st.module_list[inst.entry]? with
    | none => none
    | some entry =>
      match sel entry.module with
      | none => none
      | some f =>
        let st1 := safe_lock this.instance inst st
        let r := f inst.insthandle request st1.world
        let st2 := { st1 with world := r.2.2 }
        let st3 := st2.emit (Event.handler comp this.instance r.1)
        some (r.1, r.2.1, safe_unlock this.instance inst st3)

/-- The loop `while (this && rcode == cont) { ...; this = this->next; }` shared by the five
executors; `cont` is `RLM_MODULE_OK` or `RLM_MODULE_FAIL`. -/
def walk (sel : module_t → Option Handler) (comp : Nat) (cont : Int) :
    List config_module_t → Int → REQUEST → State → Option (Int × REQUEST × State)
  | [], rcode, request, st => some (rcode, request, st)
  | this :: next, rcode, request, st =>
    if rcode = cont then
      match invoke sel comp this request st with
      | none => none
      | some out => walk sel comp cont next out.1 out.2.1 out.2.2
    else some (rcode, request, st)

/-- The expression `lookup_by_index(components[comp], idx)->modulelist`; `none` when the
lookup gives `NULL`. -/
def chain_of (st : State) (comp : Nat) (idx : Int) : Option (List config_module_t) :=
  match lookup_by_index (st.components comp) idx with
  | none => none
  | some p => ((st.components comp)[p]?).map (fun node => node.modulelist)

/-- `module_authorize`. -/
def module_authorize (k : Consts) (request : REQUEST) (st : State) :
    Option (Int × REQUEST × State) :=
  match chain_of st RLM_COMPONENT_AUTZ 0 with
  | none => none
  | some this =>
    walk (fun m => m.authorize) RLM_COMPONENT_AUTZ k.RLM_MODULE_OK this k.RLM_MODULE_OK
      request st

/-- `module_authenticate`. -/
def module_authenticate (k : Consts) (auth_type : Int) (request : REQUEST) (st : State) :
    Option (Int × REQUEST × State) :=
  match chain_of st RLM_COMPONENT_AUTH auth_type with
  | none => none
  | some this =>
    walk (fun m => m.authenticate) RLM_COMPONENT_AUTH k.RLM_MODULE_FAIL this
      k.RLM_MODULE_FAIL request st

/-- `module_preacct`. -/
def module_preacct (k : Consts) (request : REQUEST) (st : State) :
    Option (Int × REQUEST × State) :=
  match chain_of st RLM_COMPONENT_PREACCT 0 with
  | none => none
  | some this =>
    walk (fun m => m.preaccounting) RLM_COMPONENT_PREACCT k.RLM_MODULE_OK this
      k.RLM_MODULE_OK request st

/-- `module_accounting`. -/
def module_accounting (k : Consts) (request : REQUEST) (st : State) :
    Option (Int × REQUEST × State) :=
  match chain_of st RLM_COMPONENT_ACCT 0 with
  | none => none
  | some this =>
    walk (fun m => m.accounting) RLM_COMPONENT_ACCT k.RLM_MODULE_OK this
      k.RLM_MODULE_OK request st

/-- `module_checksimul`: the returned number is 0, or `request->simul_mpp`. -/
def module_checksimul (k : Consts) (request : REQUEST) (maxsimul : Int) (st : State) :
    Option (Int × REQUEST × State) :=
  match st.components RLM_COMPONENT_SESS with
  | [] => some (0, request, st)
  | _ :: _ =>
    match request.username with
    | none => some (0, request, st)
    | some _ =>
      let request1 :=
        { request with simul_count := 0, simul_max := maxsimul, simul_mpp := 1 }
      match chain_of st RLM_COMPONENT_SESS 0 with
      | none => none
      | some this =>
        match walk (fun m => m.checksimul) RLM_COMPONENT_SESS k.RLM_MODULE_FAIL this
            k.RLM_MODULE_FAIL request1 st with
        | none => none
        | some out =>
          if out.1 ≠ k.RLM_MODULE_OK then some (0, out.2.1, out.2.2)
          else
            some (if out.2.1.simul_count < maxsimul then 0 else out.2.1.simul_mpp,
              out.2.1, out.2.2)

/-! ## Specification vocabulary for the registries -/

/-- Number of instances registered under a name. -/
def instances_named (instname : String) (st : State) : Nat :=
  (st.module_instance_list.map (fun i => i.name)).count instname

/-- Number of runs of an `instantiate` hook for an instance name, read off a trace. -/
def instantiate_runs (instname : String) (t : List Event) : Nat :=
  t.countP (fun e => match e with
    | Event.instantiate n _ => decide (n = instname)
    | _ => false)

/-- Number of runs of an `instantiate` hook for an instance name that did not fail. -/
def instantiate_successes (instname : String) (t : List Event) : Nat :=
  t.countP (fun e => match e with
    | Event.instantiate n rc => decide (n = instname ∧ 0 ≤ rc)
    | _ => false)

/-! ## Specification vocabulary for the executors -/

/-- The instances whose handler was called, in call order, read off a trace. -/
def called (t : List Event) : List Nat :=
  t.filterMap (fun e => match e with
    | Event.handler _ inst _ => some inst
    | _ => none)

/-- Specification side of a chain walk: every handler of the list is called in turn, each
on the request and state its predecessor left, and each returns `code`; the value is the
request and state left by the last one. -/
def allReturn (sel : module_t → Option Handler) (comp : Nat) (code : Int) :
    List config_module_t → REQUEST → State → Option (REQUEST × State)
  | [], request, st => some (request, st)
  | h :: rest, request, st =>
    match invoke sel comp h request st with
    | none => none
    | some out => if out.1 = code then allReturn sel comp code rest out.2.1 out.2.2 else none

/-- What the spec asks of a walk over `chain` with continue-code `code`:
the first handler that returns something else ends the walk, its result is the result, the
handlers called are exactly those up to it; when all return `code` all are called and the
result is `code`. -/
def ShortCircuit (sel : module_t → Option Handler) (comp : Nat) (code : Int)
    (chain : List config_module_t) (request : REQUEST) (st : State)
    (result : Option (Int × REQUEST × State)) : Prop :=
  (∀ pre h post request1 st1 c request2 st2,
      chain = pre ++ h :: post →
      allReturn sel comp code pre request st = some (request1, st1) →
      invoke sel comp h request1 st1 = some (c, request2, st2) →
      c ≠ code →
      result = some (c, request2, st2) ∧
        called st2.trace = called st.trace ++ (pre ++ [h]).map (fun n => n.instance)) ∧
  (∀ request1 st1,
      allReturn sel comp code chain request st = some (request1, st1) →
      result = some (code, request1, st1) ∧
        called st1.trace = called st.trace ++ chain.map (fun n => n.instance))

/-! ## The value dictionary and `new_authtype_value` -/

/-- Modelled from the spec: `strNcpy(dest, src, n)` of the library (not among the sources),
the bounded copy into a buffer of `n` bytes: what `dest` holds afterwards is at most the
first `n - 1` characters of `src`, then the terminator.  A character of a model string
stands for one `char` of the C string. -/
def strNcpy (src : String) (n : Nat) : String := ⟨src.data.take (n - 1)⟩

/-- The name fits a buffer of `n` bytes with its terminator, so `strNcpy` copies it whole. -/
@[reducible] def Fits (name : String) (n : Nat) : Prop := name.length < n

/-- Modelled from the spec: `dict_valbyname` of `dict.c` (not among the sources), the
`lookupByName` of the dictionary collaborator: the first value with the given name. -/
def dict_valbyname : List DICT_VALUE → String → Option DICT_VALUE
  | [], _ => none
  | v :: next, name => if v.name = name then some v else dict_valbyname next name

/-- Modelled from the spec: `dict_valbyattr` of `dict.c` (not among the sources), the
`lookupBaseEnumeration` of the dictionary collaborator: the first value of the attribute
with the given number, with its position in the list. -/
def dict_valbyattr : List DICT_VALUE → Int → Int → Option (Nat × DICT_VALUE)
  | [], _, _ => none
  | v :: next, attr, val =>
    if v.attr = attr ∧ v.value = val then some (0, v)
    else (dict_valbyattr next attr val).map (fun r => (r.1 + 1, r.2))

/-- The statements `memcpy(new_value, old_value, ...); old_value->next = new_value;`: the new
node takes over the successor of the node at position `p` and becomes its successor. -/
def link_after (dict : List DICT_VALUE) (p : Nat) (new_value : DICT_VALUE) : List DICT_VALUE :=
  dict.take (p + 1) ++ new_value :: dict.drop (p + 1)

/-- The value of an `int` expression: 32 bits, two's complement, wrapping around. -/
def wrap_int (x : Int) : Int := (x + 2 ^ 31) % 2 ^ 32 - 2 ^ 31

/-- The initialiser of `static int max_value` in `new_authtype_value`. -/
def max_value_initial : Int := 32767

/-- `new_authtype_value`: the value of a known name; else, with the base Auth-Type value
(number 0) present, a copy of it under the new name and with the value `max_value++`;
else 0. -/
def new_authtype_value (k : Consts) (name : String) (st : State) : Int × State :=
  match dict_valbyname st.dictionary_values name with
  | some old_value => (old_value.value, st)
  | none =>
    match dict_valbyattr st.dictionary_values k.PW_AUTHTYPE 0 with
    | none => (0, st)
    | some (p, old_value) =>
      let new_value : DICT_VALUE :=
        { old_value with name := strNcpy name k.DICT_VALUE_NAME_SIZE, value := st.max_value }
      (new_value.value,
        { st with
          dictionary_values := link_after st.dictionary_values p new_value,
          max_value := wrap_int (st.max_value + 1) })

/-- Successive calls of `new_authtype_value`: the returned values, in call order, and the
state after the last call. -/
def new_authtype_values (k : Consts) : List String → State → List Int × State
  | [], st => ([], st)
  | name :: rest, st =>
    let r := new_authtype_value k name st
    let rr := new_authtype_values k rest r.2
    (r.1 :: rr.1, rr.2)

/-! ## Libraries and instances -/

/-- Modelled from the spec: the dynamic loading collaborator (libltdl) and the root of the
configuration tree, neither among the sources.  The loader calls may read and change the
world; `config` is the list of top-level items `cf_section_find` searches. -/
structure Env where
  lt_dlinit : World → Int × World
  lt_dlopenext : String → World → Option Nat × World
  lt_dlsym : Nat → String → World → Option module_t × World
  lt_dlclose : Nat → World → World
  config : List CONF_ITEM

/-- The search loop of `linkto_module`: the first library of the given name. -/
def find_module : List module_list_t → String → Option Nat
  | [], _ => none
  | node :: next, module_name =>
    if node.name = module_name then some 0
    else (find_module next module_name).map (fun q => q + 1)

/-- The error exits of `linkto_module` after the library was opened: log, close, no node. -/
def linkto_module_fail (env : Env) (msg : LogMsg) (handle : Nat) (st : State) : State :=
  let st1 := st.emit (Event.radlog msg)
  { st1 with world := env.lt_dlclose handle st1.world }.emit (Event.lt_dlclose handle)

/-- `linkto_module`: a library already in `module_list` is returned as it is; else the
library is opened, its `module_t` resolved, its `init` hook run, and on success a new node
is linked at the tail of `module_list`. -/
def linkto_module (k : Consts) (env : Env) (module_name : String) (st : State) :
    Option Nat × State :=
  match find_module st.module_list module_name with
  | some node => (some node, st)
  | none =>
    let o := env.lt_dlopenext module_name st.world
    let st1 := { st with world := o.2 }.emit (Event.lt_dlopenext module_name o.1.isSome)
    match o.1 with
    | none => (none, st1.emit (Event.radlog (LogMsg.link_failed module_name)))
    | some handle =>
      let y := env.lt_dlsym handle module_name st1.world
      let st2 := { st1 with world := y.2 }.emit (Event.lt_dlsym module_name y.1.isSome)
      match y.1 with
      | none =>
        (none, linkto_module_fail env (LogMsg.no_module_structure module_name) handle st2)
      | some module =>
        let node : module_list_t :=
          { name := strNcpy module_name k.MAX_STRING_LEN, module := module, handle := handle }
        match module.init with
        | none =>
          (some st2.module_list.length,
            { st2 with module_list := st2.module_list ++ [node] })
        | some init =>
          let i := init st2.world
          let st3 := { st2 with world := i.2 }.emit (Event.init module_name i.1)
          if i.1 < 0 then
            (none, linkto_module_fail env (LogMsg.init_failed module_name) handle st3)
          else
            (some st3.module_list.length,
              { st3 with module_list := st3.module_list ++ [node] })

/-- Modelled from the spec: `cf_section_find` of `conffile.c` (not among the sources): the
first top-level section with the given first label. -/
def cf_section_find : List CONF_ITEM → String → Option CONF_ITEM
  | [], _ => none
  | CONF_ITEM.pair _ _ :: next, name => cf_section_find next name
  | CONF_ITEM.sect name1 name2 lineno children :: next, name =>
    if name1 = name then some (CONF_ITEM.sect name1 name2 lineno children)
    else cf_section_find next name

/-- The items of a section, in order; a pair has none. -/
def CONF_ITEM.items : CONF_ITEM → List CONF_ITEM
  | CONF_ITEM.pair _ _ => []
  | CONF_ITEM.sect _ _ _ children => children

/-- The first label of a section (`cf_section_name1`), the attribute of a pair
(`cf_pair_attr`). -/
def CONF_ITEM.name1 : CONF_ITEM → String
  | CONF_ITEM.pair attr _ => attr
  | CONF_ITEM.sect name1 _ _ _ => name1

/-- The second label of a section (`cf_section_name2`), `NULL` when there is none. -/
def CONF_ITEM.name2 : CONF_ITEM → Option String
  | CONF_ITEM.pair _ _ => none
  | CONF_ITEM.sect _ name2 _ _ => name2

/-- The line of an item (`cf_section_lineno`, `cf_pair_lineno`). -/
def CONF_ITEM.lineno : CONF_ITEM → Int
  | CONF_ITEM.pair _ lineno => lineno
  | CONF_ITEM.sect _ _ lineno _ => lineno

/-- The loop of `find_module_instance` over the subsections of `modules`: the first one
with `(name2 && !strcmp(name2, instname)) || (!name2 && !strcmp(name1, instname))`. -/
def find_instance_section : List CONF_ITEM → String → Option CONF_ITEM
  | [], _ => none
  | CONF_ITEM.pair _ _ :: next, instname => find_instance_section next instname
  | CONF_ITEM.sect name1 name2 lineno children :: next, instname =>
    if name2 = some instname ∨ (name2 = none ∧ name1 = instname) then
      some (CONF_ITEM.sect name1 name2 lineno children)
    else find_instance_section next instname

/-- The search loop of `find_module_instance`: the first instance of the given name. -/
def find_instance : List module_instance_t → String → Option Nat
  | [], _ => none
  | node :: next, instname =>
    if node.name = instname then some 0
    else (find_instance next instname).map (fun q => q + 1)

/-- The statement `snprintf(module_name, sizeof(module_name), "rlm_%s", name1)` with
`char module_name[256]`: at most the first 255 characters of "rlm_" followed by `name1`. -/
def rlm_module_name (name1 : String) : String := ⟨("rlm_" ++ name1).data.take 255⟩

/-- The end of `find_module_instance`: the name is filled in, a mutex is made when the
library is flagged thread-unsafe, and the node is linked at the tail of
`module_instance_list`. -/
def register_instance (k : Consts) (instname : String) (entry : Nat) (lib : module_list_t)
    (insthandle : Nat) (st : State) : Option Nat × State :=
  let unsafe_flag : Bool := decide (lib.module.type &&& k.RLM_TYPE_THREAD_UNSAFE ≠ 0)
  let st1 := if unsafe_flag then st.emit (Event.mutex_init instname) else st
  let node : module_instance_t :=
    { name := strNcpy instname k.MAX_STRING_LEN, entry := entry, insthandle := insthandle,
      mutex := unsafe_flag }
  (some st1.module_instance_list.length,
    { st1 with module_instance_list := st1.module_instance_list ++ [node] })

/-- `find_module_instance`: an instance already in `module_instance_list` is returned as it
is; else its configuration block is looked up in `modules`, its library linked, the
`instantiate` hook run, and on success the new instance is registered. -/
def find_module_instance (k : Consts) (env : Env) (instname : String) (st : State) :
    Option Nat × State :=
  match find_instance st.module_instance_list instname with
  | some node => (some node, st)
  | none =>
    match cf_section_find env.config "modules" with
    | none => (none, st.emit (Event.radlog LogMsg.no_modules_section))
    | some cs =>
      match find_instance_section cs.items instname with
      | none => (none, st.emit (Event.radlog (LogMsg.no_configuration_entry instname)))
      | some inst_cs =>
        let l := linkto_module k env (rlm_module_name inst_cs.name1) st
        match l.1 with
        | none => (none, l.2)
        | some entry =>
          match l.2.module_list[entry]? with
          | none => (none, l.2)
          | some lib =>
            match lib.module.instantiate with
            | none => register_instance k instname entry lib 0 l.2
            | some hook =>
              let r := hook inst_cs 0 l.2.world
              let st1 := { l.2 with world := r.2.2 }.emit (Event.instantiate instname r.1)
              if r.1 < 0 then
                (none, st1.emit (Event.radlog (LogMsg.instantiation_failed instname)))
              else register_instance k instname entry lib r.2.1 st1

/-- Successive calls of `find_module_instance`: the results, in call order, and the final
state. -/
def find_module_instances (k : Consts) (env : Env) :
    List String → State → List (Option Nat) × State
  | [], st => ([], st)
  | instname :: rest, st =>
    let r := find_module_instance k env instname st
    let rr := find_module_instances k env rest r.2
    (r.1 :: rr.1, rr.2)

/-! ## Building the chains -/

/-- How a setup function ends: it returns, it calls `exit(1)`, or it stops at a failed
`assert` or a `NULL` dereference. -/
inductive Outcome where
  | returned (st : State) : Outcome
  | exited (st : State) : Outcome
  | crashed (st : State) : Outcome

/-- Steps 2 and 3 of `add_to_list` on the table entry at position `p`: a new node at the
end of its chain. -/
def append_to_chain : List indexed_config_module_t → Nat → config_module_t →
    List indexed_config_module_t
  | [], _, _ => []
  | node :: next, 0, c => { node with modulelist := node.modulelist ++ [c] } :: next
  | node :: next, p + 1, c => node :: append_to_chain next p c

/-- `add_to_list(comp, instance, idx)`: the entry of index `idx` is looked up (`assert`),
and the instance is put at the end of its chain. -/
def add_to_list (comp : Nat) (inst : Nat) (idx : Int) (st : State) : Outcome :=
  match lookup_by_index (st.components comp) idx with
  | none => Outcome.crashed st
  | some subcomp =>
    Outcome.returned
      (st.setComponent comp (append_to_chain (st.components comp) subcomp ⟨inst⟩))

/-- `sanity_check`: `exit(1)` when the module lacks the handler of the component, and for an
unknown component. -/
def sanity_check (comp : Int) (mod : module_t) (st : State) : Outcome :=
  if comp = RLM_COMPONENT_AUTH then
    if mod.authenticate.isNone then
      Outcome.exited (st.emit (Event.radlog (LogMsg.missing_entry comp mod.name)))
    else Outcome.returned st
  else if comp = RLM_COMPONENT_AUTZ then
    if mod.authorize.isNone then
      Outcome.exited (st.emit (Event.radlog (LogMsg.missing_entry comp mod.name)))
    else Outcome.returned st
  else if comp = RLM_COMPONENT_PREACCT then
    if mod.preaccounting.isNone then
      Outcome.exited (st.emit (Event.radlog (LogMsg.missing_entry comp mod.name)))
    else Outcome.returned st
  else if comp = RLM_COMPONENT_ACCT then
    if mod.accounting.isNone then
      Outcome.exited (st.emit (Event.radlog (LogMsg.missing_entry comp mod.name)))
    else Outcome.returned st
  else if comp = RLM_COMPONENT_SESS then
    if mod.checksimul.isNone then
      Outcome.exited (st.emit (Event.radlog (LogMsg.missing_entry comp mod.name)))
    else Outcome.returned st
  else Outcome.exited (st.emit (Event.radlog (LogMsg.unknown_component comp)))

/-- The entries of `component_names[]`. -/
def component_names : List String :=
  ["authenticate", "authorize", "preacct", "accounting", "session"]

/-- The entries of `subcomponent_names[]`. -/
def subcomponent_names : List String :=
  ["authtype", "autztype", "preacctype", "acctype", "sesstype"]

/-- The loop of `load_subcomponent_section` over the items of the block: each is resolved
(`exit(1)` when that fails), checked, and put at the end of the chain of index `idx`. -/
def load_subcomponent_items (k : Consts) (env : Env) (comp : Nat) (idx : Int) :
    List CONF_ITEM → State → Outcome
  | [], st => Outcome.returned st
  | modref :: next, st =>
    let f := find_module_instance k env modref.name1 st
    match f.1 with
    | none => Outcome.exited f.2
    | some this =>
      match f.2.module_instance_list[this]? with
      | none => Outcome.crashed f.2
      | some inst =>
        match f.2.module_list[inst.entry]? with
        | none => Outcome.crashed f.2
        | some lib =>
          match sanity_check comp lib.module f.2 with
          | Outcome.returned st1 =>
            match add_to_list comp this idx st1 with
            | Outcome.returned st2 => load_subcomponent_items k env comp idx next st2
            | other => other
          | other => other

/-- `load_subcomponent_section`: the index is `new_authtype_value(name2)` for Authenticate
and `meaningless_counter++` otherwise; when `new_sublist` refuses the index the block is
logged and skipped. -/
def load_subcomponent_section (k : Consts) (env : Env) (cs : CONF_ITEM) (comp : Nat)
    (st : State) : Outcome :=
  let pick : Option (Int × State) :=
    if comp = RLM_COMPONENT_AUTH then
      match cs.name2 with
      | none => none
      | some name2 => some (new_authtype_value k name2 st)
    else
      some (st.meaningless_counter,
        { st with meaningless_counter := wrap_int (st.meaningless_counter + 1) })
  match pick with
  | none => Outcome.crashed st
  | some (idx, st1) =>
    let s := new_sublist comp idx st1
    match s.1 with
    | none =>
      Outcome.returned (s.2.emit (Event.radlog (LogMsg.already_configured comp cs.name2)))
    | some _ => load_subcomponent_items k env comp idx cs.items s.2

/-- The body of the loop of `load_component_section` for a plain reference: resolve
(`exit(1)` when that fails), check, take `new_authtype_value(this->name)` for Authenticate
and 0 otherwise as index; when `new_sublist` refuses the index the reference is logged and
skipped (`continue`), else the instance is put at the end of the chain. -/
def load_reference (k : Consts) (env : Env) (comp : Nat) (modref : CONF_ITEM) (st : State) :
    Outcome :=
  let f := find_module_instance k env modref.name1 st
  match f.1 with
  | none => Outcome.exited f.2
  | some this =>
    match f.2.module_instance_list[this]? with
    | none => Outcome.crashed f.2
    | some inst =>
      match f.2.module_list[inst.entry]? with
      | none => Outcome.crashed f.2
      | some lib =>
        match sanity_check comp lib.module f.2 with
        | Outcome.returned st1 =>
          let pick : Int × State :=
            if comp = RLM_COMPONENT_AUTH then new_authtype_value k inst.name st1
            else (0, st1)
          let s := new_sublist comp pick.1 pick.2
          match s.1 with
          | none =>
            Outcome.returned
              (s.2.emit (Event.radlog (LogMsg.already_configured comp (some inst.name))))
          | some _ => add_to_list comp this pick.1 s.2
        | other => other

/-- `load_component_section`, as a loop over the items of the section: a subsection whose
first label is `subcomponent_names[comp]` goes to `load_subcomponent_section`, every other
item is a plain reference. -/
def load_component_section (k : Consts) (env : Env) (comp : Nat) :
    List CONF_ITEM → State → Outcome
  | [], st => Outcome.returned st
  | modref :: next, st =>
    let step : Outcome :=
      match modref with
      | CONF_ITEM.sect name1 _ _ _ =>
        if some name1 = subcomponent_names[comp]? then
          load_subcomponent_section k env modref comp st
        else load_reference k env comp modref st
      | CONF_ITEM.pair _ _ => load_reference k env comp modref st
    match step with
    | Outcome.returned st1 => load_component_section k env comp next st1
    | other => other

/-! ## Teardown and `setup_modules` -/

/-- `instance_list_free`: each instance gets its `detach` hook called, when the library has
one, and its mutex destroyed, when it has one; the list is empty afterwards. -/
def instance_list_free : List module_instance_t → State → Outcome
  | [], st => Outcome.returned { st with module_instance_list := [] }
  | c :: next, st =>
    match st.module_list[c.entry]? with
    | none => Outcome.crashed st
    | some lib =>
      let st1 :=
        match lib.module.detach with
        | none => st
        | some hook =>
          { st with world := (hook c.insthandle st.world).2 }.emit
            (Event.detach c.name c.insthandle)
      let st2 := if c.mutex then st1.emit (Event.mutex_destroy c.name) else st1
      instance_list_free next st2

/-- The last loop of `module_list_free`: each library gets its `destroy` hook called, when
it has one, and is closed; the list is empty afterwards. -/
def module_list_free_libraries (env : Env) : List module_list_t → State → State
  | [], st => { st with module_list := [] }
  | ml :: next, st =>
    let st1 :=
      match ml.module.destroy with
      | none => st
      | some hook => { st with world := (hook st.world).2 }.emit (Event.destroy ml.name)
    let st2 :=
      { st1 with world := env.lt_dlclose ml.handle st1.world }.emit
        (Event.lt_dlclose ml.handle)
    module_list_free_libraries env next st2

/-- The tables `components[0 .. RLM_COMPONENT_COUNT - 1]` set to `NULL`. -/
def State.clearComponents (st : State) : State :=
  { st with components := fun c => if c < RLM_COMPONENT_COUNT then [] else st.components c }

/-- `module_list_free`: the chains, then the instances, then the libraries. -/
def module_list_free (env : Env) (st : State) : Outcome :=
  let st0 := st.clearComponents
  match instance_list_free st0.module_instance_list st0 with
  | Outcome.returned st1 => Outcome.returned (module_list_free_libraries env st1.module_list st1)
  | other => other

/-- The last loop of `setup_modules`: the section of each component, when there is one, is
loaded. -/
def setup_components (k : Consts) (env : Env) : List Nat → State → Outcome
  | [], st => Outcome.returned st
  | comp :: rest, st =>
    match component_names[comp]? with
    | none => Outcome.crashed st
    | some name =>
      match cf_section_find env.config name with
      | none => setup_components k env rest st
      | some cs =>
        match load_component_section k env comp cs.items st with
        | Outcome.returned st1 => setup_components k env rest st1
        | other => other

/-- `setup_modules`: with no library loaded the loader is initialised and the tables are
cleared, else everything is torn down by `module_list_free`; then the chains are built. -/
def setup_modules (k : Consts) (env : Env) (st : State) : Outcome :=
  let start : Outcome :=
    match st.module_list with
    | [] =>
      let r := env.lt_dlinit st.world
      let st1 := { st with world := r.2 }.emit (Event.lt_dlinit r.1)
      if r.1 ≠ 0 then Outcome.exited (st1.emit (Event.radlog LogMsg.libraries_failed))
      else (st1.emit Event.lt_dlsetsearchpath).clearComponents |> Outcome.returned
    | _ :: _ => module_list_free env st
  match start with
  | Outcome.returned st1 => setup_components k env (List.range RLM_COMPONENT_COUNT) st1
  | other => other

/-! ## A small configuration used to evaluate the definitions -/

/-- A handler that returns `rc` and leaves `tag` on the request. -/
def tagHandler (rc : Int) (tag : Int) : Handler :=
  fun _ request w => (rc, { request with payload := request.payload ++ [tag] }, w)

/-- A session handler that returns `rc` and reports `count` sessions; the multilink field
of the request is not touched. -/
def countHandler (rc : Int) (count : Int) : Handler :=
  fun _ request w => (rc, { request with simul_count := count }, w)

/-- A session handler that returns `rc`, reports `count` sessions and sets `simul_mpp`. -/
def mppHandler (rc : Int) (count : Int) (mpp : Int) : Handler :=
  fun _ request w => (rc, { request with simul_count := count, simul_mpp := mpp }, w)

/-- A module whose authorize, preacct and accounting handlers return `autz`, whose
authenticate handler returns `authn`, with session handler `sess`. -/
def demoModule (name : String) (type : Nat) (autz authn : Int) (tag : Int)
    (sess : Option Handler) : module_t :=
  { name := name, type := type, init := none, instantiate := none,
    authenticate := some (tagHandler authn tag),
    authorize := some (tagHandler autz tag),
    preaccounting := some (tagHandler autz tag),
    accounting := some (tagHandler autz tag),
    checksimul := sess, detach := none, destroy := none }

/-- Values for the constants: REJECT would be 0, FAIL is 1, OK is 2; the name buffers of
libraries and instances have 254 bytes, that of a dictionary value has 40. -/
def demoConsts : Consts :=
  { RLM_MODULE_OK := 2, RLM_MODULE_FAIL := 1, PW_AUTHTYPE := 1000,
    RLM_TYPE_THREAD_UNSAFE := 1, MAX_STRING_LEN := 254, DICT_VALUE_NAME_SIZE := 40 }

/-- A request of user "bob". -/
def demoRequest : REQUEST :=
  { username := some "bob", simul_count := 0, simul_max := 0, simul_mpp := 0, payload := [] }

/-- Three libraries a, b, c with one instance each (b has a mutex).  Authorize, preacct and
accounting: a gives OK, b gives REJECT (0), c gives OK.  Authenticate (chain 7): a gives
FAIL, b gives OK, c gives FAIL.  Session (chain 0): a gives OK and reports 5 sessions. -/
def demoState : State :=
  { module_list :=
      [ { name := "rlm_a", module := demoModule "a" 0 2 1 10 (some (countHandler 2 5)),
          handle := 1 },
        { name := "rlm_b", module := demoModule "b" 1 0 2 20 none, handle := 2 },
        { name := "rlm_c", module := demoModule "c" 0 2 1 30 none, handle := 3 } ],
    module_instance_list :=
      [ { name := "a", entry := 0, insthandle := 0, mutex := false },
        { name := "b", entry := 1, insthandle := 0, mutex := true },
        { name := "c", entry := 2, insthandle := 0, mutex := false } ],
    components := fun c =>
      if c = RLM_COMPONENT_AUTH then
        [ { idx := 7, modulelist := [⟨0⟩, ⟨1⟩, ⟨2⟩] } ]
      else if c = RLM_COMPONENT_SESS then
        [ { idx := 0, modulelist := [⟨0⟩] } ]
      else
        [ { idx := 0, modulelist := [⟨0⟩, ⟨1⟩, ⟨2⟩] } ],
    dictionary_values := [ { attr := 1000, name := "Local", value := 0 } ],
    max_value := 32767,
    meaningless_counter := 1,
    world := { cells := [] },
    trace := [] }

/-- The configuration `demoState` with `sess` as the session handler of library a. -/
def demoSessState (sess : Handler) : State :=
  { demoState with
    module_list :=
      [ { name := "rlm_a", module := demoModule "a" 0 2 1 10 (some sess), handle := 1 } ] }

/-- The statics of `modules.c` as their C initialisers leave them, with a given dictionary
and world, and an empty trace. -/
def State.initial (dict : List DICT_VALUE) (w : World) : State :=
  { module_list := [], module_instance_list := [], components := fun _ => [],
    dictionary_values := dict, max_value := max_value_initial, meaningless_counter := 1,
    world := w, trace := [] }

/-- A library with an `init` hook and an `instantiate` hook; the hooks succeed unless the
world holds a negative number in its first cell, and `instantiate` uses that cell up. -/
def demoPlugin (name : String) (type : Nat) : module_t :=
  { demoModule name type 2 2 0 none with
    init := some (fun w => (0, w)),
    instantiate := some (fun _ _ w => (w.cells.headD 0, 42, { cells := w.cells.tail })) }

/-- A loader that finds every library but "rlm_x", and a configuration with the instance
blocks `a`, `b b2`, `x` and `b` (in this order) in its `modules` section. -/
def demoEnv : Env :=
  { lt_dlinit := fun w => (0, w),
    lt_dlopenext := fun module_name w =>
      (if module_name = "rlm_x" then none else some module_name.length, w),
    lt_dlsym := fun _ module_name w =>
      (some (demoPlugin module_name (if module_name = "rlm_b" then 1 else 0)), w),
    lt_dlclose := fun _ w => w,
    config :=
      [ CONF_ITEM.sect "modules" none 1
          [ CONF_ITEM.sect "a" none 2 [],
            CONF_ITEM.sect "b" (some "b2") 3 [],
            CONF_ITEM.sect "x" none 4 [],
            CONF_ITEM.sect "b" none 5 [] ] ] }

/-- The value of an optional result, with a default for `none`. -/
def resultOr {α : Type} (d : α) : Option α → α
  | some a => a
  | none => d

/-- The function returned. -/
def Outcome.isReturned : Outcome → Bool
  | Outcome.returned _ => true
  | _ => false

/-- The function called `exit(1)`. -/
def Outcome.isExited : Outcome → Bool
  | Outcome.exited _ => true
  | _ => false

/-- The state in which the function ended. -/
def Outcome.state : Outcome → State
  | Outcome.returned st => st
  | Outcome.exited st => st
  | Outcome.crashed st => st

/-- The demo configuration with an `authenticate` section that lists instance a, and no
section for any other component. -/
def demoEnvAuthOnly : Env :=
  { demoEnv with
    config := demoEnv.config ++ [ CONF_ITEM.sect "authenticate" none 10 [CONF_ITEM.pair "a" 11] ] }

/-- The demo configuration with an `authenticate` section that lists instance a twice and
then instance b2. -/
def demoEnvDuplicate : Env :=
  { demoEnv with
    config := demoEnv.config ++
      [ CONF_ITEM.sect "authenticate" none 10
          [CONF_ITEM.pair "a" 11, CONF_ITEM.pair "a" 12, CONF_ITEM.pair "b2" 13] ] }

/-- The table of a component as selector and chain pairs. -/
def State.table (st : State) (comp : Nat) : List (Int × List Nat) :=
  (st.components comp).map (fun node => (node.idx, node.modulelist.map (fun c => c.instance)))

/-- The state after `load_component_section` handled the first item of the `authenticate`
section of `demoEnvDuplicate`, from the initial state. -/
def demoAfterFirstReference : State :=
  (load_component_section demoConsts demoEnvDuplicate RLM_COMPONENT_AUTH
    [CONF_ITEM.pair "a" 11] (State.initial [⟨1000, "Local", 0⟩] { cells := [] })).state

/-- The state `demoState` with "PAP" in the dictionary, as value 7, the selector of the one
Authenticate chain. -/
def demoStatePap : State :=
  { demoState with
    dictionary_values := [ { attr := 1000, name := "Local", value := 0 },
                           { attr := 1000, name := "PAP", value := 7 } ] }

/-- Every instance of the registry points to a library of the library registry. -/
def EntriesOk (st : State) : Prop :=
  ∀ inst ∈ st.module_instance_list, (st.module_list[inst.entry]?).isSome = true

/-- Every instance of the registry has a mutex exactly when the capability table of its
library carries the flag `RLM_TYPE_THREAD_UNSAFE`. -/
def MutexIffUnsafe (k : Consts) (st : State) : Prop :=
  ∀ inst ∈ st.module_instance_list, ∃ lib, st.module_list[inst.entry]? = some lib ∧
    (inst.mutex = true ↔ lib.module.type &&& k.RLM_TYPE_THREAD_UNSAFE ≠ 0)

/-- The expression `lookup_by_index(head, idx)->modulelist` on a table; `chain_of` is this
on `components[comp]`. -/
def chain_in (t : List indexed_config_module_t) (idx : Int) : Option (List config_module_t) :=
  match lookup_by_index t idx with
  | none => none
  | some p => (t[p]?).map (fun node => node.modulelist)

/-- An item that `load_component_section` treats as a plain reference in the section of
`comp`: a pair, or a subsection whose first label is not `subcomponent_names[comp]`. -/
def PlainReference (comp : Nat) (modref : CONF_ITEM) : Prop :=
  ∀ n1 n2 l c, modref = CONF_ITEM.sect n1 n2 l c → some n1 ≠ subcomponent_names[comp]?

/-- The instance at position `p` of the registry has a mutex. -/
def has_mutex (st : State) (p : Nat) : Bool :=
  match st.module_instance_list[p]? with
  | some inst => inst.mutex
  | none => false

/-- The events the spec allows for a sequence of handler calls (instance and result of each):
a call on an instance with a mutex is the lock, the call, the unlock, and a call on an
instance without mutex is the call alone. -/
def locked_calls (st : State) (comp : Nat) : List (Nat × Int) → List Event
  | [] => []
  | c :: rest =>
    (if has_mutex st c.1 then
        [Event.mutex_lock c.1, Event.handler comp c.1 c.2, Event.mutex_unlock c.1]
      else [Event.handler comp c.1 c.2]) ++ locked_calls st comp rest

/-- The mutexes held after a sequence of events, given those held before. -/
def locks_held : List Event → List Nat → List Nat
  | [], held => held
  | Event.mutex_lock p :: t, held => locks_held t (p :: held)
  | Event.mutex_unlock p :: t, held => locks_held t (held.erase p)
  | _ :: t, held => locks_held t held

/-- The condition under which the loop of `find_module_instance` stops at a block: the
block has a second label and it is the instance name, or it has no second label and its
first label is the instance name. -/
def MatchesInstance (instname : String) : CONF_ITEM → Prop
  | CONF_ITEM.pair _ _ => False
  | CONF_ITEM.sect name1 name2 _ _ => name2 = some instname ∨ (name2 = none ∧ name1 = instname)

/-- Number of "Cannot find a configuration entry" messages for an instance name in a
trace. -/
def config_errors (instname : String) (t : List Event) : Nat :=
  t.countP (fun e => match e with
    | Event.radlog (LogMsg.no_configuration_entry n) => decide (n = instname)
    | _ => false)

/-- The demo loader with a `modules` section that holds the one block `b b2`. -/
def demoEnvAlias : Env :=
  { demoEnv with config := [ CONF_ITEM.sect "modules" none 1 [CONF_ITEM.sect "b" (some "b2") 3 []] ] }

/-- The demo configuration with an `authenticate` section that holds the one block
`authtype PAP`, with the reference a in it. -/
def demoEnvAuthtype : Env :=
  { demoEnv with
    config := demoEnv.config ++
      [ CONF_ITEM.sect "authenticate" none 10
          [CONF_ITEM.sect "authtype" (some "PAP") 11 [CONF_ITEM.pair "a" 12]] ] }

/-- The `detach` calls of a trace, in order: instance name and handle passed. -/
def detach_calls (t : List Event) : List (String × Nat) :=
  t.filterMap (fun e => match e with
    | Event.detach n h => some (n, h)
    | _ => none)

/-- The event is a call of a `detach` hook. -/
def Event.isDetach : Event → Bool
  | Event.detach _ _ => true
  | _ => false

/-- The event is a call of an `instantiate` hook. -/
def Event.isInstantiate : Event → Bool
  | Event.instantiate _ _ => true
  | _ => false

/-- The `detach` calls the instances of a list are due, given the library registry: one for
each instance whose library has the hook, with the handle of the instance. -/
def detaches_due (libs : List module_list_t) (l : List module_instance_t) :
    List (String × Nat) :=
  l.filterMap (fun c => match libs[c.entry]? with
    | some lib => if lib.module.detach.isSome then some (c.name, c.insthandle) else none
    | none => none)

/-- The events of the second trace that come after those of the first. -/
def events_since (st st2 : State) : List Event := st2.trace.drop st.trace.length

/-- The trace of the second state is the trace of the first followed by events that all
satisfy `P`. -/
def TraceGrowsBy (P : Event → Bool) (st st2 : State) : Prop :=
  st2.trace = st.trace ++ events_since st st2 ∧ ∀ e ∈ events_since st st2, P e = true

/-- A library whose instances are detached: as `demoPlugin`, with a `detach` hook. -/
def demoPluginDetach (name : String) (type : Nat) : module_t :=
  { demoPlugin name type with detach := some (fun _ w => (0, w)) }

/-- The demo loader and configuration with an `authorize` section that lists a and b2; the
library rlm_a has a `detach` hook, the library rlm_b has none. -/
def demoEnvReload : Env :=
  { demoEnv with
    lt_dlsym := fun _ module_name w =>
      (some (if module_name = "rlm_a" then demoPluginDetach module_name 0
        else demoPlugin module_name 1), w),
    config := demoEnv.config ++
      [ CONF_ITEM.sect "authorize" none 20 [CONF_ITEM.pair "a" 21, CONF_ITEM.pair "b2" 22] ] }

/-- The state the first `setup_modules` leaves on `demoEnvReload`, with the trace emptied. -/
def demoLoaded : State :=
  { (setup_modules demoConsts demoEnvReload
      (State.initial [⟨1000, "Local", 0⟩] { cells := [] })).state with trace := [] }

/-- The function stopped at a failed `assert` or a `NULL` dereference. -/
def Outcome.isCrashed : Outcome → Bool
  | Outcome.crashed _ => true
  | _ => false

/-- The second state has the two registries of the first. -/
def SameRegistries (st st2 : State) : Prop :=
  st2.module_list = st.module_list ∧ st2.module_instance_list = st.module_instance_list

/-- In the section of Authenticate every block named `subcomponent_names[comp]` has a
second label, the name `load_subcomponent_section` passes to `new_authtype_value`. -/
def SubBlocksNamed (comp : Nat) (items : List CONF_ITEM) : Prop :=
  comp = RLM_COMPONENT_AUTH →
    ∀ n1 l c, CONF_ITEM.sect n1 none l c ∈ items → some n1 ≠ subcomponent_names[comp]?

/-- The blocks of the `authenticate` section of the configuration, when there is one, are
named. -/
def ConfigNamed (env : Env) : Prop :=
  ∀ cs, cf_section_find env.config "authenticate" = some cs →
    SubBlocksNamed RLM_COMPONENT_AUTH cs.items

/-- The handler of a phase in a capability table: the field the `switch` of `sanity_check`
tests for the phase and the executor of the phase calls. -/
def phase_handler (comp : Nat) (m : module_t) : Option Handler :=
  if comp = RLM_COMPONENT_AUTH then m.authenticate
  else if comp = RLM_COMPONENT_AUTZ then m.authorize
  else if comp = RLM_COMPONENT_PREACCT then m.preaccounting
  else if comp = RLM_COMPONENT_ACCT then m.accounting
  else if comp = RLM_COMPONENT_SESS then m.checksimul
  else none

/-- The pointer `p` is to an instance of the registry whose library is in the library
registry and has the handler of the phase `comp` in its capability table. -/
def HasHandler (st : State) (comp : Nat) (p : Nat) : Prop :=
  ∃ inst lib, st.module_instance_list[p]? = some inst ∧
    st.module_list[inst.entry]? = some lib ∧ (phase_handler comp lib.module).isSome = true

/-- Every instance stored in a chain of the table `t` has the handler of the phase `comp`. -/
def TableOk (st : State) (comp : Nat) (t : List indexed_config_module_t) : Prop :=
  ∀ node ∈ t, ∀ c ∈ node.modulelist, HasHandler st comp c.instance

/-- Every instance stored in a chain of the table of a phase has the handler of that
phase. -/
def HandlersOk (st : State) : Prop :=
  ∀ comp, TableOk st comp (st.components comp)

/-- The demo configuration with an `authenticate` section that holds a block `authtype PAP`
with the references a and b2, then the plain reference a, then a second block
`authtype PAP`, and an `accounting` section that lists b2. -/
def demoEnvBlocks : Env :=
  { demoEnv with
    config := demoEnv.config ++
      [ CONF_ITEM.sect "authenticate" none 10
          [ CONF_ITEM.sect "authtype" (some "PAP") 11
              [CONF_ITEM.pair "a" 12, CONF_ITEM.pair "b2" 13],
            CONF_ITEM.pair "a" 14,
            CONF_ITEM.sect "authtype" (some "PAP") 15 [CONF_ITEM.pair "a" 16] ],
        CONF_ITEM.sect "accounting" none 20 [CONF_ITEM.pair "b2" 21] ] }

/-! ## Lemmas on the executor loop -/

theorem called_append (a b : List Event) : called (a ++ b) = called a ++ called b := by
  simp [called, List.filterMap_append]

theorem called_safe_lock (ptr : Nat) (inst : module_instance_t) (st : State) :
    called (safe_lock ptr inst st).trace = called st.trace := by
  unfold safe_lock
  split <;> simp [State.emit, called, List.filterMap_append]

theorem called_safe_unlock (ptr : Nat) (inst : module_instance_t) (st : State) :
    called (safe_unlock ptr inst st).trace = called st.trace := by
  unfold safe_unlock
  split <;> simp [State.emit, called, List.filterMap_append]

/-- A call of one handler adds exactly that instance to the called ones. -/
theorem invoke_called (sel : module_t → Option Handler) (comp : Nat) (h : config_module_t)
    (request : REQUEST) (st : State) (out : Int × REQUEST × State)
    (hin : invoke sel comp h request st = some out) :
    called out.2.2.trace = called st.trace ++ [h.instance] := by
  unfold invoke at hin
  split at hin
  · exact absurd hin (by simp)
  · split at hin
    · exact absurd hin (by simp)
    · split at hin
      · exact absurd hin (by simp)
      · simp only [Option.some.injEq] at hin
        subst hin
        simp only [called_safe_unlock]
        simp [State.emit, called_append, called_safe_lock]
        simp [called]

/-- With a result other than the continue-code the loop is left at once. -/
theorem walk_of_ne (sel : module_t → Option Handler) (comp : Nat) (code : Int)
    (l : List config_module_t) (c : Int) (request : REQUEST) (st : State) (hc : c ≠ code) :
    walk sel comp code l c request st = some (c, request, st) := by
  cases l with
  | nil => simp [walk]
  | cons a t => simp [walk, hc]

/-- While the handlers return the continue-code the loop goes on to the rest of the chain. -/
theorem walk_append_of_allReturn (sel : module_t → Option Handler) (comp : Nat) (code : Int)
    (pre rest : List config_module_t) :
    ∀ (request : REQUEST) (st : State) (request1 : REQUEST) (st1 : State),
      allReturn sel comp code pre request st = some (request1, st1) →
      walk sel comp code (pre ++ rest) code request st =
        walk sel comp code rest code request1 st1 := by
  induction pre with
  | nil =>
    intro request st request1 st1 h
    simp only [allReturn, Option.some.injEq, Prod.mk.injEq] at h
    obtain ⟨h1, h2⟩ := h
    subst h1; subst h2
    simp
  | cons a t ih =>
    intro request st request1 st1 h
    simp only [allReturn] at h
    simp only [List.cons_append, walk, if_true]
    cases hi : invoke sel comp a request st with
    | none => simp [hi] at h
    | some out =>
      simp only [hi] at h
      by_cases hc : out.1 = code
      · simp only [hc, if_true] at h
        simp only [hc]
        exact ih _ _ _ _ h
      · simp [hc] at h

/-- The handlers called while all return the continue-code are the whole list, in order. -/
theorem allReturn_called (sel : module_t → Option Handler) (comp : Nat) (code : Int)
    (pre : List config_module_t) :
    ∀ (request : REQUEST) (st : State) (request1 : REQUEST) (st1 : State),
      allReturn sel comp code pre request st = some (request1, st1) →
      called st1.trace = called st.trace ++ pre.map (fun n => n.instance) := by
  induction pre with
  | nil =>
    intro request st request1 st1 h
    simp only [allReturn, Option.some.injEq, Prod.mk.injEq] at h
    obtain ⟨_, h2⟩ := h
    subst h2
    simp
  | cons a t ih =>
    intro request st request1 st1 h
    simp only [allReturn] at h
    cases hi : invoke sel comp a request st with
    | none => simp [hi] at h
    | some out =>
      simp only [hi] at h
      by_cases hc : out.1 = code
      · simp only [hc, if_true] at h
        rw [ih _ _ _ _ h, invoke_called sel comp a request st out hi]
        simp
      · simp [hc] at h

/-- The executor loop, entered with the continue-code, meets the short-circuit rule. -/
theorem walk_shortCircuit (sel : module_t → Option Handler) (comp : Nat) (code : Int)
    (chain : List config_module_t) (request : REQUEST) (st : State) :
    ShortCircuit sel comp code chain request st
      (walk sel comp code chain code request st) := by
  refine ⟨?_, ?_⟩
  · intro pre h post request1 st1 c request2 st2 hchain hpre hinv hc
    subst hchain
    rw [walk_append_of_allReturn sel comp code pre (h :: post) request st request1 st1 hpre]
    refine ⟨?_, ?_⟩
    · simp only [walk, if_true, hinv]
      exact walk_of_ne sel comp code post c request2 st2 hc
    · have h1 := allReturn_called sel comp code pre request st request1 st1 hpre
      have h2 := invoke_called sel comp h request1 st1 (c, request2, st2) hinv
      simp only at h2
      rw [h2, h1]
      simp
  · intro request1 st1 hall
    refine ⟨?_, allReturn_called sel comp code chain request st request1 st1 hall⟩
    have := walk_append_of_allReturn sel comp code chain [] request st request1 st1 hall
    simpa [walk] using this

/-! ## Claims on the executors -/

/-- C1: `module_authorize`, `module_preacct` and `module_accounting`, on any request and any
chain registered at selector 0 of their phase, call the handlers in chain order, return the
result of the first handler whose result is not OK and call no handler after it; when every
handler returns OK (the empty chain included) they return OK after calling all of them. -/
theorem C1_ok_phases_short_circuit (k : Consts) (request : REQUEST) (st : State) :
    (∀ chain, chain_of st RLM_COMPONENT_AUTZ 0 = some chain →
        ShortCircuit (fun m => m.authorize) RLM_COMPONENT_AUTZ k.RLM_MODULE_OK chain
          request st (module_authorize k request st)) ∧
    (∀ chain, chain_of st RLM_COMPONENT_PREACCT 0 = some chain →
        ShortCircuit (fun m => m.preaccounting) RLM_COMPONENT_PREACCT k.RLM_MODULE_OK chain
          request st (module_preacct k request st)) ∧
    (∀ chain, chain_of st RLM_COMPONENT_ACCT 0 = some chain →
        ShortCircuit (fun m => m.accounting) RLM_COMPONENT_ACCT k.RLM_MODULE_OK chain
          request st (module_accounting k request st)) := by
  refine ⟨?_, ?_, ?_⟩
  · intro chain hchain
    simp only [module_authorize, hchain]
    exact walk_shortCircuit _ _ _ chain request st
  · intro chain hchain
    simp only [module_preacct, hchain]
    exact walk_shortCircuit _ _ _ chain request st
  · intro chain hchain
    simp only [module_accounting, hchain]
    exact walk_shortCircuit _ _ _ chain request st

/-- C1 on the chain a (OK), b (REJECT), c (OK): the result is REJECT (0), a and b were called
in this order and c was not. -/
theorem C1_ok_phases_short_circuit_witness :
    (module_authorize demoConsts demoRequest demoState).map
        (fun o => (o.1, o.2.1.payload, called o.2.2.trace)) = some (0, [10, 20], [0, 1]) := by
  have h := ((C1_ok_phases_short_circuit demoConsts demoRequest demoState).1
    [⟨0⟩, ⟨1⟩, ⟨2⟩] rfl).1 [⟨0⟩] ⟨1⟩ [⟨2⟩]
    (resultOr (demoRequest, demoState)
      (allReturn (fun m => m.authorize) RLM_COMPONENT_AUTZ 2 [⟨0⟩] demoRequest demoState)).1
    (resultOr (demoRequest, demoState)
      (allReturn (fun m => m.authorize) RLM_COMPONENT_AUTZ 2 [⟨0⟩] demoRequest demoState)).2
    0
    { demoRequest with payload := [10, 20] }
    (resultOr (0, demoRequest, demoState)
      (walk (fun m => m.authorize) RLM_COMPONENT_AUTZ 2 [⟨0⟩, ⟨1⟩] 2 demoRequest
        demoState)).2.2
    rfl rfl rfl (by decide)
  rw [h.1]
  rfl

/-- C2: for every `auth_type` with a chain in the Authenticate table, `module_authenticate`
calls the handlers of the chain in order, returns the result of the first handler whose
result is not FAIL and calls no handler after it; when every handler returns FAIL (the
empty chain included) it returns FAIL after calling all of them. -/
theorem C2_authenticate_short_circuit (k : Consts) (auth_type : Int) (request : REQUEST)
    (st : State) (chain : List config_module_t)
    (hchain : chain_of st RLM_COMPONENT_AUTH auth_type = some chain) :
    ShortCircuit (fun m => m.authenticate) RLM_COMPONENT_AUTH k.RLM_MODULE_FAIL chain
      request st (module_authenticate k auth_type request st) := by
  simp only [module_authenticate, hchain]
  exact walk_shortCircuit _ _ _ chain request st

/-- C2 on the chain a (FAIL), b (OK), c (FAIL) of selector 7: the result is OK (2), a and b
were called in this order and c was not. -/
theorem C2_authenticate_short_circuit_witness :
    (module_authenticate demoConsts 7 demoRequest demoState).map
        (fun o => (o.1, o.2.1.payload, called o.2.2.trace)) = some (2, [10, 20], [0, 1]) := by
  have h := (C2_authenticate_short_circuit demoConsts 7 demoRequest demoState
    [⟨0⟩, ⟨1⟩, ⟨2⟩] rfl).1 [⟨0⟩] ⟨1⟩ [⟨2⟩]
    (resultOr (demoRequest, demoState)
      (allReturn (fun m => m.authenticate) RLM_COMPONENT_AUTH 1 [⟨0⟩] demoRequest
        demoState)).1
    (resultOr (demoRequest, demoState)
      (allReturn (fun m => m.authenticate) RLM_COMPONENT_AUTH 1 [⟨0⟩] demoRequest
        demoState)).2
    2
    { demoRequest with payload := [10, 20] }
    (resultOr (0, demoRequest, demoState)
      (walk (fun m => m.authenticate) RLM_COMPONENT_AUTH 1 [⟨0⟩, ⟨1⟩] 1 demoRequest
        demoState)).2.2
    rfl rfl rfl (by decide)
  rw [h.1]
  rfl

/-- C3, as stated, fails: with the session count at 5 and `maxsimul` 3 the claim asks for 2
when the multilink flag left by the plugins is true and for 1 when it is false.  A plugin
that leaves the flag as seeded (1, true) makes `module_checksimul` return 1, and a plugin
that clears the flag (0, false) makes it return 0, which is "no violation". -/
theorem C3_counterexample :
    ((module_checksimul demoConsts demoRequest 3 demoState).map
        (fun o => (o.1, o.2.1.simul_count, o.2.1.simul_mpp)) = some (1, 5, 1)) ∧
    ((module_checksimul demoConsts demoRequest 3 (demoSessState (mppHandler 2 5 0))).map
        (fun o => (o.1, o.2.1.simul_count, o.2.1.simul_mpp)) = some (0, 5, 0)) := by
  constructor <;> rfl

/-- C3, amended: for a request with a username and a session chain at selector 0 whose walk
ends with OK, `module_checksimul` returns 0 when the session count left on the request is
below `maxsimul`, and otherwise returns the value of `simul_mpp` left on the request (seeded
with 1 before the walk): 1 when the plugins left it at 1, 2 when they left it at 2. -/
theorem C3_checksimul_returns_simul_mpp (k : Consts) (request : REQUEST) (maxsimul : Int)
    (st : State) (name : String) (chain : List config_module_t)
    (out : Int × REQUEST × State)
    (huser : request.username = some name)
    (hchain : chain_of st RLM_COMPONENT_SESS 0 = some chain)
    (hwalk : walk (fun m => m.checksimul) RLM_COMPONENT_SESS k.RLM_MODULE_FAIL chain
        k.RLM_MODULE_FAIL
        { request with simul_count := 0, simul_max := maxsimul, simul_mpp := 1 } st =
          some out)
    (hok : out.1 = k.RLM_MODULE_OK) :
    (out.2.1.simul_count < maxsimul →
        module_checksimul k request maxsimul st = some (0, out.2.1, out.2.2)) ∧
    (maxsimul ≤ out.2.1.simul_count →
        module_checksimul k request maxsimul st =
          some (out.2.1.simul_mpp, out.2.1, out.2.2)) := by
  have hne : st.components RLM_COMPONENT_SESS ≠ [] := by
    intro h
    simp [chain_of, h, lookup_by_index] at hchain
  have hres : module_checksimul k request maxsimul st =
      some (if out.2.1.simul_count < maxsimul then 0 else out.2.1.simul_mpp,
        out.2.1, out.2.2) := by
    unfold module_checksimul
    cases hcomp : st.components RLM_COMPONENT_SESS with
    | nil => exact absurd hcomp hne
    | cons a t =>
      simp only [huser] at hwalk
      simp only [huser, hchain]
      rw [hwalk]
      simp [hok]
  constructor
  · intro hlt
    rw [hres, if_pos hlt]
  · intro hge
    rw [hres, if_neg (not_lt.mpr hge)]

/-- C3 amended, evaluated: five sessions against a maximum of 3 with `simul_mpp` left at 2
give 2, and `simul_mpp` left at the seed gives 1. -/
theorem C3_checksimul_returns_simul_mpp_witness :
    (module_checksimul demoConsts demoRequest 3 (demoSessState (mppHandler 2 5 2))).map (fun o => o.1) =
      some 2 := by
  have h := (C3_checksimul_returns_simul_mpp demoConsts demoRequest 3 (demoSessState (mppHandler 2 5 2))
    "bob" [⟨0⟩]
    (2, { demoRequest with simul_count := 5, simul_max := 3, simul_mpp := 2 },
      (resultOr (0, demoRequest, demoState)
        (walk (fun m => m.checksimul) RLM_COMPONENT_SESS 1 [⟨0⟩] 1 demoRequest
          (demoSessState (mppHandler 2 5 2)))).2.2)
    rfl rfl rfl rfl).2 (by decide)
  rw [h]
  rfl

/-- C4: `module_checksimul` returns 0 and calls no handler (request, world and trace are
left as they were) whenever the session table is empty or the request has no username,
whatever `maxsimul` and the tables of the other phases are. -/
theorem C4_checksimul_trivial_pass (k : Consts) (request : REQUEST) (maxsimul : Int)
    (st : State)
    (h : st.components RLM_COMPONENT_SESS = [] ∨ request.username = none) :
    module_checksimul k request maxsimul st = some (0, request, st) := by
  unfold module_checksimul
  cases hcomp : st.components RLM_COMPONENT_SESS with
  | nil => rfl
  | cons a t =>
    rcases h with h | h
    · rw [hcomp] at h
      exact absurd h (by simp)
    · simp only [h]

/-- C4 on a request without username against the demo tables. -/
theorem C4_checksimul_trivial_pass_witness :
    module_checksimul demoConsts { demoRequest with username := none } 3 demoState =
      some (0, { demoRequest with username := none }, demoState) :=
  C4_checksimul_trivial_pass demoConsts { demoRequest with username := none } 3 demoState
    (Or.inr rfl)

/-- C5: for a request with a username and a session chain at selector 0, when the walk ends
with a result other than OK, `module_checksimul` returns 0 whatever the session count,
`maxsimul` and `simul_mpp` left on the request are; this includes the walk in which every
handler returns FAIL, and the empty chain, since FAIL is not OK. -/
theorem C5_checksimul_degrades_open (k : Consts) (request : REQUEST) (maxsimul : Int)
    (st : State) (name : String) (chain : List config_module_t)
    (huser : request.username = some name)
    (hchain : chain_of st RLM_COMPONENT_SESS 0 = some chain) :
    (∀ out : Int × REQUEST × State,
        walk (fun m => m.checksimul) RLM_COMPONENT_SESS k.RLM_MODULE_FAIL chain
          k.RLM_MODULE_FAIL
          { request with simul_count := 0, simul_max := maxsimul, simul_mpp := 1 } st =
            some out →
        out.1 ≠ k.RLM_MODULE_OK →
        module_checksimul k request maxsimul st = some (0, out.2.1, out.2.2)) ∧
    (k.RLM_MODULE_FAIL ≠ k.RLM_MODULE_OK →
      ∀ request1 st1,
        allReturn (fun m => m.checksimul) RLM_COMPONENT_SESS k.RLM_MODULE_FAIL chain
          { request with simul_count := 0, simul_max := maxsimul, simul_mpp := 1 } st =
            some (request1, st1) →
        module_checksimul k request maxsimul st = some (0, request1, st1)) := by
  have hne : st.components RLM_COMPONENT_SESS ≠ [] := by
    intro h
    simp [chain_of, h, lookup_by_index] at hchain
  have key : ∀ out : Int × REQUEST × State,
      walk (fun m => m.checksimul) RLM_COMPONENT_SESS k.RLM_MODULE_FAIL chain
        k.RLM_MODULE_FAIL
        { request with simul_count := 0, simul_max := maxsimul, simul_mpp := 1 } st =
          some out →
      out.1 ≠ k.RLM_MODULE_OK →
      module_checksimul k request maxsimul st = some (0, out.2.1, out.2.2) := by
    intro out hwalk hne2
    unfold module_checksimul
    cases hcomp : st.components RLM_COMPONENT_SESS with
    | nil => exact absurd hcomp hne
    | cons a t =>
      simp only [huser] at hwalk
      simp only [huser, hchain]
      rw [hwalk]
      simp [hne2]
  refine ⟨key, ?_⟩
  intro hfo request1 st1 hall
  have hw := (walk_shortCircuit (fun m => m.checksimul) RLM_COMPONENT_SESS
    k.RLM_MODULE_FAIL chain
    { request with simul_count := 0, simul_max := maxsimul, simul_mpp := 1 } st).2
    request1 st1 hall
  exact key (k.RLM_MODULE_FAIL, request1, st1) hw.1 hfo

/-- C5 on a session plugin that returns REJECT (0) while reporting 5 sessions against a
maximum of 3: the answer is 0. -/
theorem C5_checksimul_degrades_open_witness :
    (module_checksimul demoConsts demoRequest 3 (demoSessState (countHandler 0 5))).map
      (fun o => (o.1, o.2.1.simul_count)) = some (0, 5) := by
  have h := (C5_checksimul_degrades_open demoConsts demoRequest 3
    (demoSessState (countHandler 0 5)) "bob" [⟨0⟩] rfl rfl).1
    (0, { demoRequest with simul_count := 5, simul_max := 3, simul_mpp := 1 },
      (resultOr (0, demoRequest, demoState)
        (walk (fun m => m.checksimul) RLM_COMPONENT_SESS 1 [⟨0⟩] 1 demoRequest
          (demoSessState (countHandler 0 5)))).2.2)
    rfl (by decide)
  rw [h]
  rfl

/-! ## Claims on the chain tables -/

/-- Writing back the table a component already has changes nothing. -/
theorem setComponent_self (st : State) (comp : Nat) :
    st.setComponent comp (st.components comp) = st := by
  cases st with
  | mk ml mil comps d mv mc w tr =>
    simp only [State.setComponent, State.mk.injEq, true_and, and_true]
    funext c
    by_cases h : c = comp
    · simp [h]
    · simp [h]

theorem setComponent_components_same (st : State) (comp : Nat)
    (t : List indexed_config_module_t) : (st.setComponent comp t).components comp = t := by
  simp [State.setComponent]

theorem setComponent_setComponent (st : State) (comp : Nat)
    (t u : List indexed_config_module_t) :
    (st.setComponent comp t).setComponent comp u = st.setComponent comp u := by
  simp only [State.setComponent, State.mk.injEq, true_and, and_true]
  funext c
  by_cases h : c = comp
  · simp [h]
  · simp [h]

/-- With no node of the wanted index the loop of `new_sublist` links a fresh node, with an
empty chain, at the tail and returns it. -/
theorem new_sublist_in_fresh (t : List indexed_config_module_t) (idx : Int)
    (h : ∀ node ∈ t, node.idx ≠ idx) :
    new_sublist_in t idx = (some t.length, t ++ [{ idx := idx, modulelist := [] }]) := by
  induction t with
  | nil => rfl
  | cons a t ih =>
    have ha : a.idx ≠ idx := h a (List.mem_cons_self a t)
    have ht : ∀ node ∈ t, node.idx ≠ idx := fun n hn => h n (List.mem_cons_of_mem a hn)
    simp [new_sublist_in, ha, ih ht]

/-- With a node of the wanted index the loop of `new_sublist` changes nothing; it returns
that node for index 0 and nothing for any other index. -/
theorem new_sublist_in_existing (t : List indexed_config_module_t) (idx : Int)
    (h : ∃ node ∈ t, node.idx = idx) :
    new_sublist_in t idx = (if idx = 0 then lookup_by_index t idx else none, t) := by
  induction t with
  | nil =>
    obtain ⟨n, hn, _⟩ := h
    exact absurd hn (List.not_mem_nil n)
  | cons a t ih =>
    by_cases ha : a.idx = idx
    · simp [new_sublist_in, lookup_by_index, ha]
    · have ht : ∃ node ∈ t, node.idx = idx := by
        obtain ⟨n, hn, hi⟩ := h
        rcases List.mem_cons.mp hn with rfl | hn
        · exact absurd hi ha
        · exact ⟨n, hn, hi⟩
      simp only [new_sublist_in, lookup_by_index, ha, if_false, ih ht]
      by_cases h0 : idx = 0 <;> simp [h0]

/-- The node returned by the loop of `new_sublist` carries the wanted index. -/
theorem new_sublist_in_idx (t : List indexed_config_module_t) (idx : Int) :
    ∀ p, (new_sublist_in t idx).1 = some p →
      ((new_sublist_in t idx).2[p]?).map (fun node => node.idx) = some idx := by
  induction t with
  | nil =>
    intro p hp
    simp only [new_sublist_in, Option.some.injEq] at hp
    subst hp
    simp [new_sublist_in]
  | cons a t ih =>
    intro p hp
    by_cases ha : a.idx = idx
    · simp only [new_sublist_in, ha, if_true] at hp ⊢
      by_cases h0 : idx = 0
      · simp only [h0, if_true, Option.some.injEq] at hp
        subst hp
        simp [ha, h0]
      · simp [h0] at hp
    · simp only [new_sublist_in, ha, if_false] at hp ⊢
      cases hr : (new_sublist_in t idx).1 with
      | none => simp [hr] at hp
      | some q =>
        simp only [hr, Option.map_some', Option.some.injEq] at hp
        subst hp
        simpa using ih q hr

/-- Asking the loop of `new_sublist` for index 0 a second time gives the same node and the
same table. -/
theorem new_sublist_in_zero_twice (t : List indexed_config_module_t) :
    new_sublist_in (new_sublist_in t 0).2 0 = new_sublist_in t 0 ∧
      (new_sublist_in t 0).1.isSome = true := by
  induction t with
  | nil => simp [new_sublist_in]
  | cons a t ih =>
    by_cases ha : a.idx = 0
    · simp [new_sublist_in, ha]
    · simp only [new_sublist_in, ha, if_false]
      refine ⟨?_, ?_⟩
      · rw [ih.1]
      · cases hr : (new_sublist_in t 0).1 with
        | none => simp [hr] at ih
        | some q => simp

/-- C6: on every phase table, `new_sublist(comp, 0)` called twice succeeds both times, returns
the same entry (of index 0) both times and the second call changes nothing;
`new_sublist(comp, idx)` with `idx != 0` returns no entry and changes nothing when an entry
of that index exists; when no entry of the index exists it links a new entry with that index
and an empty chain at the tail of the table and returns it. -/
theorem C6_new_sublist (comp : Nat) (idx : Int) (st : State) :
    (∃ p, (new_sublist comp 0 st).1 = some p ∧
        (new_sublist comp 0 (new_sublist comp 0 st).2).1 = some p ∧
        (((new_sublist comp 0 st).2.components comp)[p]?).map (fun node => node.idx) =
          some 0 ∧
        (new_sublist comp 0 (new_sublist comp 0 st).2).2 = (new_sublist comp 0 st).2) ∧
    (idx ≠ 0 → (∃ node ∈ st.components comp, node.idx = idx) →
        new_sublist comp idx st = (none, st)) ∧
    ((∀ node ∈ st.components comp, node.idx ≠ idx) →
        new_sublist comp idx st =
          (some (st.components comp).length,
            st.setComponent comp
              (st.components comp ++ [{ idx := idx, modulelist := [] }]))) := by
  refine ⟨?_, ?_, ?_⟩
  · have h2 := new_sublist_in_zero_twice (st.components comp)
    cases hr : (new_sublist_in (st.components comp) 0).1 with
    | none => simp [hr] at h2
    | some p =>
      refine ⟨p, ?_, ?_, ?_, ?_⟩
      · simp [new_sublist, hr]
      · simp only [new_sublist, setComponent_components_same, h2.1, hr]
      · simp only [new_sublist, setComponent_components_same]
        exact new_sublist_in_idx (st.components comp) 0 p hr
      · simp only [new_sublist, setComponent_components_same, h2.1,
          setComponent_setComponent]
  · intro h0 hex
    simp only [new_sublist, new_sublist_in_existing _ _ hex, h0, if_false,
      setComponent_self]
  · intro hfresh
    simp only [new_sublist, new_sublist_in_fresh _ _ hfresh]

/-- C6 on the Authenticate table of the demo state, which has an entry of index 7: asking for
index 7 again fails and changes nothing; asking for index 8 links a second entry. -/
theorem C6_new_sublist_witness :
    new_sublist RLM_COMPONENT_AUTH 7 demoState = (none, demoState) ∧
    new_sublist RLM_COMPONENT_AUTH 8 demoState =
      (some 1, demoState.setComponent RLM_COMPONENT_AUTH
        [ { idx := 7, modulelist := [⟨0⟩, ⟨1⟩, ⟨2⟩] }, { idx := 8, modulelist := [] } ]) :=
  ⟨(C6_new_sublist RLM_COMPONENT_AUTH 7 demoState).2.1 (by decide)
      ⟨{ idx := 7, modulelist := [⟨0⟩, ⟨1⟩, ⟨2⟩] }, by simp [demoState], rfl⟩,
    (C6_new_sublist RLM_COMPONENT_AUTH 8 demoState).2.2
      (by simp [demoState])⟩

/-! ## Claims on `new_authtype_value` -/

/-- A name that fits the buffer is copied whole. -/
theorem strNcpy_of_fits (src : String) (n : Nat) (h : Fits src n) : strNcpy src n = src := by
  cases src with
  | mk data =>
    have hlen : data.length ≤ n - 1 := by
      simp only [Fits, String.length] at h
      omega
    simp [strNcpy, List.take_of_length_le hlen]

theorem dict_valbyname_eq_none_iff (dict : List DICT_VALUE) (name : String) :
    dict_valbyname dict name = none ↔ ∀ v ∈ dict, v.name ≠ name := by
  induction dict with
  | nil => simp [dict_valbyname]
  | cons a t ih =>
    by_cases ha : a.name = name
    · simp [dict_valbyname, ha]
    · simp [dict_valbyname, ha, ih]

theorem dict_valbyname_append_of_none (l1 l2 : List DICT_VALUE) (name : String)
    (h : dict_valbyname l1 name = none) :
    dict_valbyname (l1 ++ l2) name = dict_valbyname l2 name := by
  induction l1 with
  | nil => rfl
  | cons a t ih =>
    by_cases ha : a.name = name
    · simp [dict_valbyname, ha] at h
    · simp only [dict_valbyname, ha, if_false] at h
      simp [dict_valbyname, ha, ih h]

/-- Looking up a name that was not in the dictionary, after a value was linked in: the new
value when it has the name, nothing otherwise. -/
theorem dict_valbyname_link_after (dict : List DICT_VALUE) (p : Nat) (nv : DICT_VALUE)
    (name : String) (h : dict_valbyname dict name = none) :
    dict_valbyname (link_after dict p nv) name = if nv.name = name then some nv else none := by
  have hall := (dict_valbyname_eq_none_iff dict name).mp h
  have htake : dict_valbyname (dict.take (p + 1)) name = none :=
    (dict_valbyname_eq_none_iff _ name).mpr
      (fun v hv => hall v (List.mem_of_mem_take hv))
  have hdrop : dict_valbyname (dict.drop (p + 1)) name = none :=
    (dict_valbyname_eq_none_iff _ name).mpr
      (fun v hv => hall v (List.mem_of_mem_drop hv))
  unfold link_after
  rw [dict_valbyname_append_of_none _ _ _ htake]
  by_cases hn : nv.name = name
  · simp [dict_valbyname, hn]
  · simp [dict_valbyname, hn, hdrop]

/-- A name found in the dictionary: `new_authtype_value` returns its value, changes nothing. -/
theorem new_authtype_value_of_known (k : Consts) (name : String) (st : State)
    (v : DICT_VALUE) (h : dict_valbyname st.dictionary_values name = some v) :
    new_authtype_value k name st = (v.value, st) := by
  simp [new_authtype_value, h]

theorem wrap_int_of_range (x : Int) (h1 : -(2 ^ 31) ≤ x) (h2 : x < 2 ^ 31) :
    wrap_int x = x := by
  unfold wrap_int
  rw [Int.emod_eq_of_lt (by omega) (by omega)]
  omega

/-- One call of `new_authtype_value`, for any name, with the counter below the largest
`int`: the counter stays or moves up by one. -/
theorem new_authtype_value_counter (k : Consts) (name : String) (st : State)
    (hlo : -(2 ^ 31) ≤ st.max_value) (hhi : st.max_value + 1 < 2 ^ 31) :
    (new_authtype_value k name st).2.max_value = st.max_value ∨
    (new_authtype_value k name st).2.max_value = st.max_value + 1 := by
  unfold new_authtype_value
  cases hn : dict_valbyname st.dictionary_values name with
  | some v => left; rfl
  | none =>
    cases hb : dict_valbyattr st.dictionary_values k.PW_AUTHTYPE 0 with
    | none => left; rfl
    | some r =>
      right
      simp [wrap_int_of_range _ (show -(2 ^ 31) ≤ st.max_value + 1 by omega) hhi]

/-- From the initialiser of the counter on, after any calls of `new_authtype_value` (fewer
than the values that are left), the counter is the initialiser plus the number of values
allocated so far, which is at most the number of calls. -/
theorem new_authtype_values_counter (k : Consts) (names : List String) :
    ∀ (st : State) (allocated : Nat),
      st.max_value = max_value_initial + allocated →
      max_value_initial + allocated + names.length < 2 ^ 31 →
      ∃ more : Nat, more ≤ names.length ∧
        (new_authtype_values k names st).2.max_value =
          max_value_initial + (allocated + more : Nat) := by
  induction names with
  | nil =>
    intro st allocated h _
    exact ⟨0, le_refl _, by simpa [new_authtype_values] using h⟩
  | cons n rest ih =>
    intro st allocated h hr
    have hinit : max_value_initial = 32767 := rfl
    have hlen : ((n :: rest).length : Int) = (rest.length : Int) + 1 := by
      simp
    rcases new_authtype_value_counter k n st (by omega) (by omega) with h1 | h1
    · obtain ⟨more, hm, heq⟩ := ih (new_authtype_value k n st).2 allocated
        (by rw [h1, h]) (by omega)
      exact ⟨more, by simp only [List.length_cons]; omega, by
        simpa [new_authtype_values] using heq⟩
    · obtain ⟨more, hm, heq⟩ := ih (new_authtype_value k n st).2 (allocated + 1)
        (by rw [h1, h]; push_cast; omega) (by push_cast; omega)
      refine ⟨more + 1, by simp only [List.length_cons]; omega, ?_⟩
      simp only [new_authtype_values]
      rw [heq]
      push_cast
      omega

theorem instantiate_runs_append (n : String) (a b : List Event) :
    instantiate_runs n (a ++ b) = instantiate_runs n a + instantiate_runs n b := by
  simp [instantiate_runs, List.countP_append]

theorem instantiate_successes_append (n : String) (a b : List Event) :
    instantiate_successes n (a ++ b) =
      instantiate_successes n a + instantiate_successes n b := by
  simp [instantiate_successes, List.countP_append]

theorem instantiate_runs_one (m n : String) (rc : Int) :
    instantiate_runs m [Event.instantiate n rc] = if n = m then 1 else 0 := by
  by_cases h : n = m <;> simp [instantiate_runs, h]

theorem instantiate_successes_one (m n : String) (rc : Int) :
    instantiate_successes m [Event.instantiate n rc] = if n = m ∧ 0 ≤ rc then 1 else 0 := by
  by_cases h : n = m ∧ 0 ≤ rc
  · simp [instantiate_successes, h]
  · rw [if_neg h]
    simp only [instantiate_successes, List.countP_cons, List.countP_nil]
    simp [h]

/-- A call of `linkto_module` leaves the instance registry alone and runs no `instantiate`
hook. -/
theorem linkto_module_frame (k : Consts) (env : Env) (name : String) (st : State) :
    (linkto_module k env name st).2.module_instance_list = st.module_instance_list ∧
    (∀ n, instantiate_runs n (linkto_module k env name st).2.trace =
      instantiate_runs n st.trace) ∧
    (∀ n, instantiate_successes n (linkto_module k env name st).2.trace =
      instantiate_successes n st.trace) := by
  unfold linkto_module
  split
  · exact ⟨rfl, fun _ => rfl, fun _ => rfl⟩
  · simp only
    split
    · simp [State.emit, instantiate_runs, instantiate_successes, List.countP_append]
    · split
      · simp [State.emit, linkto_module_fail, instantiate_runs, instantiate_successes,
          List.countP_append]
      · split
        · simp [State.emit, instantiate_runs, instantiate_successes, List.countP_append]
        · split
          · simp [State.emit, linkto_module_fail, instantiate_runs, instantiate_successes,
              List.countP_append]
          · simp [State.emit, instantiate_runs, instantiate_successes, List.countP_append]

/-- What `register_instance` does: one node at the tail, named by what fits of the wanted
name, no hook run. -/
theorem register_instance_spec (k : Consts) (instname : String) (entry : Nat)
    (lib : module_list_t) (insthandle : Nat) (st : State) :
    ∃ node : module_instance_t, node.name = strNcpy instname k.MAX_STRING_LEN ∧
      (register_instance k instname entry lib insthandle st).1 =
        some st.module_instance_list.length ∧
      (register_instance k instname entry lib insthandle st).2.module_instance_list =
        st.module_instance_list ++ [node] ∧
      (∀ n, instantiate_runs n (register_instance k instname entry lib insthandle st).2.trace =
        instantiate_runs n st.trace) ∧
      (∀ n, instantiate_successes n
          (register_instance k instname entry lib insthandle st).2.trace =
        instantiate_successes n st.trace) := by
  refine ⟨{ name := strNcpy instname k.MAX_STRING_LEN, entry := entry,
            insthandle := insthandle,
            mutex := decide (lib.module.type &&& k.RLM_TYPE_THREAD_UNSAFE ≠ 0) },
    rfl, ?_, ?_, ?_, ?_⟩
  · by_cases hu : lib.module.type &&& k.RLM_TYPE_THREAD_UNSAFE = 0 <;>
      simp [register_instance, hu, State.emit]
  · by_cases hu : lib.module.type &&& k.RLM_TYPE_THREAD_UNSAFE = 0 <;>
      simp [register_instance, hu, State.emit]
  · intro n
    by_cases hu : lib.module.type &&& k.RLM_TYPE_THREAD_UNSAFE = 0 <;>
      simp [register_instance, hu, State.emit, instantiate_runs, List.countP_append]
  · intro n
    by_cases hu : lib.module.type &&& k.RLM_TYPE_THREAD_UNSAFE = 0 <;>
      simp [register_instance, hu, State.emit, instantiate_successes, List.countP_append]

/-- The search loop of `find_module_instance` finds nothing exactly when no instance has the
name. -/
theorem find_instance_eq_none_iff (l : List module_instance_t) (name : String) :
    find_instance l name = none ↔ ∀ e ∈ l, e.name ≠ name := by
  induction l with
  | nil => simp [find_instance]
  | cons a t ih =>
    by_cases ha : a.name = name
    · simp [find_instance, ha]
    · simp [find_instance, ha, ih]

/-- What the search loop finds stays the first of its name when the list grows. -/
theorem find_instance_append (l ext : List module_instance_t) (name : String) :
    ∀ p, find_instance l name = some p → find_instance (l ++ ext) name = some p := by
  induction l with
  | nil => intro p h; simp [find_instance] at h
  | cons a t ih =>
    intro p h
    by_cases ha : a.name = name
    · simpa [find_instance, ha] using h
    · simp only [find_instance, ha, if_false] at h
      cases hr : find_instance t name with
      | none => simp [hr] at h
      | some q =>
        simp only [hr, Option.map_some', Option.some.injEq] at h
        subst h
        simp [find_instance, ha, ih q hr]

/-- A node of the name, linked at the tail of a list without the name, is what the search
loop finds. -/
theorem find_instance_append_new (l : List module_instance_t) (node : module_instance_t)
    (name : String) (hnone : find_instance l name = none) (hname : node.name = name) :
    find_instance (l ++ [node]) name = some l.length := by
  induction l with
  | nil => simp [find_instance, hname]
  | cons a t ih =>
    by_cases ha : a.name = name
    · simp [find_instance, ha] at hnone
    · simp only [find_instance, ha, if_false] at hnone
      cases hr : find_instance t name with
      | none => simp [find_instance, ha, ih hr]
      | some q => simp [hr] at hnone

theorem find_instance_name (l : List module_instance_t) (name : String) :
    ∀ p, find_instance l name = some p → (l[p]?).map (fun e => e.name) = some name := by
  induction l with
  | nil => intro p h; simp [find_instance] at h
  | cons a t ih =>
    intro p h
    by_cases ha : a.name = name
    · simp only [find_instance, ha, if_true, Option.some.injEq] at h
      subst h
      simp [ha]
    · simp only [find_instance, ha, if_false] at h
      cases hr : find_instance t name with
      | none => simp [hr] at h
      | some q =>
        simp only [hr, Option.map_some', Option.some.injEq] at h
        subst h
        simpa using ih q hr

/-- A call of `find_module_instance` for a name that is not registered: either it fails,
registers nothing and no run of the `instantiate` hook succeeded, or it links one node,
named by what fits of that name, at the tail of the registry; the hook is run at most once,
for that name. -/
theorem find_module_instance_miss (k : Consts) (env : Env) (n : String) (st : State)
    (hmiss : find_instance st.module_instance_list n = none) :
    ((find_module_instance k env n st).1 = none ∧
      (find_module_instance k env n st).2.module_instance_list = st.module_instance_list ∧
      (∀ m, instantiate_successes m (find_module_instance k env n st).2.trace =
        instantiate_successes m st.trace) ∧
      (∀ m, instantiate_runs m (find_module_instance k env n st).2.trace ≤
        instantiate_runs m st.trace + (if m = n then 1 else 0))) ∨
    (∃ node : module_instance_t, node.name = strNcpy n k.MAX_STRING_LEN ∧
      (find_module_instance k env n st).1 = some st.module_instance_list.length ∧
      (find_module_instance k env n st).2.module_instance_list =
        st.module_instance_list ++ [node] ∧
      (∀ m, instantiate_successes m (find_module_instance k env n st).2.trace ≤
        instantiate_successes m st.trace + (if m = n then 1 else 0)) ∧
      (∀ m, instantiate_runs m (find_module_instance k env n st).2.trace ≤
        instantiate_runs m st.trace + (if m = n then 1 else 0))) := by
  unfold find_module_instance
  simp only [hmiss]
  cases hcs : cf_section_find env.config "modules" with
  | none =>
    left
    simp [State.emit, instantiate_runs, instantiate_successes, List.countP_append]
  | some cs =>
    simp only
    cases hsec : find_instance_section cs.items n with
    | none =>
      left
      simp [State.emit, instantiate_runs, instantiate_successes, List.countP_append]
    | some inst_cs =>
      simp only
      obtain ⟨hfl, hfr, hfs⟩ := linkto_module_frame k env (rlm_module_name inst_cs.name1) st
      cases hl : (linkto_module k env (rlm_module_name inst_cs.name1) st).1 with
      | none =>
        left
        simp only [true_and]
        exact ⟨hfl, hfs, fun m => by rw [hfr m]; omega⟩
      | some entry =>
        simp only
        cases hlib : (linkto_module k env (rlm_module_name inst_cs.name1) st).2.module_list[entry]? with
        | none =>
          left
          simp only [true_and]
          exact ⟨hfl, hfs, fun m => by rw [hfr m]; omega⟩
        | some lib =>
          simp only
          cases hhook : lib.module.instantiate with
          | none =>
            right
            simp only
            obtain ⟨node, hname, h1, h2, h3, h4⟩ := register_instance_spec k n entry lib 0
              (linkto_module k env (rlm_module_name inst_cs.name1) st).2
            refine ⟨node, hname, ?_, ?_, ?_, ?_⟩
            · rw [h1, hfl]
            · rw [h2, hfl]
            · intro m; rw [h4 m, hfs m]; omega
            · intro m; rw [h3 m, hfr m]; omega
          | some hook =>
            simp only
            split
            · rename_i hneg
              left
              refine ⟨rfl, ?_, ?_, ?_⟩
              · simp [State.emit, hfl]
              · intro m
                have hnot : ¬ (0 ≤ (hook inst_cs 0
                    (linkto_module k env (rlm_module_name inst_cs.name1) st).2.world).1) := by
                  omega
                simp only [State.emit, instantiate_successes_append,
                  instantiate_successes_one, hfs m]
                simp [hnot, instantiate_successes]
              · intro m
                simp only [State.emit, instantiate_runs_append, instantiate_runs_one, hfr m]
                have hz : instantiate_runs m
                    [Event.radlog (LogMsg.instantiation_failed n)] = 0 := by
                  simp [instantiate_runs]
                rw [hz]
                by_cases hm : m = n
                · simp [hm]
                · have hm2 : ¬ n = m := fun h => hm h.symm
                  simp [hm, hm2]
            · right
              obtain ⟨node, hname, h1, h2, h3, h4⟩ := register_instance_spec k n entry lib
                (hook inst_cs 0 (linkto_module k env (rlm_module_name inst_cs.name1) st).2.world).2.1
                ({ (linkto_module k env (rlm_module_name inst_cs.name1) st).2 with
                    world := (hook inst_cs 0
                      (linkto_module k env (rlm_module_name inst_cs.name1) st).2.world).2.2 }.emit
                  (Event.instantiate n (hook inst_cs 0
                    (linkto_module k env (rlm_module_name inst_cs.name1) st).2.world).1))
              refine ⟨node, hname, ?_, ?_, ?_, ?_⟩
              · rw [h1]; simp [State.emit, hfl]
              · rw [h2]; simp [State.emit, hfl]
              · intro m
                rw [h4 m]
                simp only [State.emit, instantiate_successes_append,
                  instantiate_successes_one, hfs m]
                by_cases hm : m = n
                · simp only [hm, if_true]
                  split <;> omega
                · have hm2 : ¬ n = m := fun h => hm h.symm
                  simp [hm, hm2]
              · intro m
                rw [h3 m]
                simp only [State.emit, instantiate_runs_append, instantiate_runs_one, hfr m]
                by_cases hm : m = n
                · simp [hm]
                · have hm2 : ¬ n = m := fun h => hm h.symm
                  simp [hm, hm2]

theorem instances_named_append (m : String) (st st2 : State) (node : module_instance_t)
    (h : st2.module_instance_list = st.module_instance_list ++ [node]) :
    instances_named m st2 = instances_named m st + (if node.name = m then 1 else 0) := by
  simp only [instances_named, h, List.map_append, List.map_singleton, List.count_append]
  by_cases hm : node.name = m
  · simp [hm]
  · simp [hm, List.count_singleton]

/-- One call of `find_module_instance`: the registry grows at the tail only, and a returned
node is in the registry: it is the first node of the name, or it is the node just linked at
the tail, named by what fits of the name. -/
theorem find_module_instance_node (k : Consts) (env : Env) (n : String) (st : State) :
    (∃ ext, (find_module_instance k env n st).2.module_instance_list =
        st.module_instance_list ++ ext) ∧
    (∀ p, (find_module_instance k env n st).1 = some p →
      ∃ inst, (find_module_instance k env n st).2.module_instance_list[p]? = some inst ∧
        (find_instance (find_module_instance k env n st).2.module_instance_list n = some p ∨
          (find_instance st.module_instance_list n = none ∧
            p = st.module_instance_list.length ∧
            inst.name = strNcpy n k.MAX_STRING_LEN))) := by
  cases hf : find_instance st.module_instance_list n with
  | some p =>
    have hr : find_module_instance k env n st = (some p, st) := by
      simp [find_module_instance, hf]
    rw [hr]
    refine ⟨⟨[], by simp⟩, ?_⟩
    intro q hq
    simp only [Option.some.injEq] at hq
    subst hq
    have hname := find_instance_name _ _ p hf
    cases hinst : st.module_instance_list[p]? with
    | none => simp [hinst] at hname
    | some inst => exact ⟨inst, rfl, Or.inl hf⟩
  | none =>
    rcases find_module_instance_miss k env n st hf with
      ⟨h1, h2, _, _⟩ | ⟨node, hname, h1, h2, _, _⟩
    · refine ⟨⟨[], by simp [h2]⟩, ?_⟩
      intro p hp
      rw [h1] at hp
      exact absurd hp (by simp)
    · refine ⟨⟨[node], h2⟩, ?_⟩
      intro p hp
      rw [h1] at hp
      simp only [Option.some.injEq] at hp
      subst hp
      exact ⟨node, by rw [h2]; simp, Or.inr ⟨rfl, rfl, hname⟩⟩

/-- One call of `find_module_instance` for a name that fits the name buffer: names stay
pairwise distinct, a returned node is the first of the name, the hook runs that did not fail
are matched by new instances of the same name, and so are all hook runs but the one of a
call that fails. -/
theorem find_module_instance_step (k : Consts) (env : Env) (n : String) (st : State)
    (hfit : Fits n k.MAX_STRING_LEN) :
    ((st.module_instance_list.map (fun i => i.name)).Nodup →
      ((find_module_instance k env n st).2.module_instance_list.map
        (fun i => i.name)).Nodup) ∧
    (∀ p, (find_module_instance k env n st).1 = some p →
      find_instance (find_module_instance k env n st).2.module_instance_list n = some p) ∧
    (∀ m, instantiate_successes m (find_module_instance k env n st).2.trace +
        instances_named m st ≤
      instantiate_successes m st.trace +
        instances_named m (find_module_instance k env n st).2) ∧
    (∀ m, instantiate_runs m (find_module_instance k env n st).2.trace +
        instances_named m st ≤
      instantiate_runs m st.trace +
        instances_named m (find_module_instance k env n st).2 +
        (if m = n ∧ (find_module_instance k env n st).1 = none then 1 else 0)) := by
  have hcopy := strNcpy_of_fits n k.MAX_STRING_LEN hfit
  cases hf : find_instance st.module_instance_list n with
  | some p =>
    have hr : find_module_instance k env n st = (some p, st) := by
      simp [find_module_instance, hf]
    rw [hr]
    refine ⟨fun h => h, ?_, fun m => le_refl _, fun m => Nat.le_add_right _ _⟩
    intro q hq
    simp only [Option.some.injEq] at hq
    subst hq
    exact hf
  | none =>
    rcases find_module_instance_miss k env n st hf with
      ⟨h1, h2, h3, h4⟩ | ⟨node, hname, h1, h2, h3, h4⟩
    · refine ⟨fun h => by rw [h2]; exact h, ?_, ?_, ?_⟩
      · intro p hp
        rw [h1] at hp
        exact absurd hp (by simp)
      · intro m
        rw [h3 m]
        simp [instances_named, h2]
      · intro m
        have h := h4 m
        have hsame : instances_named m (find_module_instance k env n st).2 =
            instances_named m st := by
          simp [instances_named, h2]
        rw [hsame, h1]
        by_cases hm : m = n
        · simp only [hm, if_true, and_self] at h ⊢
          omega
        · simp only [hm, if_false, false_and] at h ⊢
          omega
    · rw [hcopy] at hname
      have hcount := fun m => instances_named_append m st _ node h2
      refine ⟨?_, ?_, ?_, ?_⟩
      · intro hnd
        rw [h2, List.map_append, List.map_singleton]
        refine List.Nodup.append hnd (List.nodup_singleton _) ?_
        intro a ha hb
        rw [List.mem_singleton] at hb
        subst hb
        obtain ⟨e, he, hea⟩ := List.mem_map.mp ha
        exact (find_instance_eq_none_iff _ _).mp hf e he (hea.trans hname)
      · intro p hp
        rw [h1] at hp
        simp only [Option.some.injEq] at hp
        subst hp
        rw [h2]
        exact find_instance_append_new _ node n hf hname
      · intro m
        have := h3 m
        rw [hcount m, hname]
        by_cases hm : m = n
        · subst hm
          simp only [if_true] at this ⊢
          omega
        · have hm2 : ¬ n = m := fun h => hm h.symm
          simp only [hm, hm2, if_false] at this ⊢
          omega
      · intro m
        have := h4 m
        rw [hcount m, hname, h1]
        by_cases hm : m = n
        · subst hm
          simp only [if_true] at this ⊢
          simp only [reduceCtorEq, and_false, if_false]
          omega
        · have hm2 : ¬ n = m := fun h => hm h.symm
          simp only [hm, hm2, if_false, false_and] at this ⊢
          omega

/-- A call of `linkto_module` leaves `module_list` as it was or links one node, named by
what fits of the name asked for, at its tail, and the latter only when no library had the
name. -/
theorem linkto_module_list (k : Consts) (env : Env) (name : String) (st : State) :
    (linkto_module k env name st).2.module_list = st.module_list ∨
    (find_module st.module_list name = none ∧
      ∃ node : module_list_t, node.name = strNcpy name k.MAX_STRING_LEN ∧
        (linkto_module k env name st).1 = some st.module_list.length ∧
        (linkto_module k env name st).2.module_list = st.module_list ++ [node]) := by
  unfold linkto_module
  cases hf : find_module st.module_list name with
  | some p => left; rfl
  | none =>
    simp only
    cases ho : (env.lt_dlopenext name st.world).1 with
    | none => left; rfl
    | some handle =>
      simp only
      split
      · left; rfl
      · rename_i module hy
        split
        · right
          exact ⟨trivial, _, rfl, rfl, rfl⟩
        · split
          · left; rfl
          · right
            exact ⟨trivial, _, rfl, rfl, rfl⟩

/-- C11: for each of the five phases `sanity_check` returns (with the state untouched) if and
only if the capability table has the handler of that phase (authenticate, authorize,
preaccounting, accounting, checksimul), whatever the other members of the table are;
without that handler, and for every component number outside the five phases, it logs and
calls `exit(1)`. -/
theorem C11_sanity_check (mod : module_t) (st : State) :
    (sanity_check RLM_COMPONENT_AUTH mod st =
      if mod.authenticate.isSome then Outcome.returned st
      else Outcome.exited
        (st.emit (Event.radlog (LogMsg.missing_entry RLM_COMPONENT_AUTH mod.name)))) ∧
    (sanity_check RLM_COMPONENT_AUTZ mod st =
      if mod.authorize.isSome then Outcome.returned st
      else Outcome.exited
        (st.emit (Event.radlog (LogMsg.missing_entry RLM_COMPONENT_AUTZ mod.name)))) ∧
    (sanity_check RLM_COMPONENT_PREACCT mod st =
      if mod.preaccounting.isSome then Outcome.returned st
      else Outcome.exited
        (st.emit (Event.radlog (LogMsg.missing_entry RLM_COMPONENT_PREACCT mod.name)))) ∧
    (sanity_check RLM_COMPONENT_ACCT mod st =
      if mod.accounting.isSome then Outcome.returned st
      else Outcome.exited
        (st.emit (Event.radlog (LogMsg.missing_entry RLM_COMPONENT_ACCT mod.name)))) ∧
    (sanity_check RLM_COMPONENT_SESS mod st =
      if mod.checksimul.isSome then Outcome.returned st
      else Outcome.exited
        (st.emit (Event.radlog (LogMsg.missing_entry RLM_COMPONENT_SESS mod.name)))) ∧
    (∀ comp : Int, comp < 0 ∨ (RLM_COMPONENT_COUNT : Int) ≤ comp →
      sanity_check comp mod st =
        Outcome.exited (st.emit (Event.radlog (LogMsg.unknown_component comp)))) := by
  refine ⟨?_, ?_, ?_, ?_, ?_, ?_⟩
  · cases h : mod.authenticate <;> simp [sanity_check, h]
  · cases h : mod.authorize <;>
      simp [sanity_check, h, RLM_COMPONENT_AUTH, RLM_COMPONENT_AUTZ]
  · cases h : mod.preaccounting <;>
      simp [sanity_check, h, RLM_COMPONENT_AUTH, RLM_COMPONENT_AUTZ, RLM_COMPONENT_PREACCT]
  · cases h : mod.accounting <;>
      simp [sanity_check, h, RLM_COMPONENT_AUTH, RLM_COMPONENT_AUTZ, RLM_COMPONENT_PREACCT,
        RLM_COMPONENT_ACCT]
  · cases h : mod.checksimul <;>
      simp [sanity_check, h, RLM_COMPONENT_AUTH, RLM_COMPONENT_AUTZ, RLM_COMPONENT_PREACCT,
        RLM_COMPONENT_ACCT, RLM_COMPONENT_SESS]
  · intro comp hc
    have h0 : comp ≠ (RLM_COMPONENT_AUTH : Int) := by
      simp only [RLM_COMPONENT_AUTH, RLM_COMPONENT_COUNT] at hc ⊢; omega
    have h1 : comp ≠ (RLM_COMPONENT_AUTZ : Int) := by
      simp only [RLM_COMPONENT_AUTZ, RLM_COMPONENT_COUNT] at hc ⊢; omega
    have h2 : comp ≠ (RLM_COMPONENT_PREACCT : Int) := by
      simp only [RLM_COMPONENT_PREACCT, RLM_COMPONENT_COUNT] at hc ⊢; omega
    have h3 : comp ≠ (RLM_COMPONENT_ACCT : Int) := by
      simp only [RLM_COMPONENT_ACCT, RLM_COMPONENT_COUNT] at hc ⊢; omega
    have h4 : comp ≠ (RLM_COMPONENT_SESS : Int) := by
      simp only [RLM_COMPONENT_SESS, RLM_COMPONENT_COUNT] at hc ⊢; omega
    simp [sanity_check, h0, h1, h2, h3, h4]

/-- C11 on a library that has every handler but checksimul: it passes for accounting, and
setup ends for the session phase, for component 7 and for component -1. -/
theorem C11_sanity_check_witness :
    (sanity_check RLM_COMPONENT_ACCT (demoModule "b" 0 2 2 0 none) demoState).isReturned =
      true ∧
    (sanity_check RLM_COMPONENT_SESS (demoModule "b" 0 2 2 0 none) demoState).isExited =
      true ∧
    sanity_check 7 (demoModule "b" 0 2 2 0 none) demoState =
      Outcome.exited (demoState.emit (Event.radlog (LogMsg.unknown_component 7))) ∧
    sanity_check (-1) (demoModule "b" 0 2 2 0 none) demoState =
      Outcome.exited (demoState.emit (Event.radlog (LogMsg.unknown_component (-1)))) :=
  ⟨by rw [(C11_sanity_check (demoModule "b" 0 2 2 0 none) demoState).2.2.2.1]; rfl,
    by rw [(C11_sanity_check (demoModule "b" 0 2 2 0 none) demoState).2.2.2.2.1]; rfl,
    (C11_sanity_check (demoModule "b" 0 2 2 0 none) demoState).2.2.2.2.2 7
      (Or.inr (by decide)),
    (C11_sanity_check (demoModule "b" 0 2 2 0 none) demoState).2.2.2.2.2 (-1)
      (Or.inl (by decide))⟩

/-- With no entry at all in the table of a component, the expression
`lookup_by_index(components[comp], 0)->modulelist` dereferences `NULL`. -/
theorem chain_of_empty_table (st : State) (comp : Nat) (idx : Int)
    (h : st.components comp = []) : chain_of st comp idx = none := by
  simp [chain_of, h, lookup_by_index]

/-- The executors of authorize, preacct and accounting do not guard against an empty table:
they dereference `NULL`, where `module_checksimul` returns 0. -/
theorem executors_on_empty_table (k : Consts) (request : REQUEST) (st : State) :
    (st.components RLM_COMPONENT_AUTZ = [] → module_authorize k request st = none) ∧
    (st.components RLM_COMPONENT_PREACCT = [] → module_preacct k request st = none) ∧
    (st.components RLM_COMPONENT_ACCT = [] → module_accounting k request st = none) ∧
    (st.components RLM_COMPONENT_SESS = [] →
      ∀ maxsimul, module_checksimul k request maxsimul st = some (0, request, st)) := by
  refine ⟨?_, ?_, ?_, ?_⟩
  · intro h; simp [module_authorize, chain_of_empty_table st _ 0 h]
  · intro h; simp [module_preacct, chain_of_empty_table st _ 0 h]
  · intro h; simp [module_accounting, chain_of_empty_table st _ 0 h]
  · intro h maxsimul; simp [module_checksimul, h]

/-- C12, the code at the failing input: `setup_modules` on a configuration with an
`authenticate` section only returns, the tables of authorize, preacct and accounting are
left `NULL`, and the three executors dereference `NULL` on a request instead of returning
OK; `module_checksimul`, which has the guard, returns 0. -/
theorem C12_absent_section_null_dereference :
    (setup_modules demoConsts demoEnvAuthOnly
        (State.initial [⟨1000, "Local", 0⟩] { cells := [] })).isReturned = true ∧
    (module_authorize demoConsts demoRequest
        (setup_modules demoConsts demoEnvAuthOnly
          (State.initial [⟨1000, "Local", 0⟩] { cells := [] })).state).isNone = true ∧
    (module_preacct demoConsts demoRequest
        (setup_modules demoConsts demoEnvAuthOnly
          (State.initial [⟨1000, "Local", 0⟩] { cells := [] })).state).isNone = true ∧
    (module_accounting demoConsts demoRequest
        (setup_modules demoConsts demoEnvAuthOnly
          (State.initial [⟨1000, "Local", 0⟩] { cells := [] })).state).isNone = true ∧
    (module_checksimul demoConsts demoRequest 3
        (setup_modules demoConsts demoEnvAuthOnly
          (State.initial [⟨1000, "Local", 0⟩] { cells := [] })).state).map
      (fun o => o.1) = some 0 := by
  decide

/-- A call of `linkto_module` leaves the chain tables, the dictionary and the counters
alone. -/
theorem linkto_module_statics (k : Consts) (env : Env) (name : String) (st : State) :
    (linkto_module k env name st).2.components = st.components ∧
    (linkto_module k env name st).2.dictionary_values = st.dictionary_values ∧
    (linkto_module k env name st).2.max_value = st.max_value ∧
    (linkto_module k env name st).2.meaningless_counter = st.meaningless_counter := by
  unfold linkto_module
  split
  · exact ⟨rfl, rfl, rfl, rfl⟩
  · simp only
    split
    · simp [State.emit]
    · split
      · simp [State.emit, linkto_module_fail]
      · split
        · simp [State.emit]
        · split
          · simp [State.emit, linkto_module_fail]
          · simp [State.emit]

/-- `register_instance` leaves the chain tables, the dictionary, the counters and the
library registry alone. -/
theorem register_instance_statics (k : Consts) (instname : String) (entry : Nat)
    (lib : module_list_t) (insthandle : Nat) (st : State) :
    (register_instance k instname entry lib insthandle st).2.components = st.components ∧
    (register_instance k instname entry lib insthandle st).2.dictionary_values =
      st.dictionary_values ∧
    (register_instance k instname entry lib insthandle st).2.max_value = st.max_value ∧
    (register_instance k instname entry lib insthandle st).2.meaningless_counter =
      st.meaningless_counter ∧
    (register_instance k instname entry lib insthandle st).2.module_list = st.module_list := by
  by_cases hu : lib.module.type &&& k.RLM_TYPE_THREAD_UNSAFE = 0 <;>
    simp [register_instance, hu, State.emit]

/-- A call of `find_module_instance` leaves the chain tables, the dictionary and the
counters alone. -/
theorem find_module_instance_statics (k : Consts) (env : Env) (n : String) (st : State) :
    (find_module_instance k env n st).2.components = st.components ∧
    (find_module_instance k env n st).2.dictionary_values = st.dictionary_values ∧
    (find_module_instance k env n st).2.max_value = st.max_value ∧
    (find_module_instance k env n st).2.meaningless_counter = st.meaningless_counter := by
  unfold find_module_instance
  cases hf : find_instance st.module_instance_list n with
  | some p => exact ⟨rfl, rfl, rfl, rfl⟩
  | none =>
    simp only
    cases hcs : cf_section_find env.config "modules" with
    | none => simp [State.emit]
    | some cs =>
      simp only
      cases hsec : find_instance_section cs.items n with
      | none => simp [State.emit]
      | some inst_cs =>
        simp only
        obtain ⟨h1, h2, h3, h4⟩ := linkto_module_statics k env (rlm_module_name inst_cs.name1) st
        cases hl : (linkto_module k env (rlm_module_name inst_cs.name1) st).1 with
        | none => exact ⟨h1, h2, h3, h4⟩
        | some entry =>
          simp only
          cases hlib : (linkto_module k env (rlm_module_name inst_cs.name1) st).2.module_list[entry]? with
          | none => exact ⟨h1, h2, h3, h4⟩
          | some lib =>
            simp only
            cases hhook : lib.module.instantiate with
            | none =>
              obtain ⟨r1, r2, r3, r4, _⟩ := register_instance_statics k n entry lib 0
                (linkto_module k env (rlm_module_name inst_cs.name1) st).2
              exact ⟨r1.trans h1, r2.trans h2, r3.trans h3, r4.trans h4⟩
            | some hook =>
              simp only
              split
              · simp [State.emit, h1, h2, h3, h4]
              · obtain ⟨r1, r2, r3, r4, _⟩ := register_instance_statics k n entry lib
                  (hook inst_cs 0 (linkto_module k env (rlm_module_name inst_cs.name1) st).2.world).2.1
                  ({ (linkto_module k env (rlm_module_name inst_cs.name1) st).2 with
                      world := (hook inst_cs 0
                        (linkto_module k env (rlm_module_name inst_cs.name1) st).2.world).2.2 }.emit
                    (Event.instantiate n (hook inst_cs 0
                      (linkto_module k env (rlm_module_name inst_cs.name1) st).2.world).1))
                refine ⟨r1.trans ?_, r2.trans ?_, r3.trans ?_, r4.trans ?_⟩ <;>
                  simp [State.emit, h1, h2, h3, h4]

/-- `new_authtype_value` changes the dictionary and its counter only. -/
theorem new_authtype_value_frame (k : Consts) (name : String) (st : State) :
    (new_authtype_value k name st).2.components = st.components ∧
    (new_authtype_value k name st).2.module_list = st.module_list ∧
    (new_authtype_value k name st).2.module_instance_list = st.module_instance_list ∧
    (new_authtype_value k name st).2.meaningless_counter = st.meaningless_counter ∧
    (new_authtype_value k name st).2.world = st.world ∧
    (new_authtype_value k name st).2.trace = st.trace := by
  unfold new_authtype_value
  split
  · exact ⟨rfl, rfl, rfl, rfl, rfl, rfl⟩
  · split
    · exact ⟨rfl, rfl, rfl, rfl, rfl, rfl⟩
    · exact ⟨rfl, rfl, rfl, rfl, rfl, rfl⟩

/-- `new_sublist` refuses an index other than 0 that is in the table, and changes nothing. -/
theorem new_sublist_duplicate (comp : Nat) (idx : Int) (st : State) (hnz : idx ≠ 0)
    (hdup : ∃ node ∈ st.components comp, node.idx = idx) :
    new_sublist comp idx st = (none, st) := by
  simp only [new_sublist, new_sublist_in_existing _ _ hdup, hnz, if_false, setComponent_self]

/-- C13, as stated, fails: in an `authenticate` section that lists a, a, b2 the second
reference to a computes the selector 32767, which has a chain; `setup_modules` does not end
the process, it logs "already configured - skipping" and goes on to b2, which gets its
chain. -/
theorem C13_counterexample :
    (setup_modules demoConsts demoEnvDuplicate
        (State.initial [⟨1000, "Local", 0⟩] { cells := [] })).isExited = false ∧
    (setup_modules demoConsts demoEnvDuplicate
        (State.initial [⟨1000, "Local", 0⟩] { cells := [] })).isReturned = true ∧
    (setup_modules demoConsts demoEnvDuplicate
        (State.initial [⟨1000, "Local", 0⟩] { cells := [] })).state.table
      RLM_COMPONENT_AUTH = [(32767, [0]), (32768, [1])] ∧
    Event.radlog (LogMsg.already_configured RLM_COMPONENT_AUTH (some "a")) ∈
      (setup_modules demoConsts demoEnvDuplicate
        (State.initial [⟨1000, "Local", 0⟩] { cells := [] })).state.trace := by
  decide

/-- C13, amended: in `load_component_section`, a plain reference that resolves and passes
`sanity_check`, and whose computed selector is not 0 and already has a chain entry in the
table of the phase, is logged and skipped: no chain of any phase changes and the loop goes
on with the remaining items. -/
theorem C13_duplicate_reference_skipped (k : Consts) (env : Env) (comp : Nat)
    (modref : CONF_ITEM) (next : List CONF_ITEM) (st st1 st2 : State) (this : Nat)
    (inst : module_instance_t) (lib : module_list_t) (idx : Int)
    (hplain : ∀ n1 n2 l c, modref = CONF_ITEM.sect n1 n2 l c →
      some n1 ≠ subcomponent_names[comp]?)
    (hfind : find_module_instance k env modref.name1 st = (some this, st1))
    (hinst : st1.module_instance_list[this]? = some inst)
    (hlib : st1.module_list[inst.entry]? = some lib)
    (hsane : sanity_check comp lib.module st1 = Outcome.returned st1)
    (hpick : (if comp = RLM_COMPONENT_AUTH then new_authtype_value k inst.name st1
      else (0, st1)) = (idx, st2))
    (hnz : idx ≠ 0)
    (hdup : ∃ node ∈ st2.components comp, node.idx = idx) :
    load_component_section k env comp (modref :: next) st =
      load_component_section k env comp next
        (st2.emit (Event.radlog (LogMsg.already_configured comp (some inst.name)))) ∧
    (st2.emit (Event.radlog (LogMsg.already_configured comp (some inst.name)))).components =
      st.components := by
  have hdup2 := new_sublist_duplicate comp idx st2 hnz hdup
  have href : load_reference k env comp modref st =
      Outcome.returned
        (st2.emit (Event.radlog (LogMsg.already_configured comp (some inst.name)))) := by
    unfold load_reference
    simp only [hfind, hinst, hlib, hsane, hpick, hdup2]
  constructor
  · cases modref with
    | pair attr lineno =>
      simp only [load_component_section, href]
    | sect n1 n2 l c =>
      have hne := hplain n1 n2 l c rfl
      simp only [load_component_section, hne, if_false, href]
  · have hc1 : st1.components = st.components := by
      have := (find_module_instance_statics k env modref.name1 st).1
      rw [hfind] at this
      exact this
    have hc2 : st2.components = st1.components := by
      by_cases hc : comp = RLM_COMPONENT_AUTH
      · rw [if_pos hc] at hpick
        have := (new_authtype_value_frame k inst.name st1).1
        rw [hpick] at this
        exact this
      · rw [if_neg hc] at hpick
        simp only [Prod.mk.injEq] at hpick
        rw [← hpick.2]
    simp only [State.emit, hc2, hc1]

/-- C13 amended, on the second reference to a in the section a, a, b2: it is skipped, the
loop goes on with b2 from a state that has the tables of before. -/
theorem C13_duplicate_reference_skipped_witness :
    load_component_section demoConsts demoEnvDuplicate RLM_COMPONENT_AUTH
        [CONF_ITEM.pair "a" 12, CONF_ITEM.pair "b2" 13] demoAfterFirstReference =
      load_component_section demoConsts demoEnvDuplicate RLM_COMPONENT_AUTH
        [CONF_ITEM.pair "b2" 13]
        (demoAfterFirstReference.emit
          (Event.radlog (LogMsg.already_configured RLM_COMPONENT_AUTH (some "a")))) :=
  (C13_duplicate_reference_skipped demoConsts demoEnvDuplicate RLM_COMPONENT_AUTH
    (CONF_ITEM.pair "a" 12) [CONF_ITEM.pair "b2" 13] demoAfterFirstReference
    demoAfterFirstReference demoAfterFirstReference 0
    { name := "a", entry := 0, insthandle := 42, mutex := false }
    { name := "rlm_a", module := demoPlugin "rlm_a" 0, handle := 5 } 32767
    (fun n1 n2 l c h => by cases h) rfl rfl rfl rfl rfl (by decide)
    ⟨{ idx := 32767, modulelist := [⟨0⟩] }, by decide, rfl⟩).1

/-- C14: when `load_subcomponent_section` gets a block whose selector (the value
`new_authtype_value` gives the second label for Authenticate, the counter
`meaningless_counter` for the other phases) is not 0 and already has a chain entry in the
table of the phase, it returns: setup goes on, nothing is resolved, linked or instantiated
(the registries and the world are untouched, the trace gains the log line only) and every
chain of every phase is as before, so the first declaration stays in effect. -/
theorem C14_duplicate_block_skipped (k : Consts) (env : Env) (cs : CONF_ITEM) (comp : Nat)
    (st : State) (idx : Int)
    (hsel : (comp = RLM_COMPONENT_AUTH ∧
        ∃ name2, cs.name2 = some name2 ∧ idx = (new_authtype_value k name2 st).1) ∨
      (comp ≠ RLM_COMPONENT_AUTH ∧ idx = st.meaningless_counter))
    (hnz : idx ≠ 0)
    (hdup : ∃ node ∈ st.components comp, node.idx = idx) :
    ∃ st2, load_subcomponent_section k env cs comp st = Outcome.returned st2 ∧
      st2.components = st.components ∧
      st2.module_list = st.module_list ∧
      st2.module_instance_list = st.module_instance_list ∧
      st2.world = st.world ∧
      st2.trace = st.trace ++ [Event.radlog (LogMsg.already_configured comp cs.name2)] := by
  rcases hsel with ⟨hc, name2, hname, hidx⟩ | ⟨hc, hidx⟩
  · subst hc
    obtain ⟨f1, f2, f3, _, f5, f6⟩ := new_authtype_value_frame k name2 st
    have hdup2 : ∃ node ∈ (new_authtype_value k name2 st).2.components RLM_COMPONENT_AUTH,
        node.idx = (new_authtype_value k name2 st).1 := by
      rw [f1, ← hidx]; exact hdup
    have hns := new_sublist_duplicate RLM_COMPONENT_AUTH (new_authtype_value k name2 st).1
      (new_authtype_value k name2 st).2 (hidx ▸ hnz) hdup2
    refine ⟨(new_authtype_value k name2 st).2.emit
      (Event.radlog (LogMsg.already_configured RLM_COMPONENT_AUTH cs.name2)), ?_, ?_, ?_, ?_, ?_, ?_⟩
    · unfold load_subcomponent_section
      simp only [if_true, hname, hns]
    · simp [State.emit, f1]
    · simp [State.emit, f2]
    · simp [State.emit, f3]
    · simp [State.emit, f5]
    · simp [State.emit, f6]
  · have hns := new_sublist_duplicate comp st.meaningless_counter
      { st with meaningless_counter := wrap_int (st.meaningless_counter + 1) }
      (hidx ▸ hnz) (hidx ▸ hdup)
    refine ⟨({ st with meaningless_counter := wrap_int (st.meaningless_counter + 1) }).emit
      (Event.radlog (LogMsg.already_configured comp cs.name2)), ?_, ?_, ?_, ?_, ?_, ?_⟩
    · unfold load_subcomponent_section
      simp only [hc, if_false, hns]
    · simp [State.emit]
    · simp [State.emit]
    · simp [State.emit]
    · simp [State.emit]
    · simp [State.emit]

/-- C14 on a second `authtype PAP` block, PAP being value 7 and 7 having a chain: the block
is skipped, its item c is not looked up, and the table of Authenticate is as before. -/
theorem C14_duplicate_block_skipped_witness :
    (load_subcomponent_section demoConsts demoEnv
        (CONF_ITEM.sect "authtype" (some "PAP") 20 [CONF_ITEM.pair "c" 21])
        RLM_COMPONENT_AUTH demoStatePap).isReturned = true ∧
    (load_subcomponent_section demoConsts demoEnv
        (CONF_ITEM.sect "authtype" (some "PAP") 20 [CONF_ITEM.pair "c" 21])
        RLM_COMPONENT_AUTH demoStatePap).state.trace =
      [Event.radlog (LogMsg.already_configured RLM_COMPONENT_AUTH (some "PAP"))] ∧
    (load_subcomponent_section demoConsts demoEnv
        (CONF_ITEM.sect "authtype" (some "PAP") 20 [CONF_ITEM.pair "c" 21])
        RLM_COMPONENT_AUTH demoStatePap).state.components = demoStatePap.components := by
  obtain ⟨st2, h, hc, _, _, _, ht⟩ := C14_duplicate_block_skipped demoConsts demoEnv
    (CONF_ITEM.sect "authtype" (some "PAP") 20 [CONF_ITEM.pair "c" 21])
    RLM_COMPONENT_AUTH demoStatePap 7
    (Or.inl ⟨rfl, "PAP", rfl, by decide⟩) (by decide)
    ⟨{ idx := 7, modulelist := [⟨0⟩, ⟨1⟩, ⟨2⟩] }, by simp [demoStatePap, demoState], rfl⟩
  rw [h]
  exact ⟨rfl, ht, hc⟩

/-! ## Claim on the mutex of an instance -/

theorem getElem?_append_of_some {α : Type} (l ext : List α) (i : Nat) (x : α)
    (h : l[i]? = some x) : (l ++ ext)[i]? = some x := by
  have hi : i < l.length := by
    by_contra hge
    rw [List.getElem?_eq_none (by omega)] at h
    exact absurd h (by simp)
  rw [List.getElem?_append_left hi]
  exact h

/-- A call of `linkto_module` only adds to the library registry, at its tail. -/
theorem linkto_module_grows (k : Consts) (env : Env) (name : String) (st : State) :
    ∃ ext, (linkto_module k env name st).2.module_list = st.module_list ++ ext := by
  rcases linkto_module_list k env name st with h | ⟨_, node, _, _, h⟩
  · exact ⟨[], by simp [h]⟩
  · exact ⟨[node], h⟩

/-- What `register_instance` returns and links. -/
theorem register_instance_node (k : Consts) (instname : String) (entry : Nat)
    (lib : module_list_t) (insthandle : Nat) (st : State) :
    (register_instance k instname entry lib insthandle st).1 =
      some st.module_instance_list.length ∧
    (register_instance k instname entry lib insthandle st).2.module_instance_list =
      st.module_instance_list ++
        [{ name := strNcpy instname k.MAX_STRING_LEN, entry := entry,
           insthandle := insthandle,
           mutex := decide (lib.module.type &&& k.RLM_TYPE_THREAD_UNSAFE ≠ 0) }] ∧
    (register_instance k instname entry lib insthandle st).2.module_list = st.module_list := by
  by_cases hu : lib.module.type &&& k.RLM_TYPE_THREAD_UNSAFE = 0 <;>
    simp [register_instance, hu, State.emit]

/-- A call of `find_module_instance` only adds to the library registry, at its tail. -/
theorem find_module_instance_libraries_grow (k : Consts) (env : Env) (n : String)
    (st : State) :
    ∃ ext, (find_module_instance k env n st).2.module_list = st.module_list ++ ext := by
  unfold find_module_instance
  cases hf : find_instance st.module_instance_list n with
  | some p => exact ⟨[], by simp⟩
  | none =>
    simp only
    cases hcs : cf_section_find env.config "modules" with
    | none => exact ⟨[], by simp [State.emit]⟩
    | some cs =>
      simp only
      cases hsec : find_instance_section cs.items n with
      | none => exact ⟨[], by simp [State.emit]⟩
      | some inst_cs =>
        simp only
        obtain ⟨ext, hext⟩ := linkto_module_grows k env (rlm_module_name inst_cs.name1) st
        cases hl : (linkto_module k env (rlm_module_name inst_cs.name1) st).1 with
        | none => exact ⟨ext, hext⟩
        | some entry =>
          simp only
          cases hlib : (linkto_module k env (rlm_module_name inst_cs.name1) st).2.module_list[entry]? with
          | none => exact ⟨ext, hext⟩
          | some lib =>
            simp only
            cases hhook : lib.module.instantiate with
            | none =>
              exact ⟨ext, by rw [(register_instance_node k n entry lib 0 _).2.2, hext]⟩
            | some hook =>
              simp only
              split
              · exact ⟨ext, by simp [State.emit, hext]⟩
              · exact ⟨ext, by
                  rw [(register_instance_node k n entry lib _ _).2.2]
                  simp [State.emit, hext]⟩

/-- A call of `find_module_instance` for a name that is not registered either registers
nothing, or links one node at the tail of the registry: it is named by what fits of the name
asked for, points to a library of the library registry, and has a mutex exactly when that
library is flagged thread-unsafe. -/
theorem find_module_instance_new_node (k : Consts) (env : Env) (n : String) (st : State)
    (hmiss : find_instance st.module_instance_list n = none) :
    ((find_module_instance k env n st).1 = none ∧
      (find_module_instance k env n st).2.module_instance_list = st.module_instance_list) ∨
    (∃ entry lib insthandle,
      (find_module_instance k env n st).2.module_list[entry]? = some lib ∧
      (find_module_instance k env n st).1 = some st.module_instance_list.length ∧
      (find_module_instance k env n st).2.module_instance_list =
        st.module_instance_list ++
          [{ name := strNcpy n k.MAX_STRING_LEN, entry := entry, insthandle := insthandle,
             mutex := decide (lib.module.type &&& k.RLM_TYPE_THREAD_UNSAFE ≠ 0) }]) := by
  unfold find_module_instance
  simp only [hmiss]
  cases hcs : cf_section_find env.config "modules" with
  | none => left; simp [State.emit]
  | some cs =>
    simp only
    cases hsec : find_instance_section cs.items n with
    | none => left; simp [State.emit]
    | some inst_cs =>
      simp only
      obtain ⟨hfl, _, _⟩ := linkto_module_frame k env (rlm_module_name inst_cs.name1) st
      cases hl : (linkto_module k env (rlm_module_name inst_cs.name1) st).1 with
      | none => left; exact ⟨rfl, hfl⟩
      | some entry =>
        simp only
        cases hlib : (linkto_module k env (rlm_module_name inst_cs.name1) st).2.module_list[entry]? with
        | none => left; exact ⟨rfl, hfl⟩
        | some lib =>
          simp only
          cases hhook : lib.module.instantiate with
          | none =>
            right
            obtain ⟨r1, r2, r3⟩ := register_instance_node k n entry lib 0
              (linkto_module k env (rlm_module_name inst_cs.name1) st).2
            exact ⟨entry, lib, 0, by rw [r3]; exact hlib, by rw [r1, hfl],
              by rw [r2, hfl]⟩
          | some hook =>
            simp only
            split
            · left; exact ⟨rfl, by simp [State.emit, hfl]⟩
            · right
              obtain ⟨r1, r2, r3⟩ := register_instance_node k n entry lib
                (hook inst_cs 0 (linkto_module k env (rlm_module_name inst_cs.name1) st).2.world).2.1
                ({ (linkto_module k env (rlm_module_name inst_cs.name1) st).2 with
                    world := (hook inst_cs 0
                      (linkto_module k env (rlm_module_name inst_cs.name1) st).2.world).2.2 }.emit
                  (Event.instantiate n (hook inst_cs 0
                    (linkto_module k env (rlm_module_name inst_cs.name1) st).2.world).1))
              refine ⟨entry, lib,
                (hook inst_cs 0 (linkto_module k env (rlm_module_name inst_cs.name1) st).2.world).2.1,
                ?_, ?_, ?_⟩
              · rw [r3]
                simpa [State.emit] using hlib
              · rw [r1]
                simp [State.emit, hfl]
              · rw [r2]
                simp [State.emit, hfl]

/-- One call of `find_module_instance` keeps the mutex rule of the registry. -/
theorem find_module_instance_mutex (k : Consts) (env : Env) (n : String) (st : State)
    (h : MutexIffUnsafe k st) : MutexIffUnsafe k (find_module_instance k env n st).2 := by
  obtain ⟨ext, hext⟩ := find_module_instance_libraries_grow k env n st
  have hold : ∀ inst ∈ st.module_instance_list,
      ∃ lib, (find_module_instance k env n st).2.module_list[inst.entry]? = some lib ∧
        (inst.mutex = true ↔ lib.module.type &&& k.RLM_TYPE_THREAD_UNSAFE ≠ 0) := by
    intro inst hi
    obtain ⟨lib, hl, hm⟩ := h inst hi
    exact ⟨lib, by rw [hext]; exact getElem?_append_of_some _ _ _ _ hl, hm⟩
  cases hf : find_instance st.module_instance_list n with
  | some p =>
    have hr : find_module_instance k env n st = (some p, st) := by
      simp [find_module_instance, hf]
    rw [hr]
    exact h
  | none =>
    rcases find_module_instance_new_node k env n st hf with
      ⟨_, hsame⟩ | ⟨entry, lib, insthandle, hlib, _, hlist⟩
    · intro inst hi
      rw [hsame] at hi
      exact hold inst hi
    · intro inst hi
      rw [hlist, List.mem_append, List.mem_singleton] at hi
      rcases hi with hi | hi
      · exact hold inst hi
      · subst hi
        exact ⟨lib, hlib, by simp⟩

/-- C16: every instance registered by `find_module_instance` has a mutex if and only if the
capability table of its library carries the thread-unsafe flag
(`type & RLM_TYPE_THREAD_UNSAFE` is not 0); the rule holds for every instance of the
registry after any sequence of lookups, successful or failed, when it held before (the
empty registry included). -/
theorem C16_mutex_iff_thread_unsafe (k : Consts) (env : Env) (names : List String)
    (st : State) (h : MutexIffUnsafe k st) :
    MutexIffUnsafe k (find_module_instances k env names st).2 := by
  induction names generalizing st with
  | nil => exact h
  | cons n rest ih =>
    exact ih _ (find_module_instance_mutex k env n st h)

/-- C16 on the demo configuration, from the empty registry: after the lookups a, zz, b2 the
registry holds a, of the library rlm_a without the flag and without mutex, and b2, of the
library rlm_b with the flag and with a mutex. -/
theorem C16_mutex_iff_thread_unsafe_witness :
    (find_module_instances demoConsts demoEnv ["a", "zz", "b2"]
        (State.initial [] { cells := [] })).2.module_instance_list =
      [ { name := "a", entry := 0, insthandle := 42, mutex := false },
        { name := "b2", entry := 1, insthandle := 42, mutex := true } ] ∧
    MutexIffUnsafe demoConsts (find_module_instances demoConsts demoEnv ["a", "zz", "b2"]
        (State.initial [] { cells := [] })).2 :=
  ⟨by decide,
    C16_mutex_iff_thread_unsafe demoConsts demoEnv ["a", "zz", "b2"]
      (State.initial [] { cells := [] })
      (fun inst hi => by simp [State.initial] at hi)⟩

/-! ## Claim on the order of a chain -/

theorem chain_of_eq_chain_in (st : State) (comp : Nat) (idx : Int) :
    chain_of st comp idx = chain_in (st.components comp) idx := rfl

theorem chain_in_cons (a : indexed_config_module_t) (t : List indexed_config_module_t)
    (idx : Int) :
    chain_in (a :: t) idx = if a.idx = idx then some a.modulelist else chain_in t idx := by
  by_cases ha : a.idx = idx
  · simp [chain_in, lookup_by_index, ha]
  · simp only [chain_in, lookup_by_index, ha, if_false]
    cases lookup_by_index t idx with
    | none => rfl
    | some q => simp

/-- `add_to_list` for index 0 right after `new_sublist` for index 0, on one table: the entry
is found, its chain gains the new node at the end, the other chains stay. -/
theorem add_after_new_sublist (t : List indexed_config_module_t) (c : config_module_t) :
    ∃ q, lookup_by_index (new_sublist_in t 0).2 0 = some q ∧
      chain_in (append_to_chain (new_sublist_in t 0).2 q c) 0 =
        some ((chain_in t 0).getD [] ++ [c]) ∧
      ∀ idx, idx ≠ 0 →
        chain_in (append_to_chain (new_sublist_in t 0).2 q c) idx = chain_in t idx := by
  induction t with
  | nil =>
    refine ⟨0, by simp [new_sublist_in, lookup_by_index], ?_, ?_⟩
    · simp [new_sublist_in, append_to_chain, chain_in, lookup_by_index]
    · intro idx hidx
      have : ¬ (0 : Int) = idx := fun h => hidx h.symm
      simp [new_sublist_in, append_to_chain, chain_in, lookup_by_index, this]
  | cons a t ih =>
    by_cases ha : a.idx = 0
    · refine ⟨0, by simp [new_sublist_in, lookup_by_index, ha], ?_, ?_⟩
      · simp [new_sublist_in, ha, append_to_chain, chain_in_cons]
      · intro idx hidx
        have : ¬ (0 : Int) = idx := fun h => hidx h.symm
        simp [new_sublist_in, ha, append_to_chain, chain_in_cons, this]
    · obtain ⟨q, hq, h0, hother⟩ := ih
      refine ⟨q + 1, by simp [new_sublist_in, lookup_by_index, ha, hq], ?_, ?_⟩
      · simp only [new_sublist_in, ha, if_false, append_to_chain, chain_in_cons]
        exact h0
      · intro idx hidx
        simp only [new_sublist_in, ha, if_false, append_to_chain, chain_in_cons]
        by_cases hi : a.idx = idx
        · simp [hi]
        · simp only [hi, if_false]
          exact hother idx hidx

/-- `sanity_check` returns with the state untouched or calls `exit(1)`. -/
theorem sanity_check_cases (comp : Int) (mod : module_t) (st : State) :
    sanity_check comp mod st = Outcome.returned st ∨
      ∃ stx, sanity_check comp mod st = Outcome.exited stx := by
  unfold sanity_check
  repeat' split
  all_goals first
    | exact Or.inl rfl
    | exact Or.inr ⟨_, rfl⟩

/-- One call of `find_module_instance` keeps every instance pointing to a library. -/
theorem find_module_instance_entries (k : Consts) (env : Env) (n : String) (st : State)
    (h : EntriesOk st) : EntriesOk (find_module_instance k env n st).2 := by
  obtain ⟨ext, hext⟩ := find_module_instance_libraries_grow k env n st
  have hold : ∀ inst ∈ st.module_instance_list,
      ((find_module_instance k env n st).2.module_list[inst.entry]?).isSome = true := by
    intro inst hi
    have := h inst hi
    cases hl : st.module_list[inst.entry]? with
    | none => simp [hl] at this
    | some lib => rw [hext, getElem?_append_of_some _ _ _ _ hl]; rfl
  cases hf : find_instance st.module_instance_list n with
  | some p =>
    have hr : find_module_instance k env n st = (some p, st) := by
      simp [find_module_instance, hf]
    rw [hr]
    exact h
  | none =>
    rcases find_module_instance_new_node k env n st hf with
      ⟨_, hsame⟩ | ⟨entry, lib, insthandle, hlib, _, hlist⟩
    · intro inst hi
      rw [hsame] at hi
      exact hold inst hi
    · intro inst hi
      rw [hlist, List.mem_append, List.mem_singleton] at hi
      rcases hi with hi | hi
      · exact hold inst hi
      · subst hi
        simp [hlib]

/-- A plain reference in a phase other than Authenticate: `load_reference` calls `exit(1)`
(the reference does not resolve or fails `sanity_check`), or it returns and the instance
found is at the end of the chain of selector 0, all other chains being as before. -/
theorem load_reference_default (k : Consts) (env : Env) (comp : Nat) (modref : CONF_ITEM)
    (st : State) (hcomp : comp ≠ RLM_COMPONENT_AUTH) (hwf : EntriesOk st) :
    (∃ stx, load_reference k env comp modref st = Outcome.exited stx) ∨
    (∃ this st2,
      (find_module_instance k env modref.name1 st).1 = some this ∧
      load_reference k env comp modref st = Outcome.returned st2 ∧
      st2.module_instance_list =
        (find_module_instance k env modref.name1 st).2.module_instance_list ∧
      st2.module_list = (find_module_instance k env modref.name1 st).2.module_list ∧
      (∀ c, c ≠ comp → st2.components c = st.components c) ∧
      chain_in (st2.components comp) 0 =
        some ((chain_in (st.components comp) 0).getD [] ++ [⟨this⟩]) ∧
      (∀ idx, idx ≠ 0 →
        chain_in (st2.components comp) idx = chain_in (st.components comp) idx)) := by
  have hent := find_module_instance_entries k env modref.name1 st hwf
  have hcomps := (find_module_instance_statics k env modref.name1 st).1
  cases hf : (find_module_instance k env modref.name1 st).1 with
  | none =>
    left
    exact ⟨(find_module_instance k env modref.name1 st).2, by
      unfold load_reference; simp only [hf]⟩
  | some this =>
    obtain ⟨inst0, hinst0, _⟩ := (find_module_instance_node k env modref.name1 st).2 this hf
    cases hinst : (find_module_instance k env modref.name1 st).2.module_instance_list[this]? with
    | none => simp [hinst] at hinst0
    | some inst =>
      have hmem : inst ∈ (find_module_instance k env modref.name1 st).2.module_instance_list :=
        List.getElem?_mem hinst
      have hsome := hent inst hmem
      cases hlib : (find_module_instance k env modref.name1 st).2.module_list[inst.entry]? with
      | none => simp [hlib] at hsome
      | some lib =>
        rcases sanity_check_cases comp lib.module
            (find_module_instance k env modref.name1 st).2 with hs | ⟨stx, hs⟩
        · right
          obtain ⟨q, hq, h0, hother⟩ := add_after_new_sublist
            ((find_module_instance k env modref.name1 st).2.components comp) ⟨this⟩
          have hsub := (new_sublist_in_zero_twice
            ((find_module_instance k env modref.name1 st).2.components comp)).2
          cases hr : (new_sublist_in
              ((find_module_instance k env modref.name1 st).2.components comp) 0).1 with
          | none => simp [hr] at hsub
          | some p =>
            refine ⟨this,
              ((find_module_instance k env modref.name1 st).2.setComponent comp
                (new_sublist_in
                  ((find_module_instance k env modref.name1 st).2.components comp) 0).2).setComponent
                comp
                (append_to_chain
                  (new_sublist_in
                    ((find_module_instance k env modref.name1 st).2.components comp) 0).2
                  q ⟨this⟩),
              rfl, ?_, rfl, rfl, ?_, ?_, ?_⟩
            · unfold load_reference
              simp only [hf, hinst, hlib, hs, hcomp, if_false, new_sublist, hr, add_to_list,
                setComponent_components_same, hq]
            · intro c hc
              simp [State.setComponent, hc, hcomps]
            · rw [setComponent_components_same, h0, hcomps]
            · intro idx hidx
              rw [setComponent_components_same, hother idx hidx, hcomps]
        · left
          exact ⟨stx, by unfold load_reference; simp only [hf, hinst, hlib, hs]⟩

/-- The loop of `load_component_section` over plain references of a phase other than
Authenticate, when it does not call `exit(1)`. -/
theorem load_component_section_default (k : Consts) (env : Env) (comp : Nat)
    (hcomp : comp ≠ RLM_COMPONENT_AUTH) (items : List CONF_ITEM) :
    ∀ st : State, EntriesOk st →
      (∀ item ∈ items, PlainReference comp item) →
      (load_component_section k env comp items st).isExited = false →
      ∃ st2 ps,
        load_component_section k env comp items st = Outcome.returned st2 ∧
        EntriesOk st2 ∧
        (∃ ext, st2.module_instance_list = st.module_instance_list ++ ext) ∧
        List.Forall₂ (fun item p =>
            (Fits item.name1 k.MAX_STRING_LEN →
              find_instance st2.module_instance_list item.name1 = some p) ∧
            ((st2.module_instance_list[p]?).map (fun i => i.name) = some item.name1 ∨
              (st2.module_instance_list[p]?).map (fun i => i.name) =
                some (strNcpy item.name1 k.MAX_STRING_LEN)))
          items ps ∧
        (chain_in (st2.components comp) 0).getD [] =
          (chain_in (st.components comp) 0).getD [] ++ ps.map (fun p => ⟨p⟩) ∧
        (items ≠ [] → (chain_in (st2.components comp) 0).isSome = true) ∧
        (∀ idx, idx ≠ 0 →
          chain_in (st2.components comp) idx = chain_in (st.components comp) idx) ∧
        (∀ c, c ≠ comp → st2.components c = st.components c) := by
  induction items with
  | nil =>
    intro st hwf _ _
    exact ⟨st, [], rfl, hwf, ⟨[], by simp⟩, List.Forall₂.nil, by simp,
      fun h => absurd rfl h, fun _ _ => rfl, fun _ _ => rfl⟩
  | cons modref next ih =>
    intro st hwf hplain hok
    have hstep : load_component_section k env comp (modref :: next) st =
        match load_reference k env comp modref st with
        | Outcome.returned st1 => load_component_section k env comp next st1
        | other => other := by
      have hp := hplain modref (List.mem_cons_self _ _)
      cases modref with
      | pair attr lineno => simp only [load_component_section]
      | sect n1 n2 l c =>
        have hne := hp n1 n2 l c rfl
        simp only [load_component_section, hne, if_false]
    rcases load_reference_default k env comp modref st hcomp hwf with
      ⟨stx, hx⟩ | ⟨this, st1, hf, hr, hlist, hlibs, hothers, h0, hidx⟩
    · rw [hstep, hx] at hok
      simp [Outcome.isExited] at hok
    · rw [hstep, hr] at hok ⊢
      simp only at hok ⊢
      have hent1 : EntriesOk st1 := by
        have := find_module_instance_entries k env modref.name1 st hwf
        intro inst hi
        rw [hlist] at hi
        rw [hlibs]
        exact this inst hi
      obtain ⟨⟨ext1, hext1⟩, hnode⟩ := find_module_instance_node k env modref.name1 st
      obtain ⟨st2, ps, hret, hent2, ⟨ext2, hext2⟩, hall, hchain, _, hidx2, hothers2⟩ :=
        ih st1 hent1 (fun item hi => hplain item (List.mem_cons_of_mem _ hi)) hok
      refine ⟨st2, this :: ps, hret, hent2, ⟨ext1 ++ ext2, ?_⟩, ?_, ?_, ?_, ?_, ?_⟩
      · rw [hext2, hlist, hext1, List.append_assoc]
      · refine List.Forall₂.cons ⟨?_, ?_⟩ hall
        · intro hfit
          rw [hext2, hlist]
          exact find_instance_append _ _ _ this
            ((find_module_instance_step k env modref.name1 st hfit).2.1 this hf)
        · obtain ⟨inst, hinst, hor⟩ := hnode this hf
          have hat : st2.module_instance_list[this]? = some inst := by
            rw [hext2, hlist]
            exact getElem?_append_of_some _ _ _ _ hinst
          rw [hat]
          rcases hor with hfound | ⟨_, _, hname⟩
          · left
            have := find_instance_name _ _ this hfound
            rw [hinst] at this
            exact this
          · right
            simp [hname]
      · rw [hchain, h0]
        simp
      · intro _
        cases hps : chain_in (st2.components comp) 0 with
        | some x => rfl
        | none =>
          rw [hps, h0] at hchain
          simp at hchain
      · intro idx hi
        rw [hidx2 idx hi, hidx idx hi]
      · intro c hc
        rw [hothers2 c hc, hothers c hc]

/-- C15: for every phase other than Authenticate and every section whose items are plain
references that all resolve and pass `sanity_check` (`load_component_section` does not call
`exit(1)`), `load_component_section` returns and leaves the chain of selector 0 of the phase
equal to its previous content (nothing, when there was no such chain) followed by the
instances of the references in the order of the section, an instance being the node the
registry holds under the name of the reference (the first node of that name, for a name
shorter than `MAX_STRING_LEN`; a node named by the name or by what fits of it in the name
buffer, for every name); the chains of the other selectors and the tables of the other
phases are as before. -/
theorem C15_default_chain_in_config_order (k : Consts) (env : Env) (comp : Nat)
    (items : List CONF_ITEM) (st : State)
    (hcomp : comp ≠ RLM_COMPONENT_AUTH)
    (hwf : EntriesOk st)
    (hplain : ∀ item ∈ items, PlainReference comp item)
    (hok : (load_component_section k env comp items st).isExited = false) :
    ∃ st2 ps,
      load_component_section k env comp items st = Outcome.returned st2 ∧
      List.Forall₂ (fun item p =>
          (Fits item.name1 k.MAX_STRING_LEN →
            find_instance st2.module_instance_list item.name1 = some p) ∧
          ((st2.module_instance_list[p]?).map (fun i => i.name) = some item.name1 ∨
            (st2.module_instance_list[p]?).map (fun i => i.name) =
              some (strNcpy item.name1 k.MAX_STRING_LEN)))
        items ps ∧
      (chain_of st2 comp 0).getD [] =
        (chain_of st comp 0).getD [] ++ ps.map (fun p => ⟨p⟩) ∧
      (items ≠ [] → (chain_of st2 comp 0).isSome = true) ∧
      (∀ idx, idx ≠ 0 → chain_of st2 comp idx = chain_of st comp idx) ∧
      (∀ c, c ≠ comp → st2.components c = st.components c) := by
  obtain ⟨st2, ps, hret, _, _, hall, hchain, hsome, hidx, hothers⟩ :=
    load_component_section_default k env comp hcomp items st hwf hplain hok
  exact ⟨st2, ps, hret, hall, hchain, hsome, hidx, hothers⟩

/-- C15 on an `authorize` section that lists b2, a, b2, from the initial state: the chain of
selector 0 is the instance of b2, that of a, that of b2 again. -/
theorem C15_default_chain_in_config_order_witness :
    (load_component_section demoConsts demoEnv RLM_COMPONENT_AUTZ
        [CONF_ITEM.pair "b2" 21, CONF_ITEM.pair "a" 22, CONF_ITEM.pair "b2" 23]
        (State.initial [] { cells := [] })).state.table RLM_COMPONENT_AUTZ =
      [(0, [0, 1, 0])] ∧
    ∃ st2 ps,
      load_component_section demoConsts demoEnv RLM_COMPONENT_AUTZ
        [CONF_ITEM.pair "b2" 21, CONF_ITEM.pair "a" 22, CONF_ITEM.pair "b2" 23]
        (State.initial [] { cells := [] }) = Outcome.returned st2 ∧
      List.Forall₂ (fun item p =>
          (Fits item.name1 demoConsts.MAX_STRING_LEN →
            find_instance st2.module_instance_list item.name1 = some p) ∧
          ((st2.module_instance_list[p]?).map (fun i => i.name) = some item.name1 ∨
            (st2.module_instance_list[p]?).map (fun i => i.name) =
              some (strNcpy item.name1 demoConsts.MAX_STRING_LEN)))
        [CONF_ITEM.pair "b2" 21, CONF_ITEM.pair "a" 22, CONF_ITEM.pair "b2" 23] ps ∧
      (chain_of st2 RLM_COMPONENT_AUTZ 0).getD [] =
        (chain_of (State.initial [] { cells := [] }) RLM_COMPONENT_AUTZ 0).getD [] ++
          ps.map (fun p => ⟨p⟩) :=
  ⟨by decide, by
    obtain ⟨st2, ps, h1, h2, h3, _⟩ := C15_default_chain_in_config_order demoConsts demoEnv
      RLM_COMPONENT_AUTZ
      [CONF_ITEM.pair "b2" 21, CONF_ITEM.pair "a" 22, CONF_ITEM.pair "b2" 23]
      (State.initial [] { cells := [] }) (by decide)
      (fun inst hi => by simp [State.initial] at hi)
      (fun item hi n1 n2 l c h => by
        simp only [List.mem_cons, List.mem_singleton, List.not_mem_nil, or_false] at hi
        rcases hi with rfl | rfl | rfl <;> cases h)
      (by decide)
    exact ⟨st2, ps, h1, h2, h3⟩⟩

/-! ## Claim on the lock around a handler call -/

theorem locked_calls_congr (st st2 : State) (comp : Nat) (calls : List (Nat × Int))
    (h : st2.module_instance_list = st.module_instance_list) :
    locked_calls st2 comp calls = locked_calls st comp calls := by
  induction calls with
  | nil => rfl
  | cons c rest ih => simp only [locked_calls, has_mutex, h, ih]

theorem locked_calls_append (st : State) (comp : Nat) (a b : List (Nat × Int)) :
    locked_calls st comp (a ++ b) = locked_calls st comp a ++ locked_calls st comp b := by
  induction a with
  | nil => rfl
  | cons c rest ih =>
    rw [List.cons_append]
    simp only [locked_calls]
    rw [ih, List.append_assoc]

/-- One turn of an executor loop adds the events of one call, and leaves the registries. -/
theorem invoke_trace (sel : module_t → Option Handler) (comp : Nat) (h : config_module_t)
    (request : REQUEST) (st : State) (out : Int × REQUEST × State)
    (hin : invoke sel comp h request st = some out) :
    out.2.2.trace = st.trace ++ locked_calls st comp [(h.instance, out.1)] ∧
    out.2.2.module_instance_list = st.module_instance_list := by
  unfold invoke at hin
  cases hi : st.module_instance_list[h.instance]? with
  | none => simp [hi] at hin
  | some inst =>
    simp only [hi] at hin
    cases hl : st.module_list[inst.entry]? with
    | none => simp [hl] at hin
    | some entry =>
      simp only [hl] at hin
      cases hs : sel entry.module with
      | none => simp [hs] at hin
      | some f =>
        simp only [hs, Option.some.injEq] at hin
        subst hin
        by_cases hm : inst.mutex = true
        · simp [safe_lock, safe_unlock, State.emit, locked_calls, has_mutex, hi, hm]
        · simp [safe_lock, safe_unlock, State.emit, locked_calls, has_mutex, hi, hm]

/-- An executor loop adds the events of a sequence of calls, each with its lock when the
instance has one, and nothing else. -/
theorem walk_trace (sel : module_t → Option Handler) (comp : Nat) (cont : Int)
    (chain : List config_module_t) :
    ∀ (rcode : Int) (request : REQUEST) (st : State) (out : Int × REQUEST × State),
      walk sel comp cont chain rcode request st = some out →
      ∃ calls, out.2.2.trace = st.trace ++ locked_calls st comp calls ∧
        out.2.2.module_instance_list = st.module_instance_list := by
  induction chain with
  | nil =>
    intro rcode request st out h
    simp only [walk, Option.some.injEq] at h
    subst h
    exact ⟨[], by simp [locked_calls], rfl⟩
  | cons this next ih =>
    intro rcode request st out h
    by_cases hc : rcode = cont
    · simp only [walk, hc, if_true] at h
      cases hi : invoke sel comp this request st with
      | none => simp [hi] at h
      | some o1 =>
        simp only [hi] at h
        obtain ⟨ht1, hr1⟩ := invoke_trace sel comp this request st o1 hi
        obtain ⟨calls, ht2, hr2⟩ := ih o1.1 o1.2.1 o1.2.2 out h
        refine ⟨(this.instance, o1.1) :: calls, ?_, hr2.trans hr1⟩
        rw [ht2, ht1, locked_calls_congr st o1.2.2 comp calls hr1, List.append_assoc,
          ← locked_calls_append]
        rfl
    · simp only [walk, hc, if_false, Option.some.injEq] at h
      subst h
      exact ⟨[], by simp [locked_calls], rfl⟩

theorem locks_held_append (a b : List Event) :
    ∀ held, locks_held (a ++ b) held = locks_held b (locks_held a held) := by
  induction a with
  | nil => intro held; rfl
  | cons e t ih =>
    intro held
    rw [List.cons_append]
    cases e <;> simp only [locks_held] <;> exact ih _

/-- After the events of a sequence of calls the mutexes held are those held before. -/
theorem locks_held_locked_calls (st : State) (comp : Nat) (calls : List (Nat × Int)) :
    ∀ held, locks_held (locked_calls st comp calls) held = held := by
  induction calls with
  | nil => intro held; rfl
  | cons c rest ih =>
    intro held
    simp only [locked_calls, locks_held_append, ih]
    by_cases hm : has_mutex st c.1 = true
    · simp [hm, locks_held]
    · simp [hm, locks_held]

/-- C17: the events an executor call (authorize, authenticate, preacct, accounting,
checksimul) adds to the trace are those of a sequence of handler calls in which every call on
an instance with a mutex is the lock of that instance, the call, the unlock of that instance,
and every call on an instance without mutex is the call alone; hence no mutex is held after
any number of these calls, in particular none between two calls or when the executor
returns. -/
theorem C17_lock_spans_one_call (k : Consts) (request : REQUEST) (st : State) :
    (∀ out, module_authorize k request st = some out →
      ∃ calls, out.2.2.trace = st.trace ++ locked_calls st RLM_COMPONENT_AUTZ calls) ∧
    (∀ auth_type out, module_authenticate k auth_type request st = some out →
      ∃ calls, out.2.2.trace = st.trace ++ locked_calls st RLM_COMPONENT_AUTH calls) ∧
    (∀ out, module_preacct k request st = some out →
      ∃ calls, out.2.2.trace = st.trace ++ locked_calls st RLM_COMPONENT_PREACCT calls) ∧
    (∀ out, module_accounting k request st = some out →
      ∃ calls, out.2.2.trace = st.trace ++ locked_calls st RLM_COMPONENT_ACCT calls) ∧
    (∀ maxsimul out, module_checksimul k request maxsimul st = some out →
      ∃ calls, out.2.2.trace = st.trace ++ locked_calls st RLM_COMPONENT_SESS calls) ∧
    (∀ (comp : Nat) (calls : List (Nat × Int)) (n : Nat),
      locks_held (locked_calls st comp (calls.take n)) [] = []) := by
  refine ⟨?_, ?_, ?_, ?_, ?_, ?_⟩
  · intro out h
    unfold module_authorize at h
    cases hc : chain_of st RLM_COMPONENT_AUTZ 0 with
    | none => simp [hc] at h
    | some chain =>
      simp only [hc] at h
      obtain ⟨calls, ht, _⟩ := walk_trace _ _ _ chain _ _ _ out h
      exact ⟨calls, ht⟩
  · intro auth_type out h
    unfold module_authenticate at h
    cases hc : chain_of st RLM_COMPONENT_AUTH auth_type with
    | none => simp [hc] at h
    | some chain =>
      simp only [hc] at h
      obtain ⟨calls, ht, _⟩ := walk_trace _ _ _ chain _ _ _ out h
      exact ⟨calls, ht⟩
  · intro out h
    unfold module_preacct at h
    cases hc : chain_of st RLM_COMPONENT_PREACCT 0 with
    | none => simp [hc] at h
    | some chain =>
      simp only [hc] at h
      obtain ⟨calls, ht, _⟩ := walk_trace _ _ _ chain _ _ _ out h
      exact ⟨calls, ht⟩
  · intro out h
    unfold module_accounting at h
    cases hc : chain_of st RLM_COMPONENT_ACCT 0 with
    | none => simp [hc] at h
    | some chain =>
      simp only [hc] at h
      obtain ⟨calls, ht, _⟩ := walk_trace _ _ _ chain _ _ _ out h
      exact ⟨calls, ht⟩
  · intro maxsimul out h
    unfold module_checksimul at h
    split at h
    · simp only [Option.some.injEq] at h
      subst h
      exact ⟨[], by simp [locked_calls]⟩
    · split at h
      · simp only [Option.some.injEq] at h
        subst h
        exact ⟨[], by simp [locked_calls]⟩
      · simp only at h
        cases hc : chain_of st RLM_COMPONENT_SESS 0 with
        | none => simp [hc] at h
        | some chain =>
          simp only [hc] at h
          cases hw : walk (fun m => m.checksimul) RLM_COMPONENT_SESS k.RLM_MODULE_FAIL chain
              k.RLM_MODULE_FAIL
              { request with simul_count := 0, simul_max := maxsimul, simul_mpp := 1 }
              st with
          | none => simp [hw] at h
          | some o =>
            simp only [hw] at h
            obtain ⟨calls, ht, _⟩ := walk_trace _ _ _ chain _ _ _ o hw
            split at h
            · simp only [Option.some.injEq] at h
              subst h
              exact ⟨calls, ht⟩
            · simp only [Option.some.injEq] at h
              subst h
              exact ⟨calls, ht⟩
  · intro comp calls n
    exact locks_held_locked_calls st comp _ []

/-- C17 on the authorize chain a, b, c of the demo state, b being the one instance with a
mutex: the call of a is bare, the call of b is between the lock and the unlock of b, c is
not called. -/
theorem C17_lock_spans_one_call_witness :
    (module_authorize demoConsts demoRequest demoState).map (fun o => o.2.2.trace) =
      some [Event.handler RLM_COMPONENT_AUTZ 0 2, Event.mutex_lock 1,
        Event.handler RLM_COMPONENT_AUTZ 1 0, Event.mutex_unlock 1] ∧
    ∃ calls,
      (resultOr (0, demoRequest, demoState)
        (module_authorize demoConsts demoRequest demoState)).2.2.trace =
        demoState.trace ++ locked_calls demoState RLM_COMPONENT_AUTZ calls :=
  ⟨by decide,
    (C17_lock_spans_one_call demoConsts demoRequest demoState).1
      (resultOr (0, demoRequest, demoState)
        (module_authorize demoConsts demoRequest demoState)) rfl⟩

/-! ## Claim on the configuration block of an instance -/

/-- The loop over the blocks of `modules` finds nothing exactly when no block meets the
condition on its labels. -/
theorem find_instance_section_eq_none_iff (l : List CONF_ITEM) (instname : String) :
    find_instance_section l instname = none ↔ ∀ b ∈ l, ¬ MatchesInstance instname b := by
  induction l with
  | nil => simp [find_instance_section]
  | cons a t ih =>
    cases a with
    | pair attr lineno =>
      simp [find_instance_section, ih, MatchesInstance]
    | sect n1 n2 ln c =>
      by_cases h : n2 = some instname ∨ (n2 = none ∧ n1 = instname)
      · simp [find_instance_section, h, MatchesInstance]
      · simp only [find_instance_section, h, if_false, ih, List.mem_cons, forall_eq_or_imp,
          MatchesInstance, not_false_eq_true, true_and]

theorem config_errors_append (n : String) (a b : List Event) :
    config_errors n (a ++ b) = config_errors n a + config_errors n b := by
  simp [config_errors, List.countP_append]

/-- A call of `linkto_module` logs no "Cannot find a configuration entry". -/
theorem linkto_module_config_errors (k : Consts) (env : Env) (name : String) (st : State) (n : String) :
    config_errors n (linkto_module k env name st).2.trace = config_errors n st.trace := by
  unfold linkto_module
  split
  · rfl
  · simp only
    split
    · simp [State.emit, config_errors, List.countP_append]
    · split
      · simp [State.emit, linkto_module_fail, config_errors, List.countP_append]
      · split
        · simp [State.emit, config_errors, List.countP_append]
        · split
          · simp [State.emit, linkto_module_fail, config_errors, List.countP_append]
          · simp [State.emit, config_errors, List.countP_append]

theorem register_instance_config_errors (k : Consts) (instname : String) (entry : Nat)
    (lib : module_list_t) (insthandle : Nat) (st : State) (n : String) :
    config_errors n (register_instance k instname entry lib insthandle st).2.trace =
      config_errors n st.trace := by
  by_cases hu : lib.module.type &&& k.RLM_TYPE_THREAD_UNSAFE = 0 <;>
    simp [register_instance, hu, State.emit, config_errors, List.countP_append]

/-- Once the block of an instance is found, `find_module_instance` logs no "Cannot find a
configuration entry". -/
theorem find_module_instance_found_config_errors (k : Consts) (env : Env) (n : String)
    (st : State) (cs inst_cs : CONF_ITEM)
    (hcs : cf_section_find env.config "modules" = some cs)
    (hsec : find_instance_section cs.items n = some inst_cs) (m : String) :
    config_errors m (find_module_instance k env n st).2.trace = config_errors m st.trace := by
  unfold find_module_instance
  cases hf : find_instance st.module_instance_list n with
  | some p => rfl
  | none =>
    simp only [hcs, hsec]
    have hlk := linkto_module_config_errors k env (rlm_module_name inst_cs.name1) st m
    cases hl : (linkto_module k env (rlm_module_name inst_cs.name1) st).1 with
    | none => exact hlk
    | some entry =>
      simp only
      cases hlib : (linkto_module k env (rlm_module_name inst_cs.name1) st).2.module_list[entry]? with
      | none => exact hlk
      | some lib =>
        simp only
        cases hhook : lib.module.instantiate with
        | none =>
          simp only
          rw [register_instance_config_errors, hlk]
        | some hook =>
          simp only
          split
          · simp only [State.emit, config_errors_append, hlk]
            simp [config_errors]
          · rw [register_instance_config_errors]
            simp only [State.emit, config_errors_append, hlk]
            simp [config_errors]

/-- C19, as stated, fails: with the one block `b b2` in `modules`, the lookup of "b" fails
with "Cannot find a configuration entry" although the first label of the block is "b". -/
theorem C19_counterexample :
    ((cf_section_find demoEnvAlias.config "modules").map
        (fun cs => cs.items.map (fun b => (b.name1, b.name2)))) =
      some [("b", some "b2")] ∧
    (find_module_instance demoConsts demoEnvAlias "b"
        (State.initial [] { cells := [] })).1 = none ∧
    (find_module_instance demoConsts demoEnvAlias "b"
        (State.initial [] { cells := [] })).2.trace =
      [Event.radlog (LogMsg.no_configuration_entry "b")] := by
  decide

/-- C19, amended: for every instance name that is not in the registry, with a `modules`
section in the configuration, `find_module_instance` fails with "Cannot find a configuration
entry" if and only if no block of `modules` either has the instance name as its second
label or has no second label and the instance name as its first label; a block with a
second label is matched on the second label only. -/
theorem C19_config_entry_by_name2_else_name1 (k : Consts) (env : Env) (instname : String)
    (st : State) (cs : CONF_ITEM)
    (hreg : find_instance st.module_instance_list instname = none)
    (hcs : cf_section_find env.config "modules" = some cs) :
    (config_errors instname (find_module_instance k env instname st).2.trace =
        config_errors instname st.trace + 1 ↔
      ∀ b ∈ cs.items, ¬ MatchesInstance instname b) ∧
    ((∀ b ∈ cs.items, ¬ MatchesInstance instname b) →
      find_module_instance k env instname st =
        (none, st.emit (Event.radlog (LogMsg.no_configuration_entry instname)))) := by
  have hfail : (∀ b ∈ cs.items, ¬ MatchesInstance instname b) →
      find_module_instance k env instname st =
        (none, st.emit (Event.radlog (LogMsg.no_configuration_entry instname))) := by
    intro hno
    have hnone := (find_instance_section_eq_none_iff cs.items instname).mpr hno
    unfold find_module_instance
    simp only [hreg, hcs, hnone]
  refine ⟨⟨?_, ?_⟩, hfail⟩
  · intro hcount
    cases hsec : find_instance_section cs.items instname with
    | none => exact (find_instance_section_eq_none_iff cs.items instname).mp hsec
    | some inst_cs =>
      have := find_module_instance_found_config_errors k env instname st cs inst_cs hcs hsec
        instname
      omega
  · intro hno
    rw [hfail hno]
    simp [State.emit, config_errors, List.countP_append]

/-- C19 amended, on the block `b b2`: "b" is not found, "b2" is. -/
theorem C19_config_entry_by_name2_else_name1_witness :
    find_module_instance demoConsts demoEnvAlias "b" (State.initial [] { cells := [] }) =
      (none, (State.initial [] { cells := [] }).emit
        (Event.radlog (LogMsg.no_configuration_entry "b"))) ∧
    (find_module_instance demoConsts demoEnvAlias "b2"
        (State.initial [] { cells := [] })).1 = some 0 :=
  ⟨(C19_config_entry_by_name2_else_name1 demoConsts demoEnvAlias "b"
      (State.initial [] { cells := [] })
      (CONF_ITEM.sect "modules" none 1 [CONF_ITEM.sect "b" (some "b2") 3 []]) rfl rfl).2
      (fun b hb => by
        simp only [CONF_ITEM.items, List.mem_singleton] at hb
        subst hb
        simp [MatchesInstance]),
    by decide⟩

/-! ## Claim on the failure of `new_authtype_value` -/

/-- `new_sublist` always grants index 0. -/
theorem new_sublist_zero_isSome (comp : Nat) (st : State) :
    (new_sublist comp 0 st).1.isSome = true := by
  simp only [new_sublist]
  exact (new_sublist_in_zero_twice (st.components comp)).2

/-- C20, as stated, fails: with no base Auth-Type value in the dictionary (here the empty
dictionary) `new_authtype_value` returns 0 for the new name "PAP", and `setup_modules` does
not end: it returns, having used the 0 as the selector of the block `authtype PAP`, whose
reference a is in the chain of selector 0. -/
theorem C20_counterexample :
    (new_authtype_value demoConsts "PAP" (State.initial [] { cells := [] })).1 = 0 ∧
    (setup_modules demoConsts demoEnvAuthtype
        (State.initial [] { cells := [] })).isExited = false ∧
    (setup_modules demoConsts demoEnvAuthtype
        (State.initial [] { cells := [] })).isReturned = true ∧
    (setup_modules demoConsts demoEnvAuthtype
        (State.initial [] { cells := [] })).state.table RLM_COMPONENT_AUTH = [(0, [0])] := by
  decide

/-- C20, amended: `new_authtype_value` takes its failure return exactly when the name is not
in the dictionary and the base Auth-Type value is missing: it then returns 0 and changes
nothing, and the failure is not fatal, `load_subcomponent_section` goes on with 0 as the
selector of the block; in every other case it returns a value: the value of the name when
the name is in the dictionary, else the counter `max_value`, under which what fits of the
name in the name buffer is in the dictionary afterwards (the name itself, when it is shorter
than the buffer). -/
theorem C20_new_authtype_value_failure_returns_zero (k : Consts) (name : String)
    (st : State) :
    (dict_valbyname st.dictionary_values name = none →
      dict_valbyattr st.dictionary_values k.PW_AUTHTYPE 0 = none →
      new_authtype_value k name st = (0, st) ∧
      ∀ (env : Env) (cs : CONF_ITEM), cs.name2 = some name →
        load_subcomponent_section k env cs RLM_COMPONENT_AUTH st =
          load_subcomponent_items k env RLM_COMPONENT_AUTH 0 cs.items
            (new_sublist RLM_COMPONENT_AUTH 0 st).2) ∧
    (∀ v, dict_valbyname st.dictionary_values name = some v →
      new_authtype_value k name st = (v.value, st)) ∧
    (dict_valbyname st.dictionary_values name = none →
      (dict_valbyattr st.dictionary_values k.PW_AUTHTYPE 0).isSome = true →
      (new_authtype_value k name st).1 = st.max_value ∧
      (∃ v ∈ (new_authtype_value k name st).2.dictionary_values,
        v.name = strNcpy name k.DICT_VALUE_NAME_SIZE ∧ v.value = st.max_value) ∧
      (Fits name k.DICT_VALUE_NAME_SIZE →
        (dict_valbyname (new_authtype_value k name st).2.dictionary_values name).map
          (fun v => v.value) = some st.max_value)) := by
  refine ⟨?_, ?_, ?_⟩
  · intro hn hb
    have h0 : new_authtype_value k name st = (0, st) := by
      simp [new_authtype_value, hn, hb]
    refine ⟨h0, ?_⟩
    intro env cs hname
    have hsome := new_sublist_zero_isSome RLM_COMPONENT_AUTH st
    unfold load_subcomponent_section
    simp only [if_true, hname, h0]
    cases hs : (new_sublist RLM_COMPONENT_AUTH 0 st).1 with
    | none => simp [hs] at hsome
    | some p => rfl
  · intro v hv
    exact new_authtype_value_of_known k name st v hv
  · intro hn hb
    cases hbase : dict_valbyattr st.dictionary_values k.PW_AUTHTYPE 0 with
    | none => simp [hbase] at hb
    | some r =>
      obtain ⟨p, old⟩ := r
      have h1 : new_authtype_value k name st =
          (st.max_value,
            { st with
              dictionary_values := link_after st.dictionary_values p
                { old with name := strNcpy name k.DICT_VALUE_NAME_SIZE,
                           value := st.max_value },
              max_value := wrap_int (st.max_value + 1) }) := by
        simp [new_authtype_value, hn, hbase]
      rw [h1]
      refine ⟨rfl, ⟨_, List.mem_append_right _ (List.mem_cons_self _ _), rfl, rfl⟩, ?_⟩
      intro hfit
      have hfound := dict_valbyname_link_after st.dictionary_values p
        { old with name := strNcpy name k.DICT_VALUE_NAME_SIZE, value := st.max_value }
        name hn
      simp only [strNcpy_of_fits name k.DICT_VALUE_NAME_SIZE hfit, if_true] at hfound
      simp [strNcpy_of_fits name k.DICT_VALUE_NAME_SIZE hfit, hfound]

/-- C20 amended, on the empty dictionary: "PAP" gets 0 and nothing changes; with the base
value in the dictionary "PAP" gets 32767. -/
theorem C20_new_authtype_value_failure_returns_zero_witness :
    new_authtype_value demoConsts "PAP" (State.initial [] { cells := [] }) =
      (0, State.initial [] { cells := [] }) ∧
    (new_authtype_value demoConsts "PAP" demoState).1 = demoState.max_value :=
  ⟨((C20_new_authtype_value_failure_returns_zero demoConsts "PAP"
      (State.initial [] { cells := [] })).1 rfl rfl).1,
    ((C20_new_authtype_value_failure_returns_zero demoConsts "PAP" demoState).2.2
      (by decide) (by decide)).1⟩

/-! ## Claim on the reload -/

theorem TraceGrowsBy.of_append {P : Event → Bool} {st st2 : State} (evs : List Event)
    (h : st2.trace = st.trace ++ evs) (hall : ∀ e ∈ evs, P e = true) :
    TraceGrowsBy P st st2 := by
  have : events_since st st2 = evs := by simp [events_since, h]
  exact ⟨by rw [this]; exact h, by rw [this]; exact hall⟩

theorem TraceGrowsBy.refl (P : Event → Bool) (st : State) : TraceGrowsBy P st st :=
  TraceGrowsBy.of_append [] (by simp) (by simp)

theorem TraceGrowsBy.of_trace_eq {P : Event → Bool} {st st2 : State}
    (h : st2.trace = st.trace) : TraceGrowsBy P st st2 :=
  TraceGrowsBy.of_append [] (by simp [h]) (by simp)

theorem TraceGrowsBy.trans {P : Event → Bool} {a b c : State}
    (h1 : TraceGrowsBy P a b) (h2 : TraceGrowsBy P b c) : TraceGrowsBy P a c := by
  refine TraceGrowsBy.of_append (events_since a b ++ events_since b c) ?_ ?_
  · rw [← List.append_assoc, ← h1.1]
    exact h2.1
  · intro e he
    rcases List.mem_append.mp he with he | he
    · exact h1.2 e he
    · exact h2.2 e he

theorem TraceGrowsBy.emit {P : Event → Bool} {a b : State} (h : TraceGrowsBy P a b)
    (e : Event) (he : P e = true) : TraceGrowsBy P a (b.emit e) :=
  h.trans (TraceGrowsBy.of_append [e] rfl (by simp [he]))

/-- A call of `linkto_module` calls no `detach` hook. -/
theorem linkto_module_no_detach (k : Consts) (env : Env) (name : String) (st : State) :
    TraceGrowsBy (fun e => !e.isDetach) st (linkto_module k env name st).2 := by
  unfold linkto_module
  split
  · exact TraceGrowsBy.refl _ _
  · simp only
    split
    · simp [TraceGrowsBy, events_since, State.emit, Event.isDetach]
    · split
      · simp [TraceGrowsBy, events_since, State.emit, linkto_module_fail, Event.isDetach]
      · split
        · simp [TraceGrowsBy, events_since, State.emit, Event.isDetach]
        · split
          · simp [TraceGrowsBy, events_since, State.emit, linkto_module_fail, Event.isDetach]
          · simp [TraceGrowsBy, events_since, State.emit, Event.isDetach]

theorem register_instance_no_detach (k : Consts) (instname : String) (entry : Nat)
    (lib : module_list_t) (insthandle : Nat) (st : State) :
    TraceGrowsBy (fun e => !e.isDetach) st
      (register_instance k instname entry lib insthandle st).2 := by
  by_cases hu : lib.module.type &&& k.RLM_TYPE_THREAD_UNSAFE = 0 <;>
    simp [TraceGrowsBy, events_since, register_instance, hu, State.emit, Event.isDetach]

/-- A call of `find_module_instance` calls no `detach` hook. -/
theorem find_module_instance_no_detach (k : Consts) (env : Env) (n : String) (st : State) :
    TraceGrowsBy (fun e => !e.isDetach) st (find_module_instance k env n st).2 := by
  unfold find_module_instance
  cases hf : find_instance st.module_instance_list n with
  | some p => exact TraceGrowsBy.refl _ _
  | none =>
    simp only
    cases hcs : cf_section_find env.config "modules" with
    | none => exact (TraceGrowsBy.refl _ st).emit _ rfl
    | some cs =>
      simp only
      cases hsec : find_instance_section cs.items n with
      | none => exact (TraceGrowsBy.refl _ st).emit _ rfl
      | some inst_cs =>
        simp only
        have hlk := linkto_module_no_detach k env (rlm_module_name inst_cs.name1) st
        cases hl : (linkto_module k env (rlm_module_name inst_cs.name1) st).1 with
        | none => exact hlk
        | some entry =>
          simp only
          cases hlib : (linkto_module k env (rlm_module_name inst_cs.name1) st).2.module_list[entry]? with
          | none => exact hlk
          | some lib =>
            simp only
            cases hhook : lib.module.instantiate with
            | none => exact hlk.trans (register_instance_no_detach k n entry lib 0 _)
            | some hook =>
              simp only
              have hinst : TraceGrowsBy (fun e => !e.isDetach) st
                  ({ (linkto_module k env (rlm_module_name inst_cs.name1) st).2 with
                      world := (hook inst_cs 0
                        (linkto_module k env (rlm_module_name inst_cs.name1) st).2.world).2.2 }.emit
                    (Event.instantiate n (hook inst_cs 0
                      (linkto_module k env (rlm_module_name inst_cs.name1) st).2.world).1)) :=
                hlk.trans (TraceGrowsBy.of_append [_] rfl (by simp [Event.isDetach]))
              split
              · exact hinst.emit _ rfl
              · exact hinst.trans (register_instance_no_detach k n entry lib _ _)

theorem sanity_check_no_detach (comp : Int) (mod : module_t) (st : State) :
    TraceGrowsBy (fun e => !e.isDetach) st (sanity_check comp mod st).state := by
  unfold sanity_check
  repeat' split
  all_goals first
    | exact TraceGrowsBy.refl _ _
    | exact (TraceGrowsBy.refl _ st).emit _ rfl

theorem add_to_list_trace (comp : Nat) (inst : Nat) (idx : Int) (st : State) :
    (add_to_list comp inst idx st).state.trace = st.trace := by
  unfold add_to_list
  split <;> rfl

theorem new_sublist_trace (comp : Nat) (idx : Int) (st : State) :
    (new_sublist comp idx st).2.trace = st.trace := rfl

/-- The handling of a plain reference calls no `detach` hook. -/
theorem load_reference_no_detach (k : Consts) (env : Env) (comp : Nat) (modref : CONF_ITEM)
    (st : State) :
    TraceGrowsBy (fun e => !e.isDetach) st (load_reference k env comp modref st).state := by
  have hfind := find_module_instance_no_detach k env modref.name1 st
  unfold load_reference
  simp only
  split
  · exact hfind
  · split
    · exact hfind
    · split
      · exact hfind
      · rename_i lib _
        have hs := sanity_check_no_detach comp lib.module
          (find_module_instance k env modref.name1 st).2
        split
        · rename_i st1 hst1
          rw [hst1] at hs
          simp only [Outcome.state] at hs
          have h1 := hfind.trans hs
          split
          · refine (h1.trans (TraceGrowsBy.of_trace_eq ?_)).emit _ rfl
            split <;> simp [new_sublist, State.setComponent, (new_authtype_value_frame _ _ _).2.2.2.2.2]
          · refine h1.trans (TraceGrowsBy.of_trace_eq ?_)
            rw [add_to_list_trace]
            split <;> simp [new_sublist, State.setComponent, (new_authtype_value_frame _ _ _).2.2.2.2.2]
        · exact hfind.trans hs

/-- The loop over the items of a sub-phase block calls no `detach` hook. -/
theorem load_subcomponent_items_no_detach (k : Consts) (env : Env) (comp : Nat) (idx : Int)
    (items : List CONF_ITEM) :
    ∀ st : State, TraceGrowsBy (fun e => !e.isDetach) st
      (load_subcomponent_items k env comp idx items st).state := by
  induction items with
  | nil => intro st; exact TraceGrowsBy.refl _ _
  | cons modref next ih =>
    intro st
    have hfind := find_module_instance_no_detach k env modref.name1 st
    unfold load_subcomponent_items
    simp only
    split
    · exact hfind
    · rename_i this _
      split
      · exact hfind
      · split
        · exact hfind
        · rename_i lib _
          have hs := sanity_check_no_detach comp lib.module
            (find_module_instance k env modref.name1 st).2
          split
          · rename_i st1 hst1
            rw [hst1] at hs
            simp only [Outcome.state] at hs
            have hadd := add_to_list_trace comp this idx st1
            split
            · rename_i st2 hst2
              rw [hst2] at hadd
              exact (hfind.trans hs).trans
                ((TraceGrowsBy.of_trace_eq hadd).trans (ih st2))
            · exact (hfind.trans hs).trans (TraceGrowsBy.of_trace_eq hadd)
          · exact hfind.trans hs

/-- `load_subcomponent_section` calls no `detach` hook. -/
theorem load_subcomponent_section_no_detach (k : Consts) (env : Env) (cs : CONF_ITEM)
    (comp : Nat) (st : State) :
    TraceGrowsBy (fun e => !e.isDetach) st
      (load_subcomponent_section k env cs comp st).state := by
  unfold load_subcomponent_section
  simp only
  split
  · exact TraceGrowsBy.refl _ _
  · rename_i idx st1 hpick
    have h1 : st1.trace = st.trace := by
      split at hpick
      · split at hpick
        · exact absurd hpick (by simp)
        · rename_i name2 _
          simp only [Option.some.injEq] at hpick
          have := (new_authtype_value_frame k name2 st).2.2.2.2.2
          rw [hpick] at this
          exact this
      · simp only [Option.some.injEq, Prod.mk.injEq] at hpick
        rw [← hpick.2]
    split
    · exact (TraceGrowsBy.of_trace_eq (by simp [new_sublist, State.setComponent, h1])).emit _ rfl
    · exact (TraceGrowsBy.of_trace_eq (by simp [new_sublist, State.setComponent, h1])).trans
        (load_subcomponent_items_no_detach k env comp idx cs.items _)

/-- `load_component_section` calls no `detach` hook. -/
theorem load_component_section_no_detach (k : Consts) (env : Env) (comp : Nat)
    (items : List CONF_ITEM) :
    ∀ st : State, TraceGrowsBy (fun e => !e.isDetach) st
      (load_component_section k env comp items st).state := by
  induction items with
  | nil => intro st; exact TraceGrowsBy.refl _ _
  | cons modref next ih =>
    intro st
    have hstep : ∀ o : Outcome, TraceGrowsBy (fun e => !e.isDetach) st o.state →
        TraceGrowsBy (fun e => !e.isDetach) st
          (match o with
            | Outcome.returned st1 => load_component_section k env comp next st1
            | other => other).state := by
      intro o ho
      cases o with
      | returned st1 => exact ho.trans (ih st1)
      | exited st1 => exact ho
      | crashed st1 => exact ho
    cases modref with
    | pair attr lineno =>
      simp only [load_component_section]
      exact hstep _ (load_reference_no_detach k env comp _ st)
    | sect n1 n2 l c =>
      simp only [load_component_section]
      apply hstep
      split
      · exact load_subcomponent_section_no_detach k env _ comp st
      · exact load_reference_no_detach k env comp _ st

/-- The building of the chains calls no `detach` hook. -/
theorem setup_components_no_detach (k : Consts) (env : Env) (comps : List Nat) :
    ∀ st : State, TraceGrowsBy (fun e => !e.isDetach) st
      (setup_components k env comps st).state := by
  induction comps with
  | nil => intro st; exact TraceGrowsBy.refl _ _
  | cons comp rest ih =>
    intro st
    unfold setup_components
    split
    · exact TraceGrowsBy.refl _ _
    · split
      · exact ih st
      · rename_i cs _
        have h := load_component_section_no_detach k env comp cs.items st
        split
        · rename_i st1 hst1
          rw [hst1] at h
          exact h.trans (ih st1)
        · exact h

theorem detach_calls_append (a b : List Event) :
    detach_calls (a ++ b) = detach_calls a ++ detach_calls b := by
  simp [detach_calls, List.filterMap_append]

/-- `instance_list_free` on instances that point to libraries: it returns, the registry is
empty, the `detach` calls made are those due, in the order of the list, and no `instantiate`
hook is called. -/
theorem instance_list_free_spec (l : List module_instance_t) :
    ∀ st : State, (∀ c ∈ l, (st.module_list[c.entry]?).isSome = true) →
      ∃ st1 evs, instance_list_free l st = Outcome.returned st1 ∧
        st1.module_instance_list = [] ∧
        st1.module_list = st.module_list ∧
        st1.components = st.components ∧
        st1.trace = st.trace ++ evs ∧
        detach_calls evs = detaches_due st.module_list l ∧
        (∀ e ∈ evs, e.isInstantiate = false) := by
  induction l with
  | nil =>
    intro st _
    exact ⟨{ st with module_instance_list := [] }, [], rfl, rfl, rfl, rfl, by simp, rfl,
      by simp⟩
  | cons c next ih =>
    intro st hall
    have hc := hall c (List.mem_cons_self _ _)
    cases hlib : st.module_list[c.entry]? with
    | none => simp [hlib] at hc
    | some lib =>
      have hnext : ∀ (st2 : State), st2.module_list = st.module_list →
          ∀ c2 ∈ next, (st2.module_list[c2.entry]?).isSome = true := by
        intro st2 h2 c2 hc2
        rw [h2]
        exact hall c2 (List.mem_cons_of_mem _ hc2)
      have key : ∀ (st2 : State) (evs2 : List Event),
          st2.module_list = st.module_list → st2.components = st.components →
          st2.trace = st.trace ++ evs2 →
          detach_calls evs2 =
            (if lib.module.detach.isSome then [(c.name, c.insthandle)] else []) →
          (∀ e ∈ evs2, e.isInstantiate = false) →
          instance_list_free (c :: next) st = instance_list_free next st2 →
          ∃ st1 evs, instance_list_free (c :: next) st = Outcome.returned st1 ∧
            st1.module_instance_list = [] ∧
            st1.module_list = st.module_list ∧
            st1.components = st.components ∧
            st1.trace = st.trace ++ evs ∧
            detach_calls evs = detaches_due st.module_list (c :: next) ∧
            (∀ e ∈ evs, e.isInstantiate = false) := by
        intro st2 evs2 hml hcomp htr hdet hinst heq
        obtain ⟨st1, evs, h1, h2, h3, h4, h5, h6, h7⟩ := ih st2 (hnext st2 hml)
        refine ⟨st1, evs2 ++ evs, heq.trans h1, h2, h3.trans hml, h4.trans hcomp, ?_, ?_, ?_⟩
        · rw [h5, htr, List.append_assoc]
        · rw [detach_calls_append, hdet, h6, hml]
          cases hd : lib.module.detach <;> simp [detaches_due, hlib, hd]
        · intro e he
          rcases List.mem_append.mp he with he | he
          · exact hinst e he
          · exact h7 e he
      cases hd : lib.module.detach with
      | none =>
        by_cases hm : c.mutex = true
        · exact key (st.emit (Event.mutex_destroy c.name)) [Event.mutex_destroy c.name]
            rfl rfl rfl (by simp [detach_calls, hd]) (by simp [Event.isInstantiate])
            (by simp [instance_list_free, hlib, hd, hm])
        · exact key st [] rfl rfl (by simp) (by simp [detach_calls, hd]) (by simp)
            (by simp [instance_list_free, hlib, hd, hm])
      | some hook =>
        by_cases hm : c.mutex = true
        · exact key
            (({ st with world := (hook c.insthandle st.world).2 }.emit
              (Event.detach c.name c.insthandle)).emit (Event.mutex_destroy c.name))
            [Event.detach c.name c.insthandle, Event.mutex_destroy c.name]
            rfl rfl (by simp [State.emit]) (by simp [detach_calls, hd])
            (by simp [Event.isInstantiate])
            (by simp [instance_list_free, hlib, hd, hm])
        · exact key
            ({ st with world := (hook c.insthandle st.world).2 }.emit
              (Event.detach c.name c.insthandle))
            [Event.detach c.name c.insthandle]
            rfl rfl (by simp [State.emit]) (by simp [detach_calls, hd])
            (by simp [Event.isInstantiate])
            (by simp [instance_list_free, hlib, hd, hm])

/-- The last loop of `module_list_free` empties the library registry, calls no `detach` and
no `instantiate` hook, and leaves the instance registry and the tables alone. -/
theorem module_list_free_libraries_spec (env : Env) (l : List module_list_t) :
    ∀ st : State, ∃ evs,
      (module_list_free_libraries env l st).trace = st.trace ++ evs ∧
      detach_calls evs = [] ∧
      (∀ e ∈ evs, e.isInstantiate = false) ∧
      (module_list_free_libraries env l st).module_list = [] ∧
      (module_list_free_libraries env l st).module_instance_list = st.module_instance_list ∧
      (module_list_free_libraries env l st).components = st.components := by
  induction l with
  | nil =>
    intro st
    exact ⟨[], by simp [module_list_free_libraries], rfl, by simp, rfl, rfl, rfl⟩
  | cons ml next ih =>
    intro st
    cases hd : ml.module.destroy with
    | none =>
      obtain ⟨evs, h1, h2, h3, h4, h5, h6⟩ := ih
        ({ st with world := env.lt_dlclose ml.handle st.world }.emit
          (Event.lt_dlclose ml.handle))
      refine ⟨Event.lt_dlclose ml.handle :: evs, ?_, ?_, ?_, ?_, ?_, ?_⟩
      · simp only [module_list_free_libraries, hd, h1]
        simp [State.emit]
      · simpa [detach_calls] using h2
      · intro e he
        rcases List.mem_cons.mp he with rfl | he
        · rfl
        · exact h3 e he
      · simp only [module_list_free_libraries, hd, h4]
      · simp only [module_list_free_libraries, hd, h5]
        rfl
      · simp only [module_list_free_libraries, hd, h6]
        rfl
    | some hook =>
      obtain ⟨evs, h1, h2, h3, h4, h5, h6⟩ := ih
        ({ ({ st with world := (hook st.world).2 }.emit (Event.destroy ml.name)) with
            world := env.lt_dlclose ml.handle
              ({ st with world := (hook st.world).2 }.emit (Event.destroy ml.name)).world }.emit
          (Event.lt_dlclose ml.handle))
      refine ⟨Event.destroy ml.name :: Event.lt_dlclose ml.handle :: evs, ?_, ?_, ?_, ?_, ?_, ?_⟩
      · simp only [module_list_free_libraries, hd, h1]
        simp [State.emit]
      · simpa [detach_calls] using h2
      · intro e he
        rcases List.mem_cons.mp he with rfl | he
        · rfl
        · rcases List.mem_cons.mp he with rfl | he
          · rfl
          · exact h3 e he
      · simp only [module_list_free_libraries, hd, h4]
      · simp only [module_list_free_libraries, hd, h5]
        rfl
      · simp only [module_list_free_libraries, hd, h6]
        rfl

/-- C18, as stated, fails: the first `setup_modules` registered the instances a and b2; the
library of b2 has no `detach` hook, and in the reload only a receives a `detach` call. -/
theorem C18_counterexample :
    demoLoaded.module_instance_list.map (fun c => (c.name, c.insthandle)) =
      [("a", 42), ("b2", 42)] ∧
    detach_calls (setup_modules demoConsts demoEnvReload demoLoaded).state.trace =
      [("a", 42)] := by
  decide

/-- C18, amended: when `setup_modules` runs on a state with libraries loaded in which every
instance points to a library (a full reload of what an earlier `setup_modules` built), every
instance of the old registry whose library has a `detach` hook receives exactly one `detach`
call, with its own handle, and the instances of libraries without the hook receive none;
these calls are made in the teardown, in which no `instantiate` hook runs, and the rebuild
that follows makes no `detach` call; the rebuild starts with both registries empty and the
tables of all phases cleared, so no old instance is left in the registry or in a chain.
With no library loaded there is no old instance. -/
theorem C18_reload_detaches_instances_with_hook (k : Consts) (env : Env) (st : State)
    (hwf : EntriesOk st) :
    (st.module_list = [] → st.module_instance_list = []) ∧
    (st.module_list ≠ [] →
      ∃ stf teardown rebuild,
        setup_modules k env st =
          setup_components k env (List.range RLM_COMPONENT_COUNT) stf ∧
        stf.module_instance_list = [] ∧
        stf.module_list = [] ∧
        (∀ c, c < RLM_COMPONENT_COUNT → stf.components c = []) ∧
        stf.trace = st.trace ++ teardown ∧
        detach_calls teardown = detaches_due st.module_list st.module_instance_list ∧
        (∀ e ∈ teardown, e.isInstantiate = false) ∧
        (setup_modules k env st).state.trace = st.trace ++ teardown ++ rebuild ∧
        (∀ e ∈ rebuild, e.isDetach = false)) := by
  constructor
  · intro hnil
    cases hl : st.module_instance_list with
    | nil => rfl
    | cons c t =>
      have := hwf c (by rw [hl]; exact List.mem_cons_self _ _)
      simp [hnil] at this
  · intro hne
    obtain ⟨st1, evs1, h1, h2, h3, h4, h5, h6, h7⟩ :=
      instance_list_free_spec st.module_instance_list st.clearComponents hwf
    obtain ⟨evs2, g1, g2, g3, g4, g5, g6⟩ :=
      module_list_free_libraries_spec env st1.module_list st1
    have hsetup : setup_modules k env st =
        setup_components k env (List.range RLM_COMPONENT_COUNT)
          (module_list_free_libraries env st1.module_list st1) := by
      unfold setup_modules
      cases hml : st.module_list with
      | nil => exact absurd hml hne
      | cons a t =>
        have h1b : instance_list_free st.clearComponents.module_instance_list
            st.clearComponents = Outcome.returned st1 := h1
        simp only [module_list_free, h1b]
    have htrace : (module_list_free_libraries env st1.module_list st1).trace =
        st.trace ++ (evs1 ++ evs2) := by
      rw [g1, h5, List.append_assoc]
      rfl
    have hgrow := setup_components_no_detach k env (List.range RLM_COMPONENT_COUNT)
      (module_list_free_libraries env st1.module_list st1)
    refine ⟨module_list_free_libraries env st1.module_list st1, evs1 ++ evs2,
      events_since (module_list_free_libraries env st1.module_list st1)
        (setup_components k env (List.range RLM_COMPONENT_COUNT)
          (module_list_free_libraries env st1.module_list st1)).state,
      hsetup, by rw [g5, h2], g4, ?_, htrace, ?_, ?_, ?_, ?_⟩
    · intro c hc
      rw [g6, h4]
      simp [State.clearComponents, hc]
    · rw [detach_calls_append, g2, h6]
      simp [State.clearComponents]
    · intro e he
      rcases List.mem_append.mp he with he | he
      · exact h7 e he
      · exact g3 e he
    · rw [hsetup, hgrow.1, htrace]
    · intro e he
      have := hgrow.2 e he
      simpa using this

/-- C18 amended, on the reload of the demo state: the one `detach` call is that of a, whose
library has the hook, and it comes before the two `instantiate` calls of the rebuild. -/
theorem C18_reload_detaches_instances_with_hook_witness :
    (setup_modules demoConsts demoEnvReload demoLoaded).state.trace.filter
        (fun e => e.isDetach || e.isInstantiate) =
      [Event.detach "a" 42, Event.instantiate "a" 0, Event.instantiate "b2" 0] ∧
    ∃ stf teardown rebuild,
      setup_modules demoConsts demoEnvReload demoLoaded =
        setup_components demoConsts demoEnvReload (List.range RLM_COMPONENT_COUNT) stf ∧
      stf.module_instance_list = [] ∧
      stf.module_list = [] ∧
      (∀ c, c < RLM_COMPONENT_COUNT → stf.components c = []) ∧
      stf.trace = demoLoaded.trace ++ teardown ∧
      detach_calls teardown =
        detaches_due demoLoaded.module_list demoLoaded.module_instance_list ∧
      (∀ e ∈ teardown, e.isInstantiate = false) ∧
      (setup_modules demoConsts demoEnvReload demoLoaded).state.trace =
        demoLoaded.trace ++ teardown ++ rebuild ∧
      (∀ e ∈ rebuild, e.isDetach = false) :=
  ⟨by decide,
    (C18_reload_detaches_instances_with_hook demoConsts demoEnvReload demoLoaded
      (by unfold EntriesOk; decide)).2
      (fun h => absurd (congrArg List.length h) (by decide))⟩

/-! ## Lemmas shared by the claims on the whole chain builder -/

/-- The node `new_sublist` returns is the node `lookup_by_index` finds afterwards. -/
theorem new_sublist_in_lookup (t : List indexed_config_module_t) (idx : Int) :
    ∀ p, (new_sublist_in t idx).1 = some p →
      lookup_by_index (new_sublist_in t idx).2 idx = some p := by
  induction t with
  | nil =>
    intro p h
    simp only [new_sublist_in] at h
    simp [new_sublist_in, lookup_by_index, h]
  | cons node next ih =>
    intro p h
    unfold new_sublist_in at h ⊢
    by_cases hn : node.idx = idx
    · rw [if_pos hn] at h ⊢
      by_cases h0 : idx = 0
      · rw [if_pos h0] at h
        simp only [lookup_by_index, if_pos hn]
        exact h
      · rw [if_neg h0] at h
        cases h
    · rw [if_neg hn] at h ⊢
      cases hr : (new_sublist_in next idx).1 with
      | none => simp [hr] at h
      | some q =>
        simp only [hr, Option.map_some', Option.some.injEq] at h
        simp only [lookup_by_index, if_neg hn, ih q hr, Option.map_some', h]

/-- Putting a node at the end of a chain changes no index of the table. -/
theorem lookup_by_index_append_to_chain (t : List indexed_config_module_t) :
    ∀ (q : Nat) (c : config_module_t) (idx : Int),
      lookup_by_index (append_to_chain t q c) idx = lookup_by_index t idx := by
  induction t with
  | nil => intro q c idx; rfl
  | cons node next ih =>
    intro q c idx
    cases q with
    | zero => simp [append_to_chain, lookup_by_index]
    | succ q => simp [append_to_chain, lookup_by_index, ih q c idx]

/-- With an entry of the index in the table, `add_to_list` passes its `assert` and returns;
the entry is still found afterwards, and the registries are as before. -/
theorem add_to_list_of_lookup (comp : Nat) (inst : Nat) (idx : Int) (st : State) (p : Nat)
    (h : lookup_by_index (st.components comp) idx = some p) :
    add_to_list comp inst idx st =
      Outcome.returned (st.setComponent comp (append_to_chain (st.components comp) p ⟨inst⟩)) ∧
    lookup_by_index
      ((st.setComponent comp (append_to_chain (st.components comp) p ⟨inst⟩)).components comp)
      idx = some p := by
  constructor
  · unfold add_to_list
    simp only [h]
  · rw [setComponent_components_same, lookup_by_index_append_to_chain, h]

/-- `sanity_check` for a phase: it returns, with the state untouched, when the capability
table has the handler of the phase, and else logs and calls `exit(1)`. -/
theorem sanity_check_phase (comp : Nat) (mod : module_t) (st : State) :
    (sanity_check comp mod st = Outcome.returned st ∧
      (phase_handler comp mod).isSome = true) ∨
    (∃ e, sanity_check comp mod st = Outcome.exited (st.emit e)) := by
  unfold sanity_check phase_handler
  simp only [RLM_COMPONENT_AUTH, RLM_COMPONENT_AUTZ, RLM_COMPONENT_PREACCT,
    RLM_COMPONENT_ACCT, RLM_COMPONENT_SESS, Nat.cast_inj, Nat.cast_ofNat, Nat.cast_zero,
    Nat.cast_one, Nat.cast_eq_zero, Nat.cast_eq_one, Nat.cast_eq_ofNat]
  by_cases h0 : comp = 0
  · subst h0
    cases hh : mod.authenticate <;> simp [hh]
  · by_cases h1 : comp = 1
    · subst h1
      cases hh : mod.authorize <;> simp [hh]
    · by_cases h2 : comp = 2
      · subst h2
        cases hh : mod.preaccounting <;> simp [hh]
      · by_cases h3 : comp = 3
        · subst h3
          cases hh : mod.accounting <;> simp [hh]
        · by_cases h4 : comp = 4
          · subst h4
            cases hh : mod.checksimul <;> simp [hh]
          · have c2 : ¬ (comp : Int) = 2 := by omega
            have c3 : ¬ (comp : Int) = 3 := by omega
            have c4 : ¬ (comp : Int) = 4 := by omega
            simp only [h0, h1, h2, h3, h4, c2, c3, c4, if_false]
            exact Or.inr ⟨_, rfl⟩

/-- The instance `find_module_instance` returns is a node of the registry, and its library
is a node of the library registry when that held of the instances before. -/
theorem find_module_instance_resolves (k : Consts) (env : Env) (n : String) (st : State)
    (this : Nat) (hf : (find_module_instance k env n st).1 = some this) :
    ∃ inst, (find_module_instance k env n st).2.module_instance_list[this]? = some inst ∧
      (EntriesOk st →
        ∃ lib, (find_module_instance k env n st).2.module_list[inst.entry]? = some lib) := by
  obtain ⟨inst0, hinst0, _⟩ := (find_module_instance_node k env n st).2 this hf
  cases hinst : (find_module_instance k env n st).2.module_instance_list[this]? with
  | none => simp [hinst] at hinst0
  | some inst =>
    refine ⟨inst, rfl, fun hwf => ?_⟩
    have hsome := find_module_instance_entries k env n st hwf inst (List.getElem?_mem hinst)
    cases hlib : (find_module_instance k env n st).2.module_list[inst.entry]? with
    | none => simp [hlib] at hsome
    | some lib => exact ⟨lib, rfl⟩

/-- The ways the handling of a plain reference ends: the reference does not resolve
(`exit(1)`); the library pointer of the instance dangles; `sanity_check` calls `exit(1)`;
or the library has the handler of the phase, an index is picked without touching the
registries and the tables, and either `new_sublist` refuses it and the reference is skipped,
or `new_sublist` gives an entry and the result is that of `add_to_list`. -/
theorem load_reference_cases (k : Consts) (env : Env) (comp : Nat) (modref : CONF_ITEM)
    (st : State) :
    load_reference k env comp modref st =
        Outcome.exited (find_module_instance k env modref.name1 st).2 ∨
    (∃ this inst, (find_module_instance k env modref.name1 st).1 = some this ∧
      (find_module_instance k env modref.name1 st).2.module_instance_list[this]? = some inst ∧
      (find_module_instance k env modref.name1 st).2.module_list[inst.entry]? = none ∧
      load_reference k env comp modref st =
        Outcome.crashed (find_module_instance k env modref.name1 st).2) ∨
    (∃ this inst lib, (find_module_instance k env modref.name1 st).1 = some this ∧
      (find_module_instance k env modref.name1 st).2.module_instance_list[this]? = some inst ∧
      (find_module_instance k env modref.name1 st).2.module_list[inst.entry]? = some lib ∧
      ((∃ e, load_reference k env comp modref st =
          Outcome.exited ((find_module_instance k env modref.name1 st).2.emit e)) ∨
       ((phase_handler comp lib.module).isSome = true ∧
        ∃ pk : Int × State,
          pk.2.components = (find_module_instance k env modref.name1 st).2.components ∧
          SameRegistries (find_module_instance k env modref.name1 st).2 pk.2 ∧
          ((∃ e, (new_sublist comp pk.1 pk.2).1 = none ∧
              load_reference k env comp modref st =
                Outcome.returned ((new_sublist comp pk.1 pk.2).2.emit e)) ∨
           (∃ p, (new_sublist comp pk.1 pk.2).1 = some p ∧
              load_reference k env comp modref st =
                add_to_list comp this pk.1 (new_sublist comp pk.1 pk.2).2))))) := by
  cases hf : (find_module_instance k env modref.name1 st).1 with
  | none =>
    left
    unfold load_reference
    simp only [hf]
  | some this =>
    right
    obtain ⟨inst, hinst, _⟩ := find_module_instance_resolves k env modref.name1 st this hf
    cases hlib : (find_module_instance k env modref.name1 st).2.module_list[inst.entry]? with
    | none =>
      left
      refine ⟨this, inst, rfl, hinst, hlib, ?_⟩
      unfold load_reference
      simp only [hf, hinst, hlib]
    | some lib =>
      right
      refine ⟨this, inst, lib, rfl, hinst, hlib, ?_⟩
      rcases sanity_check_phase comp lib.module
          (find_module_instance k env modref.name1 st).2 with ⟨hs, hh⟩ | ⟨e, hs⟩
      · right
        refine ⟨hh, ?_⟩
        by_cases hcomp : comp = RLM_COMPONENT_AUTH
        · subst hcomp
          have hfr := new_authtype_value_frame k inst.name
            (find_module_instance k env modref.name1 st).2
          refine ⟨new_authtype_value k inst.name
            (find_module_instance k env modref.name1 st).2, hfr.1, ⟨hfr.2.1, hfr.2.2.1⟩, ?_⟩
          cases hr : (new_sublist RLM_COMPONENT_AUTH
              (new_authtype_value k inst.name
                (find_module_instance k env modref.name1 st).2).1
              (new_authtype_value k inst.name
                (find_module_instance k env modref.name1 st).2).2).1 with
          | none =>
            left
            refine ⟨Event.radlog (LogMsg.already_configured RLM_COMPONENT_AUTH
              (some inst.name)), rfl, ?_⟩
            unfold load_reference
            simp only [hf, hinst, hlib, hs, if_true, hr]
          | some p =>
            right
            refine ⟨p, rfl, ?_⟩
            unfold load_reference
            simp only [hf, hinst, hlib, hs, if_true, hr]
        · refine ⟨(0, (find_module_instance k env modref.name1 st).2), rfl, ⟨rfl, rfl⟩, ?_⟩
          cases hr : (new_sublist comp 0 (find_module_instance k env modref.name1 st).2).1 with
          | none =>
            left
            refine ⟨Event.radlog (LogMsg.already_configured comp (some inst.name)), rfl, ?_⟩
            unfold load_reference
            simp only [hf, hinst, hlib, hs, hcomp, if_false, hr]
          | some p =>
            right
            refine ⟨p, rfl, ?_⟩
            unfold load_reference
            simp only [hf, hinst, hlib, hs, hcomp, if_false, hr]
      · left
        exact ⟨e, by unfold load_reference; simp only [hf, hinst, hlib, hs]⟩

/-- The ways one turn of the loop of `load_subcomponent_section` ends: the reference does
not resolve (`exit(1)`); the library pointer of the instance dangles; `sanity_check` calls
`exit(1)`; or the library has the handler of the phase and `add_to_list` is called, the loop
going on from the state it returns. -/
theorem load_subcomponent_items_cases (k : Consts) (env : Env) (comp : Nat) (idx : Int)
    (modref : CONF_ITEM) (next : List CONF_ITEM) (st : State) :
    load_subcomponent_items k env comp idx (modref :: next) st =
        Outcome.exited (find_module_instance k env modref.name1 st).2 ∨
    (∃ this inst, (find_module_instance k env modref.name1 st).1 = some this ∧
      (find_module_instance k env modref.name1 st).2.module_instance_list[this]? = some inst ∧
      (find_module_instance k env modref.name1 st).2.module_list[inst.entry]? = none ∧
      load_subcomponent_items k env comp idx (modref :: next) st =
        Outcome.crashed (find_module_instance k env modref.name1 st).2) ∨
    (∃ this inst lib, (find_module_instance k env modref.name1 st).1 = some this ∧
      (find_module_instance k env modref.name1 st).2.module_instance_list[this]? = some inst ∧
      (find_module_instance k env modref.name1 st).2.module_list[inst.entry]? = some lib ∧
      ((∃ e, load_subcomponent_items k env comp idx (modref :: next) st =
          Outcome.exited ((find_module_instance k env modref.name1 st).2.emit e)) ∨
       ((phase_handler comp lib.module).isSome = true ∧
        (∀ st2, add_to_list comp this idx (find_module_instance k env modref.name1 st).2 =
            Outcome.returned st2 →
          load_subcomponent_items k env comp idx (modref :: next) st =
            load_subcomponent_items k env comp idx next st2) ∧
        (∀ stx, add_to_list comp this idx (find_module_instance k env modref.name1 st).2 =
            Outcome.crashed stx →
          load_subcomponent_items k env comp idx (modref :: next) st =
            Outcome.crashed stx)))) := by
  cases hf : (find_module_instance k env modref.name1 st).1 with
  | none =>
    left
    unfold load_subcomponent_items
    simp only [hf]
  | some this =>
    right
    obtain ⟨inst, hinst, _⟩ := find_module_instance_resolves k env modref.name1 st this hf
    cases hlib : (find_module_instance k env modref.name1 st).2.module_list[inst.entry]? with
    | none =>
      left
      refine ⟨this, inst, rfl, hinst, hlib, ?_⟩
      unfold load_subcomponent_items
      simp only [hf, hinst, hlib]
    | some lib =>
      right
      refine ⟨this, inst, lib, rfl, hinst, hlib, ?_⟩
      rcases sanity_check_phase comp lib.module
          (find_module_instance k env modref.name1 st).2 with ⟨hs, hh⟩ | ⟨e, hs⟩
      · right
        refine ⟨hh, ?_, ?_⟩
        · intro st2 hadd
          rw [load_subcomponent_items]
          simp only [hf, hinst, hlib, hs, hadd]
        · intro stx hadd
          rw [load_subcomponent_items]
          simp only [hf, hinst, hlib, hs, hadd]
      · left
        exact ⟨e, by unfold load_subcomponent_items; simp only [hf, hinst, hlib, hs]⟩

/-- The ways `load_subcomponent_section` ends: the block of Authenticate has no second label
(a `NULL` name is handed on); or an index is picked without touching the registries and the
tables, and either `new_sublist` refuses it and the block is skipped, or `new_sublist` gives
an entry and the loop over the items runs. -/
theorem load_subcomponent_section_cases (k : Consts) (env : Env) (cs : CONF_ITEM)
    (comp : Nat) (st : State) :
    (comp = RLM_COMPONENT_AUTH ∧ cs.name2 = none ∧
      load_subcomponent_section k env cs comp st = Outcome.crashed st) ∨
    (∃ pk : Int × State, pk.2.components = st.components ∧ SameRegistries st pk.2 ∧
      ((∃ e, (new_sublist comp pk.1 pk.2).1 = none ∧
          load_subcomponent_section k env cs comp st =
            Outcome.returned ((new_sublist comp pk.1 pk.2).2.emit e)) ∨
       (∃ p, (new_sublist comp pk.1 pk.2).1 = some p ∧
          load_subcomponent_section k env cs comp st =
            load_subcomponent_items k env comp pk.1 cs.items
              (new_sublist comp pk.1 pk.2).2))) := by
  by_cases hcomp : comp = RLM_COMPONENT_AUTH
  · subst hcomp
    cases hn : cs.name2 with
    | none =>
      left
      refine ⟨rfl, rfl, ?_⟩
      unfold load_subcomponent_section
      simp only [hn, if_true]
    | some name2 =>
      right
      have hfr := new_authtype_value_frame k name2 st
      refine ⟨new_authtype_value k name2 st, hfr.1, ⟨hfr.2.1, hfr.2.2.1⟩, ?_⟩
      cases hr : (new_sublist RLM_COMPONENT_AUTH (new_authtype_value k name2 st).1
          (new_authtype_value k name2 st).2).1 with
      | none =>
        left
        refine ⟨Event.radlog (LogMsg.already_configured RLM_COMPONENT_AUTH (some name2)),
          rfl, ?_⟩
        unfold load_subcomponent_section
        simp only [hn, if_true, hr]
      | some p =>
        right
        refine ⟨p, rfl, ?_⟩
        unfold load_subcomponent_section
        simp only [hn, if_true, hr]
  · right
    refine ⟨(st.meaningless_counter,
      { st with meaningless_counter := wrap_int (st.meaningless_counter + 1) }), rfl,
      ⟨rfl, rfl⟩, ?_⟩
    cases hr : (new_sublist comp st.meaningless_counter
        { st with meaningless_counter := wrap_int (st.meaningless_counter + 1) }).1 with
    | none =>
      left
      refine ⟨Event.radlog (LogMsg.already_configured comp cs.name2), rfl, ?_⟩
      unfold load_subcomponent_section
      simp only [hcomp, if_false, hr]
    | some p =>
      right
      refine ⟨p, rfl, ?_⟩
      unfold load_subcomponent_section
      simp only [hcomp, if_false, hr]

/-! ## Claim on the assertion of `add_to_list` -/

theorem EntriesOk_of_same (st st2 : State) (h : SameRegistries st st2) (hwf : EntriesOk st) :
    EntriesOk st2 := by
  unfold EntriesOk
  rw [h.1, h.2]
  exact hwf

theorem new_sublist_lookup (comp : Nat) (idx : Int) (st : State) (p : Nat)
    (h : (new_sublist comp idx st).1 = some p) :
    lookup_by_index ((new_sublist comp idx st).2.components comp) idx = some p := by
  unfold new_sublist at h ⊢
  simp only at h ⊢
  rw [setComponent_components_same]
  exact new_sublist_in_lookup _ _ p h

/-- A plain reference, from a state whose instances point to libraries: `load_reference`
does not stop at the `assert` of `add_to_list` nor at a dangling pointer, and the instances
still point to libraries afterwards. -/
theorem load_reference_safe (k : Consts) (env : Env) (comp : Nat) (modref : CONF_ITEM)
    (st : State) (hwf : EntriesOk st) :
    (load_reference k env comp modref st).isCrashed = false ∧
    EntriesOk (load_reference k env comp modref st).state := by
  have hent := find_module_instance_entries k env modref.name1 st hwf
  rcases load_reference_cases k env comp modref st with
    h | ⟨this, inst, _, hinst, hlib, _⟩ | ⟨this, inst, lib, _, _, _, ⟨e, h⟩ | ⟨_, pk, _, hsame, hsub⟩⟩
  · rw [h]
    exact ⟨rfl, hent⟩
  · have hsome := hent inst (List.getElem?_mem hinst)
    simp [hlib] at hsome
  · rw [h]
    exact ⟨rfl, EntriesOk_of_same _ _ ⟨rfl, rfl⟩ hent⟩
  · have hpk : EntriesOk pk.2 := EntriesOk_of_same _ _ hsame hent
    rcases hsub with ⟨e, _, h⟩ | ⟨p, hp, h⟩
    · rw [h]
      exact ⟨rfl, EntriesOk_of_same _ _ ⟨rfl, rfl⟩ hpk⟩
    · rw [h, (add_to_list_of_lookup comp this pk.1 _ p (new_sublist_lookup comp pk.1 pk.2 p hp)).1]
      exact ⟨rfl, EntriesOk_of_same _ _ ⟨rfl, rfl⟩ hpk⟩

/-- The loop of `load_subcomponent_section`, from a state whose instances point to libraries
and whose table has an entry of the index: it does not stop at the `assert` of `add_to_list`
nor at a dangling pointer, and the instances still point to libraries afterwards. -/
theorem load_subcomponent_items_safe (k : Consts) (env : Env) (comp : Nat) (idx : Int)
    (items : List CONF_ITEM) :
    ∀ (st : State) (p : Nat), EntriesOk st →
      lookup_by_index (st.components comp) idx = some p →
      (load_subcomponent_items k env comp idx items st).isCrashed = false ∧
      EntriesOk (load_subcomponent_items k env comp idx items st).state := by
  induction items with
  | nil =>
    intro st p hwf _
    exact ⟨rfl, hwf⟩
  | cons modref next ih =>
    intro st p hwf hl
    have hent := find_module_instance_entries k env modref.name1 st hwf
    have hcomps := (find_module_instance_statics k env modref.name1 st).1
    rcases load_subcomponent_items_cases k env comp idx modref next st with
      h | ⟨this, inst, _, hinst, hlib, _⟩ | ⟨this, inst, lib, _, _, _, ⟨e, h⟩ | ⟨_, hret, _⟩⟩
    · rw [h]
      exact ⟨rfl, hent⟩
    · have hsome := hent inst (List.getElem?_mem hinst)
      simp [hlib] at hsome
    · rw [h]
      exact ⟨rfl, EntriesOk_of_same _ _ ⟨rfl, rfl⟩ hent⟩
    · have hl2 : lookup_by_index
          ((find_module_instance k env modref.name1 st).2.components comp) idx = some p := by
        rw [hcomps]
        exact hl
      obtain ⟨hadd, hl3⟩ := add_to_list_of_lookup comp this idx _ p hl2
      rw [hret _ hadd]
      exact ih _ p (EntriesOk_of_same _ _ ⟨rfl, rfl⟩ hent) hl3

/-- A block of a section, named when the phase is Authenticate, from a state whose instances
point to libraries: `load_subcomponent_section` does not stop at the `assert` of
`add_to_list` nor at a dangling pointer, and the instances still point to libraries. -/
theorem load_subcomponent_section_safe (k : Consts) (env : Env) (cs : CONF_ITEM) (comp : Nat)
    (st : State) (hwf : EntriesOk st)
    (hnamed : comp = RLM_COMPONENT_AUTH → cs.name2 ≠ none) :
    (load_subcomponent_section k env cs comp st).isCrashed = false ∧
    EntriesOk (load_subcomponent_section k env cs comp st).state := by
  rcases load_subcomponent_section_cases k env cs comp st with
    ⟨hc, hn, _⟩ | ⟨pk, _, hsame, hsub⟩
  · exact absurd hn (hnamed hc)
  · have hpk : EntriesOk pk.2 := EntriesOk_of_same _ _ hsame hwf
    rcases hsub with ⟨e, _, h⟩ | ⟨p, hp, h⟩
    · rw [h]
      exact ⟨rfl, EntriesOk_of_same _ _ ⟨rfl, rfl⟩ hpk⟩
    · rw [h]
      exact load_subcomponent_items_safe k env comp pk.1 cs.items _ p
        (EntriesOk_of_same _ _ ⟨rfl, rfl⟩ hpk) (new_sublist_lookup comp pk.1 pk.2 p hp)

/-- A section whose blocks are named when the phase is Authenticate, from a state whose
instances point to libraries: `load_component_section` does not stop at the `assert` of
`add_to_list` nor at a dangling pointer, and the instances still point to libraries. -/
theorem load_component_section_safe (k : Consts) (env : Env) (comp : Nat)
    (items : List CONF_ITEM) :
    ∀ st : State, EntriesOk st → SubBlocksNamed comp items →
      (load_component_section k env comp items st).isCrashed = false ∧
      EntriesOk (load_component_section k env comp items st).state := by
  induction items with
  | nil =>
    intro st hwf _
    exact ⟨rfl, hwf⟩
  | cons modref next ih =>
    intro st hwf hnamed
    have hnext : SubBlocksNamed comp next := fun hc n1 l c hm =>
      hnamed hc n1 l c (List.mem_cons_of_mem _ hm)
    have hstep : ∀ step : Outcome, step.isCrashed = false → EntriesOk step.state →
        ((match step with
          | Outcome.returned st1 => load_component_section k env comp next st1
          | other => other).isCrashed = false ∧
         EntriesOk (match step with
          | Outcome.returned st1 => load_component_section k env comp next st1
          | other => other).state) := by
      intro step hcr hst
      cases step with
      | returned st1 => exact ih st1 hst hnext
      | exited st1 => exact ⟨rfl, hst⟩
      | crashed st1 => cases hcr
    unfold load_component_section
    cases modref with
    | pair attr lineno =>
      exact hstep _ (load_reference_safe k env comp _ st hwf).1
        (load_reference_safe k env comp _ st hwf).2
    | sect name1 name2 lineno children =>
      by_cases hsub : some name1 = subcomponent_names[comp]?
      · simp only [hsub, if_true]
        have hn : comp = RLM_COMPONENT_AUTH →
            (CONF_ITEM.sect name1 name2 lineno children).name2 ≠ none := by
          intro hc hnone
          simp only [CONF_ITEM.name2] at hnone
          subst hnone
          exact hnamed hc name1 lineno children (List.mem_cons_self _ _) hsub
        exact hstep _ (load_subcomponent_section_safe k env _ comp st hwf hn).1
          (load_subcomponent_section_safe k env _ comp st hwf hn).2
      · simp only [hsub, if_false]
        exact hstep _ (load_reference_safe k env comp _ st hwf).1
          (load_reference_safe k env comp _ st hwf).2

theorem component_names_of_lt (comp : Nat) (h : comp < RLM_COMPONENT_COUNT) :
    ∃ name, component_names[comp]? = some name := by
  cases hn : component_names[comp]? with
  | some name => exact ⟨name, rfl⟩
  | none =>
    rw [List.getElem?_eq_none_iff] at hn
    have hlen : component_names.length = 5 := rfl
    simp only [RLM_COMPONENT_COUNT] at h
    omega

theorem SubBlocksNamed_of_config (env : Env) (h : ConfigNamed env) (comp : Nat)
    (name : String) (cs : CONF_ITEM) (hname : component_names[comp]? = some name)
    (hcs : cf_section_find env.config name = some cs) : SubBlocksNamed comp cs.items := by
  intro hc
  subst hc
  have hn : name = "authenticate" := by
    simp only [component_names, RLM_COMPONENT_AUTH, List.getElem?_cons_zero,
      Option.some.injEq] at hname
    exact hname.symm
  subst hn
  exact h cs hcs rfl

/-- The last loop of `setup_modules` over phases of the table, on a configuration whose
`authtype` blocks are named, from a state whose instances point to libraries: it does not
stop at the `assert` of `add_to_list` nor at a dangling pointer. -/
theorem setup_components_safe (k : Consts) (env : Env) (hcfg : ConfigNamed env)
    (comps : List Nat) :
    ∀ st : State, (∀ c ∈ comps, c < RLM_COMPONENT_COUNT) → EntriesOk st →
      (setup_components k env comps st).isCrashed = false ∧
      EntriesOk (setup_components k env comps st).state := by
  induction comps with
  | nil =>
    intro st _ hwf
    exact ⟨rfl, hwf⟩
  | cons comp rest ih =>
    intro st hlt hwf
    have hrest : ∀ c ∈ rest, c < RLM_COMPONENT_COUNT := fun c hc =>
      hlt c (List.mem_cons_of_mem _ hc)
    obtain ⟨name, hname⟩ := component_names_of_lt comp (hlt comp (List.mem_cons_self _ _))
    unfold setup_components
    simp only [hname]
    cases hcs : cf_section_find env.config name with
    | none => exact ih st hrest hwf
    | some cs =>
      have hsafe := load_component_section_safe k env comp cs.items st hwf
        (SubBlocksNamed_of_config env hcfg comp name cs hname hcs)
      simp only
      cases hout : load_component_section k env comp cs.items st with
      | returned st1 =>
        rw [hout] at hsafe
        exact ih st1 hrest hsafe.2
      | exited st1 =>
        rw [hout] at hsafe
        exact ⟨rfl, hsafe.2⟩
      | crashed st1 =>
        rw [hout] at hsafe
        exact absurd hsafe.1 (by simp [Outcome.isCrashed])

/-- On a configuration whose `authtype` blocks are named, from a state whose instances point
to libraries (such is the state of a first start, and the state a `setup_modules` leaves),
`setup_modules` does not stop at the `assert` of `add_to_list` nor at a dangling pointer, and
the instances point to libraries afterwards. -/
theorem setup_modules_safe (k : Consts) (env : Env) (hcfg : ConfigNamed env) (st : State)
    (hwf : EntriesOk st) :
    (setup_modules k env st).isCrashed = false ∧ EntriesOk (setup_modules k env st).state := by
  have hrange : ∀ c ∈ List.range RLM_COMPONENT_COUNT, c < RLM_COMPONENT_COUNT := fun c hc =>
    List.mem_range.mp hc
  unfold setup_modules
  cases hml : st.module_list with
  | nil =>
    have hnone : ∀ st2 : State, st2.module_instance_list = st.module_instance_list →
        EntriesOk st2 := by
      intro st2 h2 inst hi
      rw [h2] at hi
      have hsome := hwf inst hi
      rw [hml] at hsome
      simp at hsome
    by_cases hinit : (env.lt_dlinit st.world).1 = 0
    · simp only [hinit, ne_eq, not_true_eq_false, if_false]
      exact setup_components_safe k env hcfg _ _ hrange (hnone _ rfl)
    · simp only [hinit, ne_eq, not_false_eq_true, if_true]
      exact ⟨rfl, hnone _ rfl⟩
  | cons a t =>
    obtain ⟨st1, evs1, h1, h2, _⟩ :=
      instance_list_free_spec st.module_instance_list st.clearComponents hwf
    obtain ⟨evs2, _, _, _, _, g5, _⟩ :=
      module_list_free_libraries_spec env st1.module_list st1
    have h1b : instance_list_free st.clearComponents.module_instance_list
        st.clearComponents = Outcome.returned st1 := h1
    simp only [module_list_free, h1b]
    refine setup_components_safe k env hcfg _ _ hrange ?_
    intro inst hi
    rw [g5, h2] at hi
    cases hi

/-- C22: for every phase table and selector, when `new_sublist(comp, idx)` succeeds,
`lookup_by_index` on the table of the phase with `idx` returns exactly the entry
`new_sublist` returned, so the `add_to_list` that follows with the same phase and selector
passes its `assert` and returns, and the entry is still the one found for the next
`add_to_list` of the block.  Hence the chain builder never stops at that `assert`: from a
state whose instances point to libraries, neither `load_subcomponent_section` (on a block
that is named when the phase is Authenticate), nor `load_component_section` (when the
`authtype` blocks of the section are named), nor `setup_modules` (when those of the
configuration are) ends at a failed `assert` or a bad pointer: they return or call
`exit(1)`. -/
theorem C22_add_to_list_assert_holds (comp : Nat) (idx : Int) (st : State) :
    (∀ p, (new_sublist comp idx st).1 = some p →
      lookup_by_index ((new_sublist comp idx st).2.components comp) idx = some p ∧
      ∀ inst, ∃ st2,
        add_to_list comp inst idx (new_sublist comp idx st).2 = Outcome.returned st2 ∧
        lookup_by_index (st2.components comp) idx = some p) ∧
    (EntriesOk st →
      (∀ k env cs, (comp = RLM_COMPONENT_AUTH → cs.name2 ≠ none) →
        (load_subcomponent_section k env cs comp st).isCrashed = false) ∧
      (∀ k env items, SubBlocksNamed comp items →
        (load_component_section k env comp items st).isCrashed = false) ∧
      (∀ k env, ConfigNamed env → (setup_modules k env st).isCrashed = false)) := by
  refine ⟨fun p hp => ⟨new_sublist_lookup comp idx st p hp, fun inst => ?_⟩,
    fun hwf => ⟨fun k env cs hn => ?_, fun k env items hn => ?_, fun k env hcfg => ?_⟩⟩
  · exact ⟨_, add_to_list_of_lookup comp inst idx _ p (new_sublist_lookup comp idx st p hp)⟩
  · exact (load_subcomponent_section_safe k env cs comp st hwf hn).1
  · exact (load_component_section_safe k env comp items st hwf hn).1
  · exact (setup_modules_safe k env hcfg st hwf).1

/-- C22 on the Authenticate table of the initial state: `new_sublist` for selector 5 gives
the entry at position 0, which `lookup_by_index` finds; the `authenticate` section of
`demoEnvBlocks` (a block `authtype PAP`, a plain reference, the same block again) and the
whole `setup_modules` on that configuration end without a failed `assert`. -/
theorem C22_add_to_list_assert_holds_witness :
    (new_sublist RLM_COMPONENT_AUTH 5 (State.initial [⟨1000, "Local", 0⟩] { cells := [] })).1 =
      some 0 ∧
    lookup_by_index
      ((new_sublist RLM_COMPONENT_AUTH 5
        (State.initial [⟨1000, "Local", 0⟩] { cells := [] })).2.components
          RLM_COMPONENT_AUTH) 5 = some 0 ∧
    (load_component_section demoConsts demoEnvBlocks RLM_COMPONENT_AUTH
      [ CONF_ITEM.sect "authtype" (some "PAP") 11
          [CONF_ITEM.pair "a" 12, CONF_ITEM.pair "b2" 13],
        CONF_ITEM.pair "a" 14,
        CONF_ITEM.sect "authtype" (some "PAP") 15 [CONF_ITEM.pair "a" 16] ]
      (State.initial [⟨1000, "Local", 0⟩] { cells := [] })).isCrashed = false ∧
    (setup_modules demoConsts demoEnvBlocks
      (State.initial [⟨1000, "Local", 0⟩] { cells := [] })).isCrashed = false ∧
    (setup_modules demoConsts demoEnvBlocks
      (State.initial [⟨1000, "Local", 0⟩] { cells := [] })).isReturned = true :=
  ⟨by decide,
   ((C22_add_to_list_assert_holds RLM_COMPONENT_AUTH 5
      (State.initial [⟨1000, "Local", 0⟩] { cells := [] })).1 0 (by decide)).1,
   ((C22_add_to_list_assert_holds RLM_COMPONENT_AUTH 5
      (State.initial [⟨1000, "Local", 0⟩] { cells := [] })).2
      (fun inst hi => by simp [State.initial] at hi)).2.1 demoConsts demoEnvBlocks _
      (fun _ n1 l c hm => by simp at hm),
   ((C22_add_to_list_assert_holds RLM_COMPONENT_AUTH 5
      (State.initial [⟨1000, "Local", 0⟩] { cells := [] })).2
      (fun inst hi => by simp [State.initial] at hi)).2.2 demoConsts demoEnvBlocks
      (fun cs hcs _ n1 l c hm => by
        have h : cs = CONF_ITEM.sect "authenticate" none 10
            [ CONF_ITEM.sect "authtype" (some "PAP") 11
                [CONF_ITEM.pair "a" 12, CONF_ITEM.pair "b2" 13],
              CONF_ITEM.pair "a" 14,
              CONF_ITEM.sect "authtype" (some "PAP") 15 [CONF_ITEM.pair "a" 16] ] :=
          (Option.some.inj hcs).symm
        subst h
        simp [CONF_ITEM.items] at hm),
   by decide⟩

/-! ## Claim on the handlers of the instances in the chains -/

theorem HasHandler_of_grow (st st2 : State) (comp p : Nat)
    (hi : ∃ ext, st2.module_instance_list = st.module_instance_list ++ ext)
    (hl : ∃ ext, st2.module_list = st.module_list ++ ext)
    (h : HasHandler st comp p) : HasHandler st2 comp p := by
  obtain ⟨inst, lib, h1, h2, h3⟩ := h
  obtain ⟨ext1, hi⟩ := hi
  obtain ⟨ext2, hl⟩ := hl
  refine ⟨inst, lib, ?_, ?_, h3⟩
  · rw [hi]
    exact getElem?_append_of_some _ _ _ _ h1
  · rw [hl]
    exact getElem?_append_of_some _ _ _ _ h2

theorem HasHandler_of_same (st st2 : State) (comp p : Nat) (hs : SameRegistries st st2)
    (h : HasHandler st comp p) : HasHandler st2 comp p :=
  HasHandler_of_grow st st2 comp p ⟨[], by rw [hs.2, List.append_nil]⟩
    ⟨[], by rw [hs.1, List.append_nil]⟩ h

/-- The invariant on the chains holds again when the registries only grew at their tails and
the tables are the same. -/
theorem HandlersOk_of_grow (st st2 : State)
    (hi : ∃ ext, st2.module_instance_list = st.module_instance_list ++ ext)
    (hl : ∃ ext, st2.module_list = st.module_list ++ ext)
    (hc : st2.components = st.components) (h : HandlersOk st) : HandlersOk st2 := by
  intro comp node hn c hcm
  rw [hc] at hn
  exact HasHandler_of_grow st st2 comp _ hi hl (h comp node hn c hcm)

theorem HandlersOk_of_same (st st2 : State) (hs : SameRegistries st st2)
    (hc : st2.components = st.components) (h : HandlersOk st) : HandlersOk st2 :=
  HandlersOk_of_grow st st2 ⟨[], by rw [hs.2, List.append_nil]⟩
    ⟨[], by rw [hs.1, List.append_nil]⟩ hc h

/-- The invariant on the chains holds again when the table of one phase is replaced by a
table that satisfies it. -/
theorem HandlersOk_setComponent (st : State) (comp : Nat) (t : List indexed_config_module_t)
    (h : HandlersOk st) (ht : TableOk st comp t) : HandlersOk (st.setComponent comp t) := by
  intro c node hn x hx
  by_cases hc : c = comp
  · subst hc
    rw [setComponent_components_same] at hn
    exact HasHandler_of_same st _ c _ ⟨rfl, rfl⟩ (ht node hn x hx)
  · have hsame : (st.setComponent comp t).components c = st.components c := by
      simp [State.setComponent, hc]
    rw [hsame] at hn
    exact HasHandler_of_same st _ c _ ⟨rfl, rfl⟩ (h c node hn x hx)

/-- The loop of `new_sublist` brings no instance into a chain. -/
theorem TableOk_new_sublist_in (st : State) (comp : Nat) (t : List indexed_config_module_t)
    (idx : Int) (h : TableOk st comp t) : TableOk st comp (new_sublist_in t idx).2 := by
  induction t with
  | nil =>
    intro node hn c hc
    simp only [new_sublist_in, List.mem_singleton] at hn
    subst hn
    cases hc
  | cons a next ih =>
    have hnext : TableOk st comp next := fun node hn => h node (List.mem_cons_of_mem _ hn)
    unfold new_sublist_in
    by_cases ha : a.idx = idx
    · rw [if_pos ha]
      exact h
    · rw [if_neg ha]
      intro node hn
      rcases List.mem_cons.mp hn with rfl | hn
      · exact h _ (List.mem_cons_self _ _)
      · exact ih hnext node hn

/-- Steps 2 and 3 of `add_to_list` bring the one instance handed over into a chain. -/
theorem TableOk_append_to_chain (st : State) (comp : Nat)
    (t : List indexed_config_module_t) :
    ∀ (q : Nat) (c : config_module_t), TableOk st comp t → HasHandler st comp c.instance →
      TableOk st comp (append_to_chain t q c) := by
  induction t with
  | nil =>
    intro q c h _
    exact h
  | cons a next ih =>
    intro q c h hc
    have hnext : TableOk st comp next := fun node hn => h node (List.mem_cons_of_mem _ hn)
    cases q with
    | zero =>
      intro node hn x hx
      simp only [append_to_chain] at hn
      rcases List.mem_cons.mp hn with rfl | hn
      · rcases List.mem_append.mp hx with hx | hx
        · exact h a (List.mem_cons_self _ _) x hx
        · rw [List.mem_singleton.mp hx]
          exact hc
      · exact hnext node hn x hx
    | succ q =>
      intro node hn
      simp only [append_to_chain] at hn
      rcases List.mem_cons.mp hn with rfl | hn
      · exact h _ (List.mem_cons_self _ _)
      · exact ih q c hnext hc node hn

/-- The invariant on the chains holds again after `new_sublist`. -/
theorem HandlersOk_new_sublist (comp : Nat) (idx : Int) (st : State) (h : HandlersOk st) :
    HandlersOk (new_sublist comp idx st).2 :=
  HandlersOk_setComponent st comp _ h (TableOk_new_sublist_in st comp _ idx (h comp))

/-- The invariant on the chains holds again after `add_to_list` of an instance that has the
handler of the phase. -/
theorem HandlersOk_add_to_list (comp : Nat) (inst : Nat) (idx : Int) (st : State)
    (h : HandlersOk st) (hinst : HasHandler st comp inst) :
    HandlersOk (add_to_list comp inst idx st).state := by
  unfold add_to_list
  cases hl : lookup_by_index (st.components comp) idx with
  | none => exact h
  | some p =>
    exact HandlersOk_setComponent st comp _ h
      (TableOk_append_to_chain st comp _ p ⟨inst⟩ (h comp) hinst)

/-- A call of `find_module_instance` keeps the invariant on the chains. -/
theorem HandlersOk_find_module_instance (k : Consts) (env : Env) (n : String) (st : State)
    (h : HandlersOk st) : HandlersOk (find_module_instance k env n st).2 :=
  HandlersOk_of_grow st _ (find_module_instance_node k env n st).1
    (find_module_instance_libraries_grow k env n st)
    (find_module_instance_statics k env n st).1 h

/-- The handling of a plain reference keeps the invariant on the chains, however it ends. -/
theorem load_reference_handlers (k : Consts) (env : Env) (comp : Nat) (modref : CONF_ITEM)
    (st : State) (h : HandlersOk st) :
    HandlersOk (load_reference k env comp modref st).state := by
  have hF := HandlersOk_find_module_instance k env modref.name1 st h
  rcases load_reference_cases k env comp modref st with
    ho | ⟨this, inst, _, _, _, ho⟩ |
    ⟨this, inst, lib, _, hinst, hlib, ⟨e, ho⟩ | ⟨hh, pk, hcomps, hsame, hsub⟩⟩
  · rw [ho]
    exact hF
  · rw [ho]
    exact hF
  · rw [ho]
    exact HandlersOk_of_same _ _ ⟨rfl, rfl⟩ rfl hF
  · have hpk : HandlersOk pk.2 := HandlersOk_of_same _ _ hsame hcomps hF
    have hnew := HandlersOk_new_sublist comp pk.1 pk.2 hpk
    rcases hsub with ⟨e, _, ho⟩ | ⟨p, _, ho⟩
    · rw [ho]
      exact HandlersOk_of_same _ _ ⟨rfl, rfl⟩ rfl hnew
    · rw [ho]
      refine HandlersOk_add_to_list comp this pk.1 _ hnew ?_
      exact HasHandler_of_same pk.2 _ comp this ⟨rfl, rfl⟩
        (HasHandler_of_same _ pk.2 comp this hsame ⟨inst, lib, hinst, hlib, hh⟩)

theorem add_to_list_not_exited (comp : Nat) (inst : Nat) (idx : Int) (st stx : State) :
    add_to_list comp inst idx st ≠ Outcome.exited stx := by
  unfold add_to_list
  cases lookup_by_index (st.components comp) idx with
  | none => simp
  | some p => simp

/-- The loop of `load_subcomponent_section` keeps the invariant on the chains, however it
ends. -/
theorem load_subcomponent_items_handlers (k : Consts) (env : Env) (comp : Nat) (idx : Int)
    (items : List CONF_ITEM) :
    ∀ st : State, HandlersOk st →
      HandlersOk (load_subcomponent_items k env comp idx items st).state := by
  induction items with
  | nil =>
    intro st h
    exact h
  | cons modref next ih =>
    intro st h
    have hF := HandlersOk_find_module_instance k env modref.name1 st h
    rcases load_subcomponent_items_cases k env comp idx modref next st with
      ho | ⟨this, inst, _, _, _, ho⟩ |
      ⟨this, inst, lib, _, hinst, hlib, ⟨e, ho⟩ | ⟨hh, hret, hcr⟩⟩
    · rw [ho]
      exact hF
    · rw [ho]
      exact hF
    · rw [ho]
      exact HandlersOk_of_same _ _ ⟨rfl, rfl⟩ rfl hF
    · have hadd := HandlersOk_add_to_list comp this idx _ hF ⟨inst, lib, hinst, hlib, hh⟩
      cases hout : add_to_list comp this idx (find_module_instance k env modref.name1 st).2 with
      | returned st2 =>
        rw [hout] at hadd
        rw [hret st2 hout]
        exact ih st2 hadd
      | exited stx => exact absurd hout (add_to_list_not_exited _ _ _ _ _)
      | crashed stx =>
        rw [hout] at hadd
        rw [hcr stx hout]
        exact hadd

/-- The function `load_subcomponent_section` keeps the invariant on the chains, however it
ends. -/
theorem load_subcomponent_section_handlers (k : Consts) (env : Env) (cs : CONF_ITEM)
    (comp : Nat) (st : State) (h : HandlersOk st) :
    HandlersOk (load_subcomponent_section k env cs comp st).state := by
  rcases load_subcomponent_section_cases k env cs comp st with
    ⟨_, _, ho⟩ | ⟨pk, hcomps, hsame, hsub⟩
  · rw [ho]
    exact h
  · have hpk : HandlersOk pk.2 := HandlersOk_of_same _ _ hsame hcomps h
    have hnew := HandlersOk_new_sublist comp pk.1 pk.2 hpk
    rcases hsub with ⟨e, _, ho⟩ | ⟨p, _, ho⟩
    · rw [ho]
      exact HandlersOk_of_same _ _ ⟨rfl, rfl⟩ rfl hnew
    · rw [ho]
      exact load_subcomponent_items_handlers k env comp pk.1 cs.items _ hnew

/-- The function `load_component_section` keeps the invariant on the chains, however it
ends. -/
theorem load_component_section_handlers (k : Consts) (env : Env) (comp : Nat)
    (items : List CONF_ITEM) :
    ∀ st : State, HandlersOk st →
      HandlersOk (load_component_section k env comp items st).state := by
  induction items with
  | nil =>
    intro st h
    exact h
  | cons modref next ih =>
    intro st h
    have hstep : ∀ step : Outcome, HandlersOk step.state →
        HandlersOk (match step with
          | Outcome.returned st1 => load_component_section k env comp next st1
          | other => other).state := by
      intro step hst
      cases step with
      | returned st1 => exact ih st1 hst
      | exited st1 => exact hst
      | crashed st1 => exact hst
    unfold load_component_section
    cases modref with
    | pair attr lineno => exact hstep _ (load_reference_handlers k env comp _ st h)
    | sect name1 name2 lineno children =>
      by_cases hsub : some name1 = subcomponent_names[comp]?
      · simp only [hsub, if_true]
        exact hstep _ (load_subcomponent_section_handlers k env _ comp st h)
      · simp only [hsub, if_false]
        exact hstep _ (load_reference_handlers k env comp _ st h)

/-- The last loop of `setup_modules` keeps the invariant on the chains, however it ends. -/
theorem setup_components_handlers (k : Consts) (env : Env) (comps : List Nat) :
    ∀ st : State, HandlersOk st → HandlersOk (setup_components k env comps st).state := by
  induction comps with
  | nil =>
    intro st h
    exact h
  | cons comp rest ih =>
    intro st h
    cases hname : component_names[comp]? with
    | none =>
      unfold setup_components
      simp only [hname]
      exact h
    | some name =>
      unfold setup_components
      simp only [hname]
      cases hcs : cf_section_find env.config name with
      | none => exact ih st h
      | some cs =>
        have hl := load_component_section_handlers k env comp cs.items st h
        simp only
        cases hout : load_component_section k env comp cs.items st with
        | returned st1 =>
          rw [hout] at hl
          exact ih st1 hl
        | exited st1 =>
          rw [hout] at hl
          exact hl
        | crashed st1 =>
          rw [hout] at hl
          exact hl

theorem invoke_same (sel : module_t → Option Handler) (comp : Nat) (h : config_module_t)
    (request : REQUEST) (st : State) (out : Int × REQUEST × State)
    (hin : invoke sel comp h request st = some out) : SameRegistries st out.2.2 := by
  unfold invoke at hin
  cases hi : st.module_instance_list[h.instance]? with
  | none => simp [hi] at hin
  | some inst =>
    simp only [hi] at hin
    cases hl : st.module_list[inst.entry]? with
    | none => simp [hl] at hin
    | some entry =>
      simp only [hl] at hin
      cases hs : sel entry.module with
      | none => simp [hs] at hin
      | some f =>
        simp only [hs, Option.some.injEq] at hin
        subst hin
        by_cases hm : inst.mutex = true
        · simp [SameRegistries, safe_lock, safe_unlock, State.emit, hm]
        · simp [SameRegistries, safe_lock, safe_unlock, State.emit, hm]

/-- One turn of an executor loop on an instance that has the handler of the phase: the
pointers are followed and the handler is called. -/
theorem invoke_of_handler (comp : Nat) (this : config_module_t) (request : REQUEST)
    (st : State) (h : HasHandler st comp this.instance) :
    (invoke (phase_handler comp) comp this request st).isSome = true := by
  obtain ⟨inst, lib, h1, h2, h3⟩ := h
  cases hs : phase_handler comp lib.module with
  | none => simp [hs] at h3
  | some f =>
    unfold invoke
    simp only [h1, h2, hs]
    rfl

/-- An executor loop over a chain of instances that all have the handler of the phase runs
to its end: no turn meets a dangling pointer or an absent handler. -/
theorem walk_of_handlers (comp : Nat) (cont : Int) (chain : List config_module_t) :
    ∀ (rcode : Int) (request : REQUEST) (st : State),
      (∀ c ∈ chain, HasHandler st comp c.instance) →
      (walk (phase_handler comp) comp cont chain rcode request st).isSome = true := by
  induction chain with
  | nil =>
    intro rcode request st _
    rfl
  | cons this next ih =>
    intro rcode request st h
    by_cases hc : rcode = cont
    · simp only [walk, hc, if_true]
      have hsome := invoke_of_handler comp this request st (h this (List.mem_cons_self _ _))
      cases hi : invoke (phase_handler comp) comp this request st with
      | none => simp [hi] at hsome
      | some out =>
        simp only
        have hsame := invoke_same _ comp this request st out hi
        exact ih out.1 out.2.1 out.2.2 (fun c hcm =>
          HasHandler_of_same st _ comp _ hsame (h c (List.mem_cons_of_mem _ hcm)))
    · simp only [walk, hc, if_false]
      rfl

/-- A chain an executor gets from the table of a phase is the chain of an entry of that
table. -/
theorem chain_of_mem (st : State) (comp : Nat) (idx : Int) (chain : List config_module_t)
    (h : chain_of st comp idx = some chain) :
    ∃ node ∈ st.components comp, node.modulelist = chain := by
  unfold chain_of at h
  cases hl : lookup_by_index (st.components comp) idx with
  | none => simp [hl] at h
  | some p =>
    simp only [hl] at h
    cases hn : (st.components comp)[p]? with
    | none => simp [hn] at h
    | some node =>
      simp only [hn, Option.map_some', Option.some.injEq] at h
      exact ⟨node, List.getElem?_mem hn, h⟩

/-- With the invariant on the chains, the loop of the executor of a phase over a chain of
the table of that phase runs to its end. -/
theorem walk_chain_of (st : State) (h : HandlersOk st) (comp : Nat) (idx : Int) (cont : Int)
    (chain : List config_module_t) (hc : chain_of st comp idx = some chain) (rcode : Int)
    (request : REQUEST) :
    (walk (phase_handler comp) comp cont chain rcode request st).isSome = true := by
  obtain ⟨node, hn, hm⟩ := chain_of_mem st comp idx chain hc
  subst hm
  exact walk_of_handlers comp cont _ rcode request st (fun c hcm => h comp node hn c hcm)

/-- When `instance_list_free` returns, the tables are as before. -/
theorem instance_list_free_components (l : List module_instance_t) :
    ∀ st st1 : State, instance_list_free l st = Outcome.returned st1 →
      st1.components = st.components := by
  induction l with
  | nil =>
    intro st st1 h
    simp only [instance_list_free, Outcome.returned.injEq] at h
    subst h
    rfl
  | cons c next ih =>
    intro st st1 h
    unfold instance_list_free at h
    cases hlib : st.module_list[c.entry]? with
    | none => simp [hlib] at h
    | some lib =>
      simp only [hlib] at h
      rw [ih _ st1 h]
      cases hd : lib.module.detach <;> by_cases hm : c.mutex = true <;>
        simp [State.emit, hm]

theorem HandlersOk_of_empty (st : State) (h : ∀ comp, st.components comp = []) :
    HandlersOk st := by
  intro comp node hn
  rw [h comp] at hn
  cases hn

/-- When `setup_modules` returns, every instance in a chain has the handler of the phase of
the chain: the chains are built from tables it has emptied. -/
theorem setup_modules_handlers (k : Consts) (env : Env) (st : State)
    (hout : ∀ comp, RLM_COMPONENT_COUNT ≤ comp → st.components comp = []) :
    (setup_modules k env st).isReturned = true →
      HandlersOk (setup_modules k env st).state := by
  have hclear : ∀ st1 : State, st1.components = st.clearComponents.components →
      HandlersOk st1 := by
    intro st1 h1
    apply HandlersOk_of_empty
    intro comp
    rw [h1]
    by_cases hc : comp < RLM_COMPONENT_COUNT
    · simp [State.clearComponents, hc]
    · simp only [State.clearComponents, hc, if_false]
      exact hout comp (Nat.le_of_not_lt hc)
  unfold setup_modules
  cases hml : st.module_list with
  | nil =>
    by_cases hinit : (env.lt_dlinit st.world).1 = 0
    · simp only [hinit, ne_eq, not_true_eq_false, if_false]
      intro _
      refine setup_components_handlers k env _ _ (hclear _ ?_)
      simp [State.clearComponents, State.emit]
    · simp only [hinit, ne_eq, not_false_eq_true, if_true]
      intro h
      simp [Outcome.isReturned] at h
  | cons a t =>
    cases hfree : instance_list_free st.clearComponents.module_instance_list
        st.clearComponents with
    | returned st1 =>
      simp only [module_list_free, hfree]
      intro _
      refine setup_components_handlers k env _ _ (hclear _ ?_)
      obtain ⟨_, _, _, _, _, _, g6⟩ := module_list_free_libraries_spec env st1.module_list st1
      rw [g6]
      exact instance_list_free_components _ _ _ hfree
    | exited st1 =>
      simp only [module_list_free, hfree]
      intro h
      simp [Outcome.isReturned] at h
    | crashed st1 =>
      simp only [module_list_free, hfree]
      intro h
      simp [Outcome.isReturned] at h

/-- C21: a state with empty tables has the property that every instance stored in a chain
of the table of a phase is an instance of the registry whose library has the handler of that
phase in its capability table (`HandlersOk`), and every run of the chain builder keeps it:
`load_subcomponent_section`, `load_component_section` and the loop of `setup_modules` over
the phases leave a state with the property, however they end; so does a `setup_modules`
that returns, as it builds from tables it emptied.  In a state with the property no executor
invokes an absent handler: the loop of an executor over a chain of the table of its phase
runs to its end, and each of the five executors gives a result whenever the chain it asks
for is in the table. -/
theorem C21_chain_instances_have_phase_handler (k : Consts) (env : Env) (st : State) :
    ((∀ comp, st.components comp = []) → HandlersOk st) ∧
    ((∀ comp, RLM_COMPONENT_COUNT ≤ comp → st.components comp = []) →
      (setup_modules k env st).isReturned = true →
      HandlersOk (setup_modules k env st).state) ∧
    (HandlersOk st →
      (∀ cs comp, HandlersOk (load_subcomponent_section k env cs comp st).state) ∧
      (∀ comp items, HandlersOk (load_component_section k env comp items st).state) ∧
      (∀ comps, HandlersOk (setup_components k env comps st).state) ∧
      (∀ comp idx chain, chain_of st comp idx = some chain →
        ∀ cont rcode request,
          (walk (phase_handler comp) comp cont chain rcode request st).isSome = true) ∧
      (∀ request, (chain_of st RLM_COMPONENT_AUTZ 0).isSome = true →
        (module_authorize k request st).isSome = true) ∧
      (∀ auth_type request, (chain_of st RLM_COMPONENT_AUTH auth_type).isSome = true →
        (module_authenticate k auth_type request st).isSome = true) ∧
      (∀ request, (chain_of st RLM_COMPONENT_PREACCT 0).isSome = true →
        (module_preacct k request st).isSome = true) ∧
      (∀ request, (chain_of st RLM_COMPONENT_ACCT 0).isSome = true →
        (module_accounting k request st).isSome = true) ∧
      (∀ request maxsimul, (chain_of st RLM_COMPONENT_SESS 0).isSome = true →
        (module_checksimul k request maxsimul st).isSome = true)) := by
  refine ⟨HandlersOk_of_empty st, setup_modules_handlers k env st, fun h =>
    ⟨fun cs comp => load_subcomponent_section_handlers k env cs comp st h,
     fun comp items => load_component_section_handlers k env comp items st h,
     fun comps => setup_components_handlers k env comps st h,
     fun comp idx chain hc cont rcode request =>
       walk_chain_of st h comp idx cont chain hc rcode request, ?_, ?_, ?_, ?_, ?_⟩⟩
  · intro request hs
    cases hc : chain_of st RLM_COMPONENT_AUTZ 0 with
    | none => simp [hc] at hs
    | some chain =>
      unfold module_authorize
      simp only [hc]
      exact walk_chain_of st h RLM_COMPONENT_AUTZ 0 _ chain hc _ request
  · intro auth_type request hs
    cases hc : chain_of st RLM_COMPONENT_AUTH auth_type with
    | none => simp [hc] at hs
    | some chain =>
      unfold module_authenticate
      simp only [hc]
      exact walk_chain_of st h RLM_COMPONENT_AUTH auth_type _ chain hc _ request
  · intro request hs
    cases hc : chain_of st RLM_COMPONENT_PREACCT 0 with
    | none => simp [hc] at hs
    | some chain =>
      unfold module_preacct
      simp only [hc]
      exact walk_chain_of st h RLM_COMPONENT_PREACCT 0 _ chain hc _ request
  · intro request hs
    cases hc : chain_of st RLM_COMPONENT_ACCT 0 with
    | none => simp [hc] at hs
    | some chain =>
      unfold module_accounting
      simp only [hc]
      exact walk_chain_of st h RLM_COMPONENT_ACCT 0 _ chain hc _ request
  · intro request maxsimul hs
    cases hc : chain_of st RLM_COMPONENT_SESS 0 with
    | none => simp [hc] at hs
    | some chain =>
      unfold module_checksimul
      cases ht : st.components RLM_COMPONENT_SESS with
      | nil => rfl
      | cons a t =>
        cases hu : request.username with
        | none => rfl
        | some u =>
          simp only [hc]
          have hw : (walk (fun m => m.checksimul) RLM_COMPONENT_SESS k.RLM_MODULE_FAIL
              chain k.RLM_MODULE_FAIL
              { username := some u, simul_count := 0, simul_max := maxsimul, simul_mpp := 1,
                payload := request.payload } st).isSome = true :=
            walk_chain_of st h RLM_COMPONENT_SESS 0 k.RLM_MODULE_FAIL chain hc
              k.RLM_MODULE_FAIL _
          cases hwalk : walk (fun m => m.checksimul) RLM_COMPONENT_SESS k.RLM_MODULE_FAIL
              chain k.RLM_MODULE_FAIL
              { username := some u, simul_count := 0, simul_max := maxsimul, simul_mpp := 1,
                payload := request.payload } st with
          | none => simp [hwalk] at hw
          | some out =>
            by_cases ho : out.1 = k.RLM_MODULE_OK
            · simp [ho]
            · simp [ho]

/-- C21 on the configuration `demoEnvBlocks`, from the initial state: `setup_modules`
returns with the Authenticate chains of selectors 32767 (instances a and b2) and 32768
(instance a); the state it leaves, and the state `load_component_section` leaves for the
`authenticate` section, have every chained instance with the handler of its phase, and
`module_authenticate` for selector 32767 gives a result. -/
theorem C21_chain_instances_have_phase_handler_witness :
    (setup_modules demoConsts demoEnvBlocks
      (State.initial [⟨1000, "Local", 0⟩] { cells := [] })).state.table RLM_COMPONENT_AUTH =
      [(32767, [0, 1]), (32768, [0])] ∧
    HandlersOk (setup_modules demoConsts demoEnvBlocks
      (State.initial [⟨1000, "Local", 0⟩] { cells := [] })).state ∧
    HandlersOk (load_component_section demoConsts demoEnvBlocks RLM_COMPONENT_AUTH
      [ CONF_ITEM.sect "authtype" (some "PAP") 11
          [CONF_ITEM.pair "a" 12, CONF_ITEM.pair "b2" 13],
        CONF_ITEM.pair "a" 14,
        CONF_ITEM.sect "authtype" (some "PAP") 15 [CONF_ITEM.pair "a" 16] ]
      (State.initial [⟨1000, "Local", 0⟩] { cells := [] })).state ∧
    (module_authenticate demoConsts 32767 demoRequest
      (setup_modules demoConsts demoEnvBlocks
        (State.initial [⟨1000, "Local", 0⟩] { cells := [] })).state).isSome = true :=
  ⟨by decide,
   (C21_chain_instances_have_phase_handler demoConsts demoEnvBlocks
      (State.initial [⟨1000, "Local", 0⟩] { cells := [] })).2.1 (fun _ _ => rfl) (by decide),
   ((C21_chain_instances_have_phase_handler demoConsts demoEnvBlocks
      (State.initial [⟨1000, "Local", 0⟩] { cells := [] })).2.2
      ((C21_chain_instances_have_phase_handler demoConsts demoEnvBlocks
        (State.initial [⟨1000, "Local", 0⟩] { cells := [] })).1 (fun _ => rfl))).2.1
      RLM_COMPONENT_AUTH _,
   ((C21_chain_instances_have_phase_handler demoConsts demoEnvBlocks
      (setup_modules demoConsts demoEnvBlocks
        (State.initial [⟨1000, "Local", 0⟩] { cells := [] })).state).2.2
      ((C21_chain_instances_have_phase_handler demoConsts demoEnvBlocks
        (State.initial [⟨1000, "Local", 0⟩] { cells := [] })).2.1 (fun _ _ => rfl)
        (by decide))).2.2.2.2.2.1 32767 demoRequest (by decide)⟩

end Modules
